import Mathlib

/-!
MongoDB operator: reconciliation engine.

A shallow embedding of `step4/mongo-operator` (the controller, its resource
builders, the replication and sharding bootstrappers, the backup scheduler
and the admission webhook) together with theorems about it.

Conventions of the embedding

* Go `int` values are mathematical integers; the places where the program
  narrows or multiplies them (`int32(...)`, `a * b`) are modelled with the
  explicit wrap-around functions `toInt32` and `wrap64`.
* A Go `error` is an `Error`; a call ends in a `Res`: a value, an error, a
  run-time panic, or `hang` (a bounded loop of the model ran out of rounds;
  `waitForPrimary_bounded` shows that the election loop never does).
* The orchestration platform and the database driver are the environment
  `Env`: every call the program issues goes through one of its fields and is
  appended to the `trace` of the `World`.
* Time is counted in milliseconds.
-/

namespace MongoOperator

/-! ## Errors and results -/

/-- A Go `error`: its text and, for errors of the platform API, the status
reason that `apierrors` inspects (it survives wrapping with `%w`). -/
structure Error where
  msg : String
  reason : String := ""
deriving DecidableEq

/-- The check `apierrors.IsNotFound(err)`. -/
def IsNotFound (e : Error) : Bool := e.reason == "NotFound"

/-- The helper `client.IgnoreNotFound(err)` for a non-nil `err`. -/
def IgnoreNotFound (e : Error) : Option Error := if IsNotFound e then none else some e

/-- The call `fmt.Errorf(pre + "%w", err)`. -/
def wrapErr (pre : String) (e : Error) : Error := { msg := pre ++ e.msg, reason := e.reason }

/-- The call `fmt.Errorf(msg)` or `errors.New(msg)`. -/
def newErr (msg : String) : Error := { msg := msg }

/-- How a call ends. -/
inductive Res (α : Type) where
  | ok (a : α)
  | err (e : Error)
  | panic (m : String)
  | hang
deriving DecidableEq

/-- A call that returns only an `error`. -/
abbrev Ret := Res Unit

/-- Go `return err` for an `err` that may be nil. -/
def Res.ofErr : Option Error → Ret
  | none => .ok ()
  | some e => .err e

/-! ## Integers and formatting -/

/-- Two's-complement wrap-around of a 64-bit `int` result. -/
def wrap64 (x : Int) : Int := (x + 9223372036854775808) % 18446744073709551616 - 9223372036854775808

/-- The conversion `int32(x)`. -/
def toInt32 (x : Int) : Int := (x + 2147483648) % 4294967296 - 2147483648

/-- The verb `%d` of `fmt.Sprintf`. -/
def itoa : Int → String
  | .ofNat n => Nat.repr n
  | .negSucc n => "-" ++ Nat.repr (n + 1)

/-- The call `strings.Join(xs, sep)`. -/
def joinStrings (sep : String) : List String → String
  | [] => ""
  | [x] => x
  | x :: y :: rest => x ++ sep ++ joinStrings sep (y :: rest)

/-! ## The cluster object (`api/v1alpha1/mongodbcluster_types.go`) -/

structure SecretRef where
  Name : String := ""
  Namespace : String := ""
deriving DecidableEq

structure BackupSpec where
  Enabled : Bool := false
  Schedule : String := ""
  StorageEndpoint : String := ""
  Bucket : String := ""
  SecretRef : SecretRef := {}
deriving DecidableEq

structure ShardingSpec where
  Enabled : Bool := false
  Database : String := ""
  Collections : String := ""
  Key : String := ""
deriving DecidableEq

structure MongoDBClusterSpec where
  ReplicaSetCount : Int := 0
  ReplicaSetSize : Int := 0
  Sharding : Option ShardingSpec := none
  ConfigServerCount : Int := 0
  MongosCount : Int := 0
  Version : String := ""
  Backup : BackupSpec := {}
  StorageSize : String := ""
  StorageClass : String := ""
deriving DecidableEq

structure ClusterCondition where
  Type_ : String := ""
  Status : String := ""
  LastTransitionTime : String := ""
  Reason : String := ""
  Message : String := ""
deriving DecidableEq

structure MongoDBClusterStatus where
  Phase : String := ""
  Message : String := ""
  ReadyReplicas : Int := 0
  ReplicaSummary : String := ""
  CurrentVersion : String := ""
  LastBackupTime : Option String := none
  ShardingConfigured : Bool := false
  Conditions : List ClusterCondition := []
deriving DecidableEq

structure MongoDBCluster where
  Name : String := ""
  Namespace : String := ""
  UID : String := ""
  ResourceVersion : String := ""
  Spec : MongoDBClusterSpec := {}
  Status : MongoDBClusterStatus := {}
deriving DecidableEq

/-! ## Platform resources (the fields the builders set) -/

structure OwnerReference where
  APIVersion : String
  Kind : String
  Name : String
  UID : String
  Controller : Bool
  BlockOwnerDeletion : Bool
deriving DecidableEq

structure ObjectMeta where
  Name : String := ""
  Namespace : String := ""
  Labels : List (String × String) := []
  ResourceVersion : String := ""
  OwnerReferences : List OwnerReference := []
deriving DecidableEq

structure SecretKeySelector where
  Name : String
  Key : String
deriving DecidableEq

structure EnvVar where
  Name : String
  Value : String := ""
  ValueFrom : Option SecretKeySelector := none
deriving DecidableEq

structure VolumeMount where
  Name : String
  MountPath : String
deriving DecidableEq

structure Container where
  Name : String
  Image : String
  Command : List String := []
  Args : List String := []
  Env : List EnvVar := []
  Ports : List Int := []
  VolumeMounts : List VolumeMount := []
deriving DecidableEq

structure PodTemplateSpec where
  Labels : List (String × String) := []
  RestartPolicy : String := ""
  Containers : List Container := []
deriving DecidableEq

structure PersistentVolumeClaim where
  Name : String
  AccessModes : List String
  StorageRequest : String
deriving DecidableEq

structure StatefulSet where
  ObjectMeta : ObjectMeta
  Replicas : Int
  ServiceName : String
  Selector : List (String × String)
  Template : PodTemplateSpec
  VolumeClaimTemplates : List PersistentVolumeClaim
deriving DecidableEq

structure Deployment where
  ObjectMeta : ObjectMeta
  Replicas : Int
  Selector : List (String × String)
  Template : PodTemplateSpec
deriving DecidableEq

structure ServicePort where
  Name : String
  Port : Int
  Protocol : String
deriving DecidableEq

structure Service where
  ObjectMeta : ObjectMeta
  ClusterIP : String := ""
  Selector : List (String × String)
  Ports : List ServicePort
  Type_ : String := ""
deriving DecidableEq

structure CronJob where
  ObjectMeta : ObjectMeta
  Schedule : String
  Template : PodTemplateSpec
deriving DecidableEq

/-- The four kinds of managed resource. -/
inductive Kind where
  | StatefulSet
  | Deployment
  | Service
  | CronJob
deriving DecidableEq

/-- A managed resource as it is sent to or read from the platform. -/
inductive Object where
  | statefulSet (o : StatefulSet)
  | deployment (o : Deployment)
  | service (o : Service)
  | cronJob (o : CronJob)
deriving DecidableEq

def Object.kind : Object → Kind
  | .statefulSet _ => .StatefulSet
  | .deployment _ => .Deployment
  | .service _ => .Service
  | .cronJob _ => .CronJob

def Object.meta : Object → ObjectMeta
  | .statefulSet o => o.ObjectMeta
  | .deployment o => o.ObjectMeta
  | .service o => o.ObjectMeta
  | .cronJob o => o.ObjectMeta

def Object.setMeta (m : ObjectMeta) : Object → Object
  | .statefulSet o => .statefulSet { o with ObjectMeta := m }
  | .deployment o => .deployment { o with ObjectMeta := m }
  | .service o => .service { o with ObjectMeta := m }
  | .cronJob o => .cronJob { o with ObjectMeta := m }

/-- The assignment `obj.ResourceVersion = rv`. -/
def Object.setResourceVersion (rv : String) (o : Object) : Object :=
  o.setMeta { o.meta with ResourceVersion := rv }

/-! ## BSON values of the database driver -/

/-- A BSON value; `doc` is a document (`bson.D` in a command, `bson.M` in a
decoded reply), `arr` an array (`bson.A`). -/
inductive Bson where
  | null
  | str (s : String)
  | int (i : Int)
  | bool (b : Bool)
  | doc (fields : List (String × Bson))
  | arr (items : List Bson)

/-- The map index `m[key]` on a decoded document: the zero value `null` when the
key is missing. -/
def Bson.index (key : String) : List (String × Bson) → Bson
  | [] => .null
  | (k, v) :: rest => if k = key then v else Bson.index key rest

/-- A decoded reply or a command document: its fields in order. -/
abbrev Doc := List (String × Bson)

/-! ## The environment: platform API, database driver, scheduler -/

/-- One call that the program issues to the platform API or to the database
driver. -/
inductive Call where
  | getCluster (ns name : String)
  | get (k : Kind) (ns name : String)
  | create (o : Object)
  | update (o : Object)
  | statusUpdate (c : MongoDBCluster)
  | connect (uri : String) (direct : Bool)
  | ping (uri : String)
  | runCommand (uri : String) (cmd : Doc)
  | disconnect (uri : String)

/-- The collaborators of the controller, over a state `σ` of their own. Every
database call also reports how many milliseconds it took. -/
structure Env (σ : Type) where
  /-- The group-version-kind lookup of the owner inside
  `ctrl.SetControllerReference`: API version and kind, or its error. -/
  ownerGVK : Except Error (String × String)
  /-- The parser behind `resource.MustParse`: `none` where it panics. -/
  parseQuantity : String → Option String
  getCluster : String → String → σ → Except Error MongoDBCluster × σ
  get : Kind → String → String → σ → Except Error Object × σ
  create : Object → σ → Option Error × σ
  update : Object → σ → Option Error × σ
  statusUpdate : MongoDBCluster → σ → Option Error × σ
  connect : String → Bool → σ → (Option Error × Nat) × σ
  ping : String → σ → (Option Error × Nat) × σ
  runCommand : String → Doc → σ → (Except Error Doc × Nat) × σ
  disconnect : String → σ → σ
  /-- The choice of a `select` statement whose two cases are ready at the same
  moment: `true` takes the ticker. -/
  pickTick : σ → Bool × σ

/-- The state of the collaborators and the calls issued so far, oldest first. -/
structure World (σ : Type) where
  st : σ
  trace : List Call

variable {σ : Type}

/-- The call `r.Get(ctx, req.NamespacedName, &mongo)`. -/
def apiGetCluster (env : Env σ) (ns name : String) (w : World σ) :
    Except Error MongoDBCluster × World σ :=
  ((env.getCluster ns name w.st).1,
    { st := (env.getCluster ns name w.st).2, trace := w.trace ++ [Call.getCluster ns name] })

/-- The call `r.Get(ctx, client.ObjectKey{Name, Namespace}, &existing)`. -/
def apiGet (env : Env σ) (k : Kind) (ns name : String) (w : World σ) :
    Except Error Object × World σ :=
  ((env.get k ns name w.st).1,
    { st := (env.get k ns name w.st).2, trace := w.trace ++ [Call.get k ns name] })

/-- The call `r.Create(ctx, obj)`, returned as is. -/
def apiCreate (env : Env σ) (o : Object) (w : World σ) : Ret × World σ :=
  (Res.ofErr (env.create o w.st).1,
    { st := (env.create o w.st).2, trace := w.trace ++ [Call.create o] })

/-- The call `r.Update(ctx, obj)`, returned as is. -/
def apiUpdate (env : Env σ) (o : Object) (w : World σ) : Ret × World σ :=
  (Res.ofErr (env.update o w.st).1,
    { st := (env.update o w.st).2, trace := w.trace ++ [Call.update o] })

/-- The call `r.Status().Update(ctx, &mongo)`. -/
def apiStatusUpdate (env : Env σ) (c : MongoDBCluster) (w : World σ) : Ret × World σ :=
  (Res.ofErr (env.statusUpdate c w.st).1,
    { st := (env.statusUpdate c w.st).2, trace := w.trace ++ [Call.statusUpdate c] })

/-- The call `mongo.Connect(ctx, clientOpts)`. -/
def dbConnect (env : Env σ) (uri : String) (direct : Bool) (w : World σ) :
    (Option Error × Nat) × World σ :=
  ((env.connect uri direct w.st).1,
    { st := (env.connect uri direct w.st).2, trace := w.trace ++ [Call.connect uri direct] })

/-- The call `client.Ping(ctx, nil)`. -/
def dbPing (env : Env σ) (uri : String) (w : World σ) : (Option Error × Nat) × World σ :=
  ((env.ping uri w.st).1,
    { st := (env.ping uri w.st).2, trace := w.trace ++ [Call.ping uri] })

/-- The call `adminDB.RunCommand(ctx, cmd)` with its reply decoded. -/
def dbRunCommand (env : Env σ) (uri : String) (cmd : Doc) (w : World σ) :
    (Except Error Doc × Nat) × World σ :=
  ((env.runCommand uri cmd w.st).1,
    { st := (env.runCommand uri cmd w.st).2, trace := w.trace ++ [Call.runCommand uri cmd] })

/-- The call `client.Disconnect(ctx)`, whose result the program drops. -/
def dbDisconnect (env : Env σ) (uri : String) (w : World σ) : World σ :=
  { st := env.disconnect uri w.st, trace := w.trace ++ [Call.disconnect uri] }

/-- An object with the cluster object recorded as its controlling owner. -/
def withOwner (gvk : String × String) (mongo : MongoDBCluster) (obj : Object) : Object :=
  obj.setMeta { obj.meta with
    OwnerReferences := [{ APIVersion := gvk.1, Kind := gvk.2, Name := mongo.Name,
                          UID := mongo.UID, Controller := true, BlockOwnerDeletion := true }] }

/-- The function `ctrl.SetControllerReference(mongo, obj, r.Scheme)` on a freshly
built object: it records the cluster object as the controlling owner. -/
def SetControllerReference (env : Env σ) (mongo : MongoDBCluster) (obj : Object) :
    Except Error Object :=
  match env.ownerGVK with
  | .error e => .error e
  | .ok gvk => .ok (withOwner gvk mongo obj)

/-- The block that six builders end with: look the object up by name and
namespace, create it when the lookup reports not-found, return any other lookup
error, otherwise copy the found `ResourceVersion` and update. -/
def createOrUpdate (env : Env σ) (obj : Object) (w : World σ) : Ret × World σ :=
  match apiGet env obj.kind obj.meta.Namespace obj.meta.Name w with
  | (.error e, w1) => if IsNotFound e then apiCreate env obj w1 else (.err e, w1)
  | (.ok existing, w1) => apiUpdate env (obj.setResourceVersion existing.meta.ResourceVersion) w1

/-- The end of `reconcileShardService`: as `createOrUpdate`, except that a found
object is left alone (`return nil`). -/
def createIfAbsent (env : Env σ) (obj : Object) (w : World σ) : Ret × World σ :=
  match apiGet env obj.kind obj.meta.Namespace obj.meta.Name w with
  | (.error e, w1) => if IsNotFound e then apiCreate env obj w1 else (.err e, w1)
  | (.ok _, w1) => (.ok (), w1)

/-! ## Resource builders (`statefulSet.go`, `deployment.go`, `service.go`, `cronJob.go`) -/

def mongoDBPort : Int := 27017
def mongoShardPort : Int := 27018
def configServerPort : Int := 27019

/-- The object literal of `buildShardStatefulSet`; `q` is the parsed storage size. -/
def shardStatefulSet (q : String) (mongo : MongoDBCluster) (shardIndex : Int) : StatefulSet :=
  let labels := [("app", "mongo-shard" ++ itoa shardIndex)]
  let name := "mongo-shard" ++ itoa shardIndex
  let serviceName := mongo.Name ++ "-" ++ "shard" ++ itoa shardIndex
  { ObjectMeta := { Name := name, Namespace := mongo.Namespace, Labels := labels }
    Replicas := toInt32 mongo.Spec.ReplicaSetSize
    ServiceName := serviceName
    Selector := labels
    Template :=
      { Labels := labels
        Containers := [{
          Name := "mongod"
          Image := "mongo:" ++ mongo.Spec.Version
          Args := ["mongod", "--replSet", name, "--shardsvr", "--bind_ip_all"]
          Ports := [27018]
          VolumeMounts := [{ Name := "data", MountPath := "/data/db" }] }] }
    VolumeClaimTemplates :=
      [{ Name := "data", AccessModes := ["ReadWriteOnce"], StorageRequest := q }] }

def buildShardStatefulSet (env : Env σ) (mongo : MongoDBCluster) (shardIndex : Int)
    (w : World σ) : Ret × World σ :=
  match env.parseQuantity mongo.Spec.StorageSize with
  | none => (.panic "cannot parse quantity", w)
  | some q =>
    match SetControllerReference env mongo (.statefulSet (shardStatefulSet q mongo shardIndex)) with
    | .error e => (.err e, w)
    | .ok obj => createOrUpdate env obj w

/-- The object literal of `buildConfigServerStatefulSet`. -/
def configServerStatefulSet (q : String) (mongo : MongoDBCluster) : StatefulSet :=
  { ObjectMeta := { Name := "config", Namespace := mongo.Namespace }
    ServiceName := mongo.Name ++ "-configsvr"
    Replicas := toInt32 mongo.Spec.ConfigServerCount
    Selector := [("app", mongo.Name ++ "-configsvr")]
    Template :=
      { Labels := [("app", mongo.Name ++ "-configsvr")]
        Containers := [{
          Name := "mongod"
          Image := "mongo:" ++ mongo.Spec.Version
          Args := ["mongod", "--configsvr", "--replSet", "configReplSet", "--bind_ip_all"]
          Ports := [27019]
          VolumeMounts := [{ Name := "data", MountPath := "/data/db" }] }] }
    VolumeClaimTemplates :=
      [{ Name := "data", AccessModes := ["ReadWriteOnce"], StorageRequest := q }] }

def buildConfigServerStatefulSet (env : Env σ) (mongo : MongoDBCluster) (w : World σ) :
    Ret × World σ :=
  match env.parseQuantity mongo.Spec.StorageSize with
  | none => (.panic "cannot parse quantity", w)
  | some q =>
    match SetControllerReference env mongo (.statefulSet (configServerStatefulSet q mongo)) with
    | .error e => (.err e, w)
    | .ok obj => createOrUpdate env obj w

def joinHosts (hosts : List String) : String := joinStrings "," hosts

/-- The loop `for i := 0; i < n; i++ { hosts = append(hosts, f(i)) }`. -/
def collectRange (n : Int) (f : Int → String) : List String :=
  (List.range n.toNat).map (fun i => f (Int.ofNat i))

/-- The object literal of `buildMongosDeployment`. -/
def mongosDeployment (mongo : MongoDBCluster) : Deployment :=
  let hosts := collectRange mongo.Spec.ConfigServerCount (fun i =>
    "config-" ++ itoa i ++ "." ++ mongo.Name ++ "-configsvr." ++ mongo.Namespace
      ++ ".svc.cluster.local:27019")
  let configDB := "configReplSet/" ++ joinHosts hosts
  let labels := [("app", mongo.Name ++ "-mongos"), ("component", "mongos")]
  { ObjectMeta := { Name := "mongos", Namespace := mongo.Namespace, Labels := labels }
    Replicas := toInt32 mongo.Spec.MongosCount
    Selector := labels
    Template :=
      { Labels := labels
        Containers := [{
          Name := "mongos"
          Image := "mongo:" ++ mongo.Spec.Version
          Args := ["mongos", "--configdb=" ++ configDB, "--bind_ip_all"]
          Ports := [27017] }] } }

def buildMongosDeployment (env : Env σ) (mongo : MongoDBCluster) (w : World σ) :
    Ret × World σ :=
  match SetControllerReference env mongo (.deployment (mongosDeployment mongo)) with
  | .error e => (.err e, w)
  | .ok obj => createOrUpdate env obj w

/-- The object literal of `reconcileShardService`. -/
def shardService (mongo : MongoDBCluster) (shardIndex : Int) : Service :=
  let name := mongo.Name ++ "-shard" ++ itoa shardIndex
  let labels := [("app", "mongo-shard" ++ itoa shardIndex)]
  { ObjectMeta := { Name := name, Namespace := mongo.Namespace, Labels := labels }
    ClusterIP := "None"
    Selector := labels
    Ports := [{ Name := "mongodb", Port := mongoShardPort, Protocol := "TCP" }] }

def reconcileShardService (env : Env σ) (mongo : MongoDBCluster) (shardIndex : Int)
    (w : World σ) : Ret × World σ :=
  match SetControllerReference env mongo (.service (shardService mongo shardIndex)) with
  | .error e => (.err e, w)
  | .ok svc => createIfAbsent env svc w

/-- The object literal of `reconcileConfigSvrService`. -/
def configSvrService (mongo : MongoDBCluster) : Service :=
  { ObjectMeta :=
      { Name := mongo.Name ++ "-configsvr"
        Namespace := mongo.Namespace
        Labels := [("app.kubernetes.io/name", "configsvr"),
                   ("app.kubernetes.io/instance", mongo.Name),
                   ("app.kubernetes.io/component", "configsvr")] }
    ClusterIP := "None"
    Selector := [("app", mongo.Name ++ "-configsvr")]
    Ports := [{ Name := "mongodb", Port := configServerPort, Protocol := "TCP" }] }

def reconcileConfigSvrService (env : Env σ) (mongo : MongoDBCluster) (w : World σ) :
    Ret × World σ :=
  match SetControllerReference env mongo (.service (configSvrService mongo)) with
  | .error e => (.err e, w)
  | .ok svc => createOrUpdate env svc w

/-- The object literal of `reconcileMongosService`. -/
def mongosService (mongo : MongoDBCluster) : Service :=
  { ObjectMeta :=
      { Name := mongo.Name ++ "-mongos"
        Namespace := mongo.Namespace
        Labels := [("app.kubernetes.io/name", "mongos"),
                   ("app.kubernetes.io/instance", mongo.Name),
                   ("app.kubernetes.io/component", "mongos")] }
    Selector := [("app", mongo.Name ++ "-mongos")]
    Ports := [{ Name := "mongodb", Port := mongoDBPort, Protocol := "TCP" }]
    Type_ := "ClusterIP" }

def reconcileMongosService (env : Env σ) (mongo : MongoDBCluster) (w : World σ) :
    Ret × World σ :=
  match SetControllerReference env mongo (.service (mongosService mongo)) with
  | .error e => (.err e, w)
  | .ok svc => createOrUpdate env svc w

/-- The shell script of the backup container. -/
def backupScript (mongoURI s3Bucket : String) : String :=
  "\nBACKUP_NAME=\"backup-$(date +%F-%H%M%S).gz\"\nmongodump --uri=\"" ++ mongoURI ++
  "\" --archive | gzip > $BACKUP_NAME\naws --endpoint-url=$AWS_ENDPOINT_URL s3 cp $BACKUP_NAME s3://"
  ++ s3Bucket ++ "/$BACKUP_NAME\n"

/-- The object literal of `reconcileBackupCronJob`. -/
def backupCronJob (mongo : MongoDBCluster) : CronJob :=
  let schedule := mongo.Spec.Backup.Schedule
  let mongoURI := "mongodb://" ++ (mongo.Name ++ "-mongos") ++ ":27017"
  let s3Bucket := mongo.Spec.Backup.Bucket
  let script := backupScript mongoURI s3Bucket
  { ObjectMeta := { Name := mongo.Name ++ "-backup", Namespace := mongo.Namespace }
    Schedule := schedule
    Template :=
      { RestartPolicy := "Never"
        Containers := [{
          Name := "mongodump"
          Image := "sadegh81/mongo-aws:latest"
          Command := ["sh", "-c"]
          Args := [script]
          Env := [
            { Name := "AWS_ACCESS_KEY_ID"
              ValueFrom := some { Name := mongo.Spec.Backup.SecretRef.Name, Key := "accessKey" } },
            { Name := "AWS_SECRET_ACCESS_KEY"
              ValueFrom := some { Name := mongo.Spec.Backup.SecretRef.Name, Key := "secretKey" } },
            { Name := "AWS_ENDPOINT_URL", Value := mongo.Spec.Backup.StorageEndpoint }] }] } }

def reconcileBackupCronJob (env : Env σ) (mongo : MongoDBCluster) (w : World σ) :
    Ret × World σ :=
  if !mongo.Spec.Backup.Enabled then (.ok (), w)
  else
    match SetControllerReference env mongo (.cronJob (backupCronJob mongo)) with
    | .error e => (.err e, w)
    | .ok cronJob => createOrUpdate env cronJob w

/-! ## Timers

`select` over `ctx.Done()` and `ticker.C`. The clock starts when the context is
created; the context is done from `deadline` on, the ticker sends its next tick
at `tickAt`. A call made under the context returns by the deadline at the
latest. The context handed in by the caller is taken as never cancelled. -/

/-- The case of a `select` that fired. -/
inductive Fired where
  | done
  | tick
deriving DecidableEq

/-- The statement `select { case <-ctx.Done(): ... case <-ticker.C: ... }` entered
at time `now`: it blocks until one case is ready and returns that case and the
time; when both are ready at that time the runtime chooses (`pickTick`). -/
def goSelect (env : Env σ) (now deadline tickAt : Nat) (w : World σ) :
    (Fired × Nat) × World σ :=
  let t := max now (min deadline tickAt)
  if tickAt ≤ t then
    if deadline ≤ t then
      ((if (env.pickTick w.st).1 then Fired.tick else Fired.done, t),
        { w with st := (env.pickTick w.st).2 })
    else ((Fired.tick, t), w)
  else ((Fired.done, t), w)

/-- The time of the first tick after the one sent at `tickAt` was received at
time `t`: a tick that falls while the previous one is still unread is dropped. -/
def nextTick (period tickAt t : Nat) : Nat := tickAt + period * ((t - tickAt) / period + 1)

/-! ## Replication bootstrapper (`replication.go`) -/

/-- The `select` of `waitForReplicaSetHealthy`. The context is created before
`mongo.Connect` is called and the ticker after it has returned, so every tick
comes later than the clock reading `tickAt` it is counted at: a tick counted at
the deadline or after it finds the context done, and the `select`, blocked
until then, leaves through `ctx.Done()`. A tick counted before the deadline is
taken; when the statement is entered with the context done already and such a
tick unread, both cases are ready and the runtime chooses. -/
def probeSelect (env : Env σ) (now deadline tickAt : Nat) (w : World σ) :
    (Fired × Nat) × World σ :=
  if tickAt < deadline then goSelect env now deadline tickAt w
  else ((Fired.done, max now deadline), w)

/-- The `for`/`select` loop of `waitForReplicaSetHealthy`; the first argument
bounds the number of rounds. `client.Ping(ctx, nil)` runs under the context of
the probe: it returns `nil` only when the reply arrives before the deadline,
and returns the context's error at the deadline otherwise. -/
def waitForReplicaSetHealthyLoop (env : Env σ) (uri : String) (deadline : Nat) :
    Nat → Nat → Nat → World σ → Ret × World σ
  | 0, _, _, w => (.hang, w)
  | rounds + 1, now, tickAt, w =>
    match probeSelect env now deadline tickAt w with
    | ((Fired.done, _), w1) => (.err (newErr "timeout waiting for MongoDB to be reachable"), w1)
    | ((Fired.tick, t), w1) =>
      match dbPing env uri w1 with
      | ((none, d), w2) =>
        if t + d < deadline then (.ok (), w2)
        else waitForReplicaSetHealthyLoop env uri deadline rounds (min (t + d) deadline)
          (nextTick 5000 tickAt t) w2
      | ((some _, d), w2) =>
        waitForReplicaSetHealthyLoop env uri deadline rounds (min (t + d) deadline)
          (nextTick 5000 tickAt t) w2

/-- The function `waitForReplicaSetHealthy(uri, timeout)`, `timeout` in
milliseconds. The clock starts at `context.WithTimeout`; the ticker is created
once `mongo.Connect` has returned, so its ticks come 5 s, 10 s, ... after that
moment. -/
def waitForReplicaSetHealthy (env : Env σ) (uri : String) (timeout : Nat) (w : World σ) :
    Ret × World σ :=
  match dbConnect env ("mongodb://" ++ uri) false w with
  | ((some e, _), w1) => (.err (wrapErr "connection failed: " e), w1)
  | ((none, c), w1) =>
    let r := waitForReplicaSetHealthyLoop env ("mongodb://" ++ uri) timeout
      (timeout / 5000 + 1) c (c + 5000) w1
    (r.1, dbDisconnect env ("mongodb://" ++ uri) r.2)

def findReachableHost (env : Env σ) : List String → World σ → Res String × World σ
  | [], w => (.err (newErr "no reachable MongoDB host found"), w)
  | host :: rest, w =>
    match dbConnect env ("mongodb://" ++ host) true w with
    | ((none, _), w1) =>
      match dbPing env ("mongodb://" ++ host) w1 with
      | ((none, _), w2) => (.ok host, dbDisconnect env ("mongodb://" ++ host) w2)
      | ((some _, _), w2) => findReachableHost env rest (dbDisconnect env ("mongodb://" ++ host) w2)
    | ((some _, _), w1) => findReachableHost env rest w1

/-- The inner loop of `waitForPrimary` over the members of one reply: `true` when
a member reports `PRIMARY`. The assertion `m.(bson.M)` panics on a member that
is not a document. -/
def scanPrimary : List Bson → Res Bool
  | [] => .ok false
  | .doc memberMap :: rest =>
    match Bson.index "stateStr" memberMap with
    | .str stateStr => if stateStr = "PRIMARY" then .ok true else scanPrimary rest
    | _ => scanPrimary rest
  | _ :: _ => .panic "interface conversion: interface is not primitive.M"

/-- The `for`/`select` loop of `waitForPrimary`; the first argument bounds the
number of rounds. -/
def waitForPrimaryLoop (env : Env σ) (uri : String) :
    Nat → Nat → Nat → World σ → Ret × World σ
  | 0, _, _, w => (.hang, w)
  | rounds + 1, now, tickAt, w =>
    match goSelect env now 30000 tickAt w with
    | ((Fired.done, _), w1) =>
      (.err (newErr "timeout waiting for replica set to become primary"), w1)
    | ((Fired.tick, t), w1) =>
      match dbRunCommand env uri [("replSetGetStatus", .int 1)] w1 with
      | ((.error _, d), w2) =>
        waitForPrimaryLoop env uri rounds (min (t + d) 30000) (nextTick 2000 tickAt t) w2
      | ((.ok status, d), w2) =>
        match Bson.index "members" status with
        | .arr members =>
          match scanPrimary members with
          | .ok true => (.ok (), w2)
          | .ok false =>
            waitForPrimaryLoop env uri rounds (min (t + d) 30000) (nextTick 2000 tickAt t) w2
          | .err e => (.err e, w2)
          | .panic m => (.panic m, w2)
          | .hang => (.hang, w2)
        | _ => waitForPrimaryLoop env uri rounds (min (t + d) 30000) (nextTick 2000 tickAt t) w2

/-- The function `waitForPrimary(ctx, adminDB)`: a 30 s context, a 2 s ticker. -/
def waitForPrimary (env : Env σ) (uri : String) (w : World σ) : Ret × World σ :=
  waitForPrimaryLoop env uri 16 0 2000 w

/-- The member documents of the initiation command. -/
def memberList (members : List String) : List Bson :=
  (List.range members.length).zipWith
    (fun i m => Bson.doc [("_id", .int (Int.ofNat i)), ("host", .str m)]) members

/-- The `replSetInitiate` configuration document built by `InitReplicaSet`. -/
def replSetConfig (replicaSetName : String) (configServer : Bool) (members : List String) : Doc :=
  let config : Doc := [("_id", .str replicaSetName), ("members", .arr (memberList members))]
  if configServer then
    (config.take 1 ++ [("configsvr", Bson.bool true)]) ++ [("members", .arr (memberList members))]
  else config

/-- The function `InitReplicaSet`; the deferred `client.Disconnect` runs at every
return after the connection was made. -/
def InitReplicaSet (env : Env σ) (replicaSetName host : String) (configServer : Bool)
    (members : List String) (w : World σ) : Ret × World σ :=
  if members.length = 0 then
    (.err (newErr "No host for replication MongoDB: %!w(MISSING)"), w)
  else
    match dbConnect env ("mongodb://" ++ host) true w with
    | ((some e, _), w1) => (.err (wrapErr "failed to connect to MongoDB: " e), w1)
    | ((none, _), w1) =>
      match dbRunCommand env ("mongodb://" ++ host) [("replSetGetStatus", .int 1)] w1 with
      | ((.ok _, _), w2) => (.ok (), dbDisconnect env ("mongodb://" ++ host) w2)
      | ((.error _, _), w2) =>
        match dbRunCommand env ("mongodb://" ++ host)
            [("replSetInitiate", .doc (replSetConfig replicaSetName configServer members))] w2 with
        | ((.error e, _), w3) =>
          (.err (wrapErr "replSetInitiate failed: " e), dbDisconnect env ("mongodb://" ++ host) w3)
        | ((.ok _, _), w3) =>
          let r := waitForPrimary env ("mongodb://" ++ host) w3
          (r.1, dbDisconnect env ("mongodb://" ++ host) r.2)

/-- The address of config server `i` as `reconcileConfigServerReplicaSet` formats it. -/
def configServerHost (mongo : MongoDBCluster) (i : Int) : String :=
  "config" ++ "-" ++ itoa i ++ "." ++ (mongo.Name ++ "-configsvr") ++ "." ++ mongo.Namespace
    ++ ".svc.cluster.local:27019"

/-- The function `reconcileConfigServerReplicaSet`: the body of its loop ends in
`return waitForReplicaSetHealthy(host, 5*time.Second)`, so the loop is left in
its first round. -/
def reconcileConfigServerReplicaSet (env : Env σ) (mongo : MongoDBCluster) (w : World σ) :
    Ret × World σ :=
  if 0 < mongo.Spec.ConfigServerCount then
    waitForReplicaSetHealthy env (configServerHost mongo 0) 5000 w
  else
    match findReachableHost env [] w with
    | (.ok host, w1) => InitReplicaSet env "configReplSet" host true [] w1
    | (.err e, w1) => (.err e, w1)
    | (.panic m, w1) => (.panic m, w1)
    | (.hang, w1) => (.hang, w1)

/-- The address of member `i` of shard `shardID` as `reconcileReplicaSet` formats it. -/
def shardHost (mongo : MongoDBCluster) (shardID i : Int) : String :=
  "mongo-shard" ++ itoa shardID ++ "-" ++ itoa i ++ "." ++ (mongo.Name ++ "-shard") ++ itoa shardID
    ++ "." ++ mongo.Namespace ++ ".svc.cluster.local:27018"

/-- The loop of `reconcileReplicaSet` over the hosts of one shard: probe each host
for up to 3 s, drop the probe's error, collect the host. -/
def probeMembers (env : Env σ) : List String → World σ → Ret × World σ
  | [], w => (.ok (), w)
  | host :: rest, w =>
    match waitForReplicaSetHealthy env host 3000 w with
    | (.ok _, w1) => probeMembers env rest w1
    | (.err _, w1) => probeMembers env rest w1
    | (.panic m, w1) => (.panic m, w1)
    | (.hang, w1) => (.hang, w1)

def reconcileReplicaSet (env : Env σ) (mongo : MongoDBCluster) (shardID : Int) (w : World σ) :
    Ret × World σ :=
  let members := collectRange mongo.Spec.ReplicaSetSize (fun i => shardHost mongo shardID i)
  match probeMembers env members w with
  | (.ok _, w1) =>
    match findReachableHost env members w1 with
    | (.ok host, w2) => InitReplicaSet env ("mongo-shard" ++ itoa shardID) host false members w2
    | (.err e, w2) => (.err e, w2)
    | (.panic m, w2) => (.panic m, w2)
    | (.hang, w2) => (.hang, w2)
  | r => r

/-! ## Sharding bootstrapper (`sharding.go`) -/

/-- Shard represents a shard replica set to be added to the cluster. -/
structure Shard where
  ReplicaSetName : String
  Members : List String

/-- ShardConfig holds all options for initializing sharding. -/
structure ShardConfig where
  MongosURI : String
  Shards : List Shard
  EnableDB : String
  ShardCollection : String
  ShardKey : Doc

/-- The helper `contains(s, substr)`: the lengths compared, then equality, then
the first and the last `len(substr)` positions of `s`. A text is the list of
its characters; on well-formed text the comparisons of the byte slices and of
the character slices agree. -/
def contains (s substr : String) : Bool :=
  decide (substr.data.length ≤ s.data.length) &&
    (s.data == substr.data ||
      (decide (substr.data.length < s.data.length) &&
        (s.data.take substr.data.length == substr.data ||
          s.data.drop (s.data.length - substr.data.length) == substr.data)))

/-- The helper `isAlreadyExistsError(err)` for a non-nil `err`. -/
def isAlreadyExistsError (e : Error) : Bool :=
  contains e.msg "already exists" || contains e.msg "duplicate key"

/-- The helper `isAlreadyEnabledError(err)` for a non-nil `err`. -/
def isAlreadyEnabledError (e : Error) : Bool := contains e.msg "already enabled"

/-- The loop of `InitSharding` over `cfg.Shards`. -/
def addShards (env : Env σ) (uri : String) : List Shard → World σ → Ret × World σ
  | [], w => (.ok (), w)
  | shard :: rest, w =>
    if shard.Members.length = 0 then addShards env uri rest w
    else
      match dbRunCommand env uri
          [("addShard", .str (shard.ReplicaSetName ++ "/" ++ joinStrings "," shard.Members))] w with
      | ((.error e, _), w1) =>
        if !isAlreadyExistsError e then
          (.err (wrapErr ("failed to add shard " ++ shard.ReplicaSetName ++ ": ") e), w1)
        else addShards env uri rest w1
      | ((.ok _, _), w1) => addShards env uri rest w1

/-- The step of `InitSharding` that enables sharding on `cfg.EnableDB`. -/
def enableSharding (env : Env σ) (cfg : ShardConfig) (w : World σ) : Ret × World σ :=
  if cfg.EnableDB ≠ "" then
    match dbRunCommand env cfg.MongosURI [("enableSharding", .str cfg.EnableDB)] w with
    | ((.error e, _), w1) =>
      if !isAlreadyEnabledError e then
        (.err (wrapErr ("failed to enable sharding on db " ++ cfg.EnableDB ++ ": ") e), w1)
      else (.ok (), w1)
    | ((.ok _, _), w1) => (.ok (), w1)
  else (.ok (), w)

/-- The step of `InitSharding` that shards `cfg.ShardCollection`. -/
def shardCollection (env : Env σ) (cfg : ShardConfig) (w : World σ) : Ret × World σ :=
  if cfg.ShardCollection ≠ "" ∧ 0 < cfg.ShardKey.length then
    match dbRunCommand env cfg.MongosURI
        [("shardCollection", .str cfg.ShardCollection), ("key", .doc cfg.ShardKey)] w with
    | ((.error e, _), w1) =>
      (.err (wrapErr ("failed to shard collection " ++ cfg.ShardCollection ++ ": ") e), w1)
    | ((.ok _, _), w1) => (.ok (), w1)
  else (.ok (), w)

/-- InitSharding connects to mongos and adds shards + optionally enables sharding. -/
def InitSharding (env : Env σ) (cfg : ShardConfig) (w : World σ) : Ret × World σ :=
  match dbConnect env cfg.MongosURI false w with
  | ((some e, _), w1) => (.err (wrapErr "failed to connect to mongos: " e), w1)
  | ((none, _), w1) =>
    match addShards env cfg.MongosURI cfg.Shards w1 with
    | (.ok _, w2) =>
      match enableSharding env cfg w2 with
      | (.ok _, w3) =>
        let r := shardCollection env cfg w3
        (r.1, dbDisconnect env cfg.MongosURI r.2)
      | (r, w3) => (r, dbDisconnect env cfg.MongosURI w3)
    | (r, w2) => (r, dbDisconnect env cfg.MongosURI w2)

/-- The function `reconcileEnbaleShardingMongos`. Reading `mongo.Spec.Sharding.Database`
through a nil `Sharding` pointer is a run-time panic. -/
def reconcileEnbaleShardingMongos (env : Env σ) (mongo : MongoDBCluster) (shardID : Int)
    (w : World σ) : Ret × World σ :=
  let replicaSetName := "mongo-shard" ++ itoa shardID
  let serviceName := mongo.Name ++ "-shard" ++ itoa shardID
  let members := collectRange mongo.Spec.ReplicaSetSize (fun j =>
    replicaSetName ++ "-" ++ itoa j ++ "." ++ serviceName ++ "." ++ mongo.Namespace
      ++ ".svc.cluster.local:" ++ itoa 27018)
  match mongo.Spec.Sharding with
  | none => (.panic "invalid memory address or nil pointer dereference", w)
  | some sharding =>
    InitSharding env
      { MongosURI := "mongodb://" ++ mongo.Name ++ "-" ++ "mongos" ++ "." ++ mongo.Namespace
          ++ ".svc.cluster.local:27017"
        Shards := [{ ReplicaSetName := replicaSetName, Members := members }]
        EnableDB := sharding.Database
        ShardCollection := sharding.Collections
        ShardKey := [("_id", .str "hashed")] } w

/-! ## The reconciler (`mongodbcluster_controller.go`) -/

/-- The key of a reconcile request. -/
structure Request where
  Namespace : String
  Name : String

/-- One step of a pass. -/
abbrev Step (σ : Type) := World σ → Ret × World σ

/-- Sequencing `if err := a(); err != nil { return err }; b()`. -/
def andThen (a b : Step σ) : Step σ := fun w =>
  match a w with
  | (.ok _, w1) => b w1
  | r => r

/-- The rounds of a counting loop whose body returns on the first error. -/
def forEachIndex (body : Int → Step σ) : List Nat → Step σ
  | [], w => (.ok (), w)
  | i :: rest, w =>
    match body (Int.ofNat i) w with
    | (.ok _, w1) => forEachIndex body rest w1
    | r => r

/-- The loop `for i := 0; i < n; i++ { if err := body(i); err != nil { return err } }`. -/
def forRange (n : Int) (body : Int → Step σ) : Step σ := forEachIndex body (List.range n.toNat)

/-- The status that the end of `Reconcile` assigns to the loaded object. -/
def withRunningStatus (mongo : MongoDBCluster) : MongoDBCluster :=
  let totalShards := wrap64 (mongo.Spec.ReplicaSetCount * mongo.Spec.ReplicaSetSize)
  { mongo with Status := { mongo.Status with
      Phase := "Running"
      ReplicaSummary := itoa totalShards ++ "/" ++ itoa totalShards
      CurrentVersion := mongo.Spec.Version } }

/-- The last step of `Reconcile`: assign the status and write it. -/
def updateStatus (env : Env σ) (mongo : MongoDBCluster) : Step σ :=
  apiStatusUpdate env (withRunningStatus mongo)

/-- The steps of `Reconcile` between loading the cluster object and writing the
status. -/
def convergeResources (env : Env σ) (mongo : MongoDBCluster) : Step σ :=
  andThen (buildConfigServerStatefulSet env mongo) <|
  andThen (forRange mongo.Spec.ReplicaSetCount (fun i =>
    andThen (reconcileShardService env mongo i) (buildShardStatefulSet env mongo i))) <|
  andThen (buildMongosDeployment env mongo) <|
  andThen (reconcileConfigSvrService env mongo) <|
  andThen (reconcileMongosService env mongo) <|
  andThen (reconcileConfigServerReplicaSet env mongo) <|
  andThen (forRange mongo.Spec.ReplicaSetCount (fun i => reconcileReplicaSet env mongo i)) <|
  andThen (forRange mongo.Spec.ReplicaSetCount (fun i =>
    reconcileEnbaleShardingMongos env mongo i)) <|
  reconcileBackupCronJob env mongo

/-- The steps of `Reconcile` after the cluster object was loaded. -/
def reconcileLoaded (env : Env σ) (mongo : MongoDBCluster) : Step σ :=
  andThen (convergeResources env mongo) (updateStatus env mongo)

/-- The method `MongoDBClusterReconciler.Reconcile`. -/
def Reconcile (env : Env σ) (req : Request) (w : World σ) : Ret × World σ :=
  match apiGetCluster env req.Namespace req.Name w with
  | (.error e, w0) => (Res.ofErr (IgnoreNotFound e), w0)
  | (.ok mongo, w0) => reconcileLoaded env mongo w0

/-! ## Admission webhook (`mongodbcluster_webhook.go`) -/

/-- The method `MongoDBClusterCustomDefaulter.Default` on a cluster object. -/
def Default (m : MongoDBCluster) : MongoDBCluster :=
  let m1 := if m.Spec.ReplicaSetSize = 0 then
    { m with Spec := { m.Spec with ReplicaSetSize := 3 } } else m
  let m2 := if m1.Spec.Version = "" then
    { m1 with Spec := { m1.Spec with Version := "7" } } else m1
  let m3 := if m2.Spec.Backup.Enabled ∧ m2.Spec.Backup.Schedule = "" then
    { m2 with Spec := { m2.Spec with Backup := { m2.Spec.Backup with Schedule := "0 2 * * *" } } }
    else m2
  if m3.Spec.Backup.SecretRef.Name ≠ "" ∧ m3.Spec.Backup.SecretRef.Namespace = "" then
    { m3 with Spec := { m3.Spec with Backup := { m3.Spec.Backup with
        SecretRef := { m3.Spec.Backup.SecretRef with Namespace := m3.Namespace } } } }
  else m3

/-- The messages that `validateSpec` collects in `errs`, in order. -/
def validationErrors (m : MongoDBCluster) : List String :=
  let errs : List String := []
  let errs := if m.Spec.Backup.Enabled then
      let errs := if m.Spec.Backup.Schedule = "" then
        errs ++ ["spec.backup.schedule cannot be empty"] else errs
      let errs := if m.Spec.Backup.StorageEndpoint = "" then
        errs ++ ["spec.backup.storageEndpoint cannot be empty"] else errs
      let errs := if m.Spec.Backup.Bucket = "" then
        errs ++ ["spec.backup.bucket cannot be empty"] else errs
      if m.Spec.Backup.SecretRef.Name = "" ∨ m.Spec.Backup.SecretRef.Namespace = "" then
        errs ++ ["spec.backup.secretRef.name or namespace cannot be empty"] else errs
    else errs
  if m.Spec.StorageSize = "" then errs ++ ["spec.storageSize is required"] else errs

/-- validateSpec checks backup and sharding constraints. -/
def validateSpec (m : MongoDBCluster) : Option Error :=
  let errs := validationErrors m
  if 0 < errs.length then
    some (newErr ("spec validation failed: " ++ "[" ++ joinStrings " " errs ++ "]"))
  else none

/-- The method `MongoDBClusterCustomValidator.ValidateCreate`. -/
def ValidateCreate (obj : MongoDBCluster) : Option Error := validateSpec obj

/-- The method `MongoDBClusterCustomValidator.ValidateUpdate`. -/
def ValidateUpdate (_oldObj newObj : MongoDBCluster) : Option Error := validateSpec newObj

/-! ## An in-memory platform

A store that keeps what it is sent, finds a resource by kind, namespace and
name, refuses to create what exists and refuses an update that does not carry
the stored version token. The database driver stays a parameter. -/

/-- The database driver over a state `δ` of its own. -/
structure Driver (δ : Type) where
  connect : String → Bool → δ → (Option Error × Nat) × δ
  ping : String → δ → (Option Error × Nat) × δ
  runCommand : String → Doc → δ → (Except Error Doc × Nat) × δ
  disconnect : String → δ → δ
  pickTick : δ → Bool × δ

/-- The content of the platform store. -/
structure Store where
  clusters : List MongoDBCluster
  objs : List Object
  nextVersion : Nat

/-- Whether an object is the one stored under kind, namespace and name. -/
def Object.hasKey (k : Kind) (ns name : String) (o : Object) : Bool :=
  decide (o.kind = k) && decide (o.meta.Namespace = ns) && decide (o.meta.Name = name)

def notFoundError : Error := { msg := "not found", reason := "NotFound" }

def Store.get (k : Kind) (ns name : String) (s : Store) : Except Error Object :=
  match s.objs.find? (Object.hasKey k ns name) with
  | some o => .ok o
  | none => .error notFoundError

def Store.create (o : Object) (s : Store) : Option Error × Store :=
  if s.objs.any (Object.hasKey o.kind o.meta.Namespace o.meta.Name) then
    (some { msg := "already exists", reason := "AlreadyExists" }, s)
  else
    (none, { s with objs := s.objs ++ [o.setResourceVersion (Nat.repr s.nextVersion)]
                    nextVersion := s.nextVersion + 1 })

def Store.update (o : Object) (s : Store) : Option Error × Store :=
  match s.objs.find? (Object.hasKey o.kind o.meta.Namespace o.meta.Name) with
  | none => (some notFoundError, s)
  | some old =>
    if old.meta.ResourceVersion = o.meta.ResourceVersion then
      (none, { s with
        objs := s.objs.map (fun x =>
          if Object.hasKey o.kind o.meta.Namespace o.meta.Name x then
            o.setResourceVersion (Nat.repr s.nextVersion) else x)
        nextVersion := s.nextVersion + 1 })
    else (some { msg := "the object has been modified", reason := "Conflict" }, s)

def Store.getCluster (ns name : String) (s : Store) : Except Error MongoDBCluster :=
  match s.clusters.find? (fun c => decide (c.Namespace = ns) && decide (c.Name = name)) with
  | some c => .ok c
  | none => .error notFoundError

def Store.statusUpdate (c : MongoDBCluster) (s : Store) : Option Error × Store :=
  if s.clusters.any (fun x => decide (x.Namespace = c.Namespace) && decide (x.Name = c.Name)) then
    (none, { s with clusters := s.clusters.map (fun x =>
      if decide (x.Namespace = c.Namespace) && decide (x.Name = c.Name) then
        { x with Status := c.Status } else x) })
  else (some notFoundError, s)

/-- The environment made of the in-memory store and a database driver. -/
def memEnv {δ : Type} (drv : Driver δ) (parseQuantity : String → Option String) :
    Env (Store × δ) where
  ownerGVK := .ok ("database.sadegh.msm/v1alpha1", "MongoDBCluster")
  parseQuantity := parseQuantity
  getCluster := fun ns name s => (s.1.getCluster ns name, s)
  get := fun k ns name s => (s.1.get k ns name, s)
  create := fun o s => ((s.1.create o).1, ((s.1.create o).2, s.2))
  update := fun o s => ((s.1.update o).1, ((s.1.update o).2, s.2))
  statusUpdate := fun c s => ((s.1.statusUpdate c).1, ((s.1.statusUpdate c).2, s.2))
  connect := fun uri direct s => ((drv.connect uri direct s.2).1, (s.1, (drv.connect uri direct s.2).2))
  ping := fun uri s => ((drv.ping uri s.2).1, (s.1, (drv.ping uri s.2).2))
  runCommand := fun uri cmd s => ((drv.runCommand uri cmd s.2).1, (s.1, (drv.runCommand uri cmd s.2).2))
  disconnect := fun uri s => (s.1, drv.disconnect uri s.2)
  pickTick := fun s => ((drv.pickTick s.2).1, (s.1, (drv.pickTick s.2).2))

/-- A driver whose every call succeeds at once, with replies that carry nothing,
and that lets the ticker win when both cases of a `select` are ready. -/
def healthyDriver : Driver Unit where
  connect := fun _ _ s => ((none, 0), s)
  ping := fun _ s => ((none, 0), s)
  runCommand := fun _ _ s => ((.ok [], 0), s)
  disconnect := fun _ s => s
  pickTick := fun s => (true, s)

/-- A quantity parser that accepts every non-empty text. -/
def acceptNonEmpty (s : String) : Option String := if s = "" then none else some s

/-- The cluster object of the convergence example: two shards of three members,
three config servers, one router. -/
def sampleCluster : MongoDBCluster :=
  { Name := "demo", Namespace := "db", UID := "u1"
    Spec := { ReplicaSetCount := 2, ReplicaSetSize := 3, ConfigServerCount := 3, MongosCount := 1
              Sharding := some { Enabled := true, Database := "app", Collections := "app.users" }
              Version := "7", StorageSize := "1Gi"
              Backup := { Enabled := true, Schedule := "0 2 * * *", StorageEndpoint := "http://s3"
                          Bucket := "dumps", SecretRef := { Name := "creds", Namespace := "db" } } } }

/-- A platform that holds the sample cluster object and no managed resource. -/
def sampleWorld : World (Store × Unit) :=
  { st := ({ clusters := [sampleCluster], objs := [], nextVersion := 1 }, ()), trace := [] }

def sampleEnv : Env (Store × Unit) := memEnv healthyDriver acceptNonEmpty

def sampleRequest : Request := { Namespace := "db", Name := "demo" }

/-- A cluster object with negative counts and a valid storage size. -/
def negativeCountCluster : MongoDBCluster :=
  { Name := "demo", Namespace := "db"
    Spec := { ReplicaSetCount := -1, ReplicaSetSize := -2, ConfigServerCount := -3,
              MongosCount := -4, StorageSize := "1Gi" } }

/-- The sample platform after one pass: it holds the workloads and the network
endpoints. -/
def sampleWorldAfterPass : World (Store × Unit) :=
  (Reconcile sampleEnv sampleRequest sampleWorld).2

/-! ## The steps of a pass, named -/

/-- The steps of one pass. -/
inductive StepName where
  | configServerWorkload
  | shardNetwork (i : Nat)
  | shardWorkload (i : Nat)
  | routerWorkload
  | configServerNetwork
  | routerNetwork
  | configServerReplication
  | shardReplication (i : Nat)
  | shardSharding (i : Nat)
  | backupJob
  | statusWrite
deriving DecidableEq

/-- The function of the program behind each step. -/
def runStep (env : Env σ) (mongo : MongoDBCluster) : StepName → Step σ
  | .configServerWorkload => buildConfigServerStatefulSet env mongo
  | .shardNetwork i => reconcileShardService env mongo (Int.ofNat i)
  | .shardWorkload i => buildShardStatefulSet env mongo (Int.ofNat i)
  | .routerWorkload => buildMongosDeployment env mongo
  | .configServerNetwork => reconcileConfigSvrService env mongo
  | .routerNetwork => reconcileMongosService env mongo
  | .configServerReplication => reconcileConfigServerReplicaSet env mongo
  | .shardReplication i => reconcileReplicaSet env mongo (Int.ofNat i)
  | .shardSharding i => reconcileEnbaleShardingMongos env mongo (Int.ofNat i)
  | .backupJob => reconcileBackupCronJob env mongo
  | .statusWrite => updateStatus env mongo

/-- The order in which a pass over `mongo` takes its steps. -/
def stepOrder (mongo : MongoDBCluster) : List StepName :=
  [StepName.configServerWorkload] ++
  (List.range mongo.Spec.ReplicaSetCount.toNat).flatMap
    (fun i => [StepName.shardNetwork i, StepName.shardWorkload i]) ++
  [StepName.routerWorkload, StepName.configServerNetwork, StepName.routerNetwork,
    StepName.configServerReplication] ++
  (List.range mongo.Spec.ReplicaSetCount.toNat).map StepName.shardReplication ++
  (List.range mongo.Spec.ReplicaSetCount.toNat).map StepName.shardSharding ++
  [StepName.backupJob, StepName.statusWrite]

/-- Steps taken one after the other until one does not succeed. -/
def runSteps (env : Env σ) (mongo : MongoDBCluster) : List StepName → Step σ
  | [], w => (.ok (), w)
  | s :: rest, w =>
    match runStep env mongo s w with
    | (.ok _, w1) => runSteps env mongo rest w1
    | r => r

/-! ## Relations between the world before and after a call -/

/-- The later world has the trace of the earlier one, extended by calls that all
satisfy `P`. -/
def Extends (P : Call → Prop) (w w1 : World σ) : Prop :=
  ∃ evs, w1.trace = w.trace ++ evs ∧ ∀ c ∈ evs, P c

/-- A reflexive and transitive relation. -/
structure Preorder2 (R : World σ → World σ → Prop) : Prop where
  refl : ∀ w, R w w
  trans : ∀ a b c, R a b → R b c → R a c

/-- The relation `R` holds across every call to the database driver. -/
structure DbFrame (env : Env σ) (R : World σ → World σ → Prop) : Prop where
  connect : ∀ uri d w, R w (dbConnect env uri d w).2
  ping : ∀ uri w, R w (dbPing env uri w).2
  run : ∀ uri cmd w, R w (dbRunCommand env uri cmd w).2
  disconnect : ∀ uri w, R w (dbDisconnect env uri w)
  pick : ∀ w : World σ, R w { w with st := (env.pickTick w.st).2 }

/-- The relation `R` holds across every lookup, create and update. -/
structure ApiFrame (env : Env σ) (R : World σ → World σ → Prop) : Prop where
  get : ∀ k ns name w, R w (apiGet env k ns name w).2
  create : ∀ o w, R w (apiCreate env o w).2
  update : ∀ o w, R w (apiUpdate env o w).2

/-- A driver whose connections all fail. -/
def downDriver : Driver Unit where
  connect := fun _ _ s => ((some { msg := "server selection error" }, 0), s)
  ping := fun _ s => ((some { msg := "server selection error" }, 0), s)
  runCommand := fun _ _ s => ((.error { msg := "server selection error" }, 0), s)
  disconnect := fun _ s => s
  pickTick := fun s => (false, s)

def downEnv : Env (Store × Unit) := memEnv downDriver acceptNonEmpty

/-! ## What the in-memory store holds -/

/-- Kind, namespace and name: the key under which the platform stores an object. -/
abbrev Key := Kind × String × String

def Object.key (o : Object) : Key := (o.kind, o.meta.Namespace, o.meta.Name)

/-- The store holds an object under the key. -/
def Store.has (s : Store) (key : Key) : Prop := ∃ x ∈ s.objs, x.key = key

/-- The version token under which the store holds the object with the key of
`o`; empty when it holds none. -/
def Store.versionOf (s : Store) (o : Object) : String :=
  match s.objs.find? (Object.hasKey o.kind o.meta.Namespace o.meta.Name) with
  | some x => x.meta.ResourceVersion
  | none => ""

/-- The steps of a pass that come before the config-server bootstrap: the steps
that manage workloads and network endpoints. -/
def resourceSteps (mongo : MongoDBCluster) : List StepName :=
  [StepName.configServerWorkload] ++
  (List.range mongo.Spec.ReplicaSetCount.toNat).flatMap
    (fun i => [StepName.shardNetwork i, StepName.shardWorkload i]) ++
  [StepName.routerWorkload, StepName.configServerNetwork, StepName.routerNetwork]

/-- The group, version and kind that `memEnv` records in owner references. -/
def memGVK : String × String := ("database.sadegh.msm/v1alpha1", "MongoDBCluster")

/-- The resource that a step of the pass looks up and creates or updates, with its
owner reference; `none` for a step that manages no resource (the database
steps, the status write, the backup step when backup is disabled, a workload
step whose storage size does not parse). -/
def stepObject (parseQuantity : String → Option String) (mongo : MongoDBCluster) :
    StepName → Option Object
  | .configServerWorkload =>
    (parseQuantity mongo.Spec.StorageSize).map (fun q =>
      withOwner memGVK mongo (.statefulSet (configServerStatefulSet q mongo)))
  | .shardNetwork i => some (withOwner memGVK mongo (.service (shardService mongo (Int.ofNat i))))
  | .shardWorkload i =>
    (parseQuantity mongo.Spec.StorageSize).map (fun q =>
      withOwner memGVK mongo (.statefulSet (shardStatefulSet q mongo (Int.ofNat i))))
  | .routerWorkload => some (withOwner memGVK mongo (.deployment (mongosDeployment mongo)))
  | .configServerNetwork => some (withOwner memGVK mongo (.service (configSvrService mongo)))
  | .routerNetwork => some (withOwner memGVK mongo (.service (mongosService mongo)))
  | .backupJob =>
    if mongo.Spec.Backup.Enabled then
      some (withOwner memGVK mongo (.cronJob (backupCronJob mongo)))
    else none
  | _ => none

/-! ## Observations on a trace -/

def Call.isCreate : Call → Bool
  | .create _ => true
  | _ => false

def Call.isUpdate : Call → Bool
  | .update _ => true
  | _ => false

def Call.isStatusUpdate : Call → Bool
  | .statusUpdate _ => true
  | _ => false

/-- Calls to the database driver. -/
def Call.isDb : Call → Bool
  | .connect _ _ => true
  | .ping _ => true
  | .runCommand _ _ => true
  | .disconnect _ => true
  | _ => false

/-- The object a `create` call carries. -/
def Call.created : Call → Option Object
  | .create o => some o
  | _ => none

/-- The object an `update` call carries. -/
def Call.updated : Call → Option Object
  | .update o => some o
  | _ => none

/-- The objects created along a trace, in order. -/
def createdObjects (t : List Call) : List Object := t.filterMap Call.created

/-- The objects updated along a trace, in order. -/
def updatedObjects (t : List Call) : List Object := t.filterMap Call.updated

/-- The number a list of decimal digit characters denotes. -/
def digitsVal (cs : List Char) : Nat := cs.foldl (fun a c => a * 10 + (c.toNat - 48)) 0

/-- Two cluster objects of one namespace with different names. -/
def clusterA : MongoDBCluster := { Name := "a", Namespace := "db" }

def clusterB : MongoDBCluster := { Name := "b", Namespace := "db" }

/-- The status request that `waitForPrimary` repeats. -/
def statusCmd : Doc := [("replSetGetStatus", .int 1)]

/-- No reply of the driver lists a member in state `PRIMARY`, and every member a
reply lists is a document. Failed replies and replies without a member array
are allowed. -/
def NeverPrimary (env : Env σ) : Prop :=
  ∀ uri cmd s, ∀ status, (env.runCommand uri cmd s).1.1 = .ok status →
    ∀ members, Bson.index "members" status = .arr members → scanPrimary members = .ok false

/-- A driver whose status reply lists a member that is not a document. -/
def malformedDriver : Driver Unit where
  connect := fun _ _ s => ((none, 0), s)
  ping := fun _ s => ((none, 0), s)
  runCommand := fun _ _ s => ((.ok [("members", .arr [.int 1])], 0), s)
  disconnect := fun _ s => s
  pickTick := fun s => (true, s)

def malformedEnv : Env (Store × Unit) := memEnv malformedDriver acceptNonEmpty

/-- A driver that never reports a primary: its status replies list one secondary. -/
def secondaryDriver : Driver Unit where
  connect := fun _ _ s => ((none, 0), s)
  ping := fun _ s => ((none, 0), s)
  runCommand := fun _ _ s =>
    ((.ok [("members", .arr [.doc [("stateStr", .str "SECONDARY")]])], 0), s)
  disconnect := fun _ s => s
  pickTick := fun s => (true, s)

def secondaryEnv : Env (Store × Unit) := memEnv secondaryDriver acceptNonEmpty

/-! ## Effects on the in-memory platform -/

/-- The calls that one pass issues, in order. -/
def passCalls (env : Env σ) (req : Request) (w : World σ) : List Call :=
  (Reconcile env req w).2.trace.drop w.trace.length

/-- The world one pass leaves. -/
def afterPass (env : Env σ) (req : Request) (w : World σ) : World σ := (Reconcile env req w).2

variable {δ : Type}

/-- The world after `createOrUpdate` or `createIfAbsent` created `obj` in the
in-memory store. -/
def afterCreate (obj : Object) (w : World (Store × δ)) : World (Store × δ) :=
  { st := ({ w.st.1 with
      objs := w.st.1.objs ++ [obj.setResourceVersion (Nat.repr w.st.1.nextVersion)]
      nextVersion := w.st.1.nextVersion + 1 }, w.st.2)
    trace := w.trace ++ [Call.get obj.kind obj.meta.Namespace obj.meta.Name, Call.create obj] }

/-- The world after `createOrUpdate` updated the stored object to `obj` under the
version token `rv`. -/
def afterUpdate (obj : Object) (rv : String) (w : World (Store × δ)) : World (Store × δ) :=
  { st := ({ w.st.1 with
      objs := w.st.1.objs.map (fun x =>
        if Object.hasKey obj.kind obj.meta.Namespace obj.meta.Name x then
          (obj.setResourceVersion rv).setResourceVersion (Nat.repr w.st.1.nextVersion) else x)
      nextVersion := w.st.1.nextVersion + 1 }, w.st.2)
    trace := w.trace ++ [Call.get obj.kind obj.meta.Namespace obj.meta.Name,
      Call.update (obj.setResourceVersion rv)] }

/-- The world after `createIfAbsent` found the object in the in-memory store. -/
def afterFound (obj : Object) (w : World (Store × δ)) : World (Store × δ) :=
  { st := w.st, trace := w.trace ++ [Call.get obj.kind obj.meta.Namespace obj.meta.Name] }

/-- What a step that manages the resource `obj` does to the in-memory platform:
afterwards the store holds `obj`'s key and has gained no other key, and what it
holds under the other keys has the version tokens it had; if the key was there
the step created nothing and its only update, if any, is of `obj` under the
version token the store held for it; if the key was missing the step looked it
up and created `obj`. -/
structure Applied (obj : Object) (w w1 : World (Store × δ)) : Prop where
  clusters : w1.st.1.clusters = w.st.1.clusters
  holds : w1.st.1.has obj.key
  mono : ∀ key, w.st.1.has key → w1.st.1.has key
  only : ∀ key, w1.st.1.has key → w.st.1.has key ∨ key = obj.key
  others : ∀ o : Object, o.key ≠ obj.key → w1.st.1.versionOf o = w.st.1.versionOf o
  kept : w.st.1.has obj.key → ∃ evs, w1.trace = w.trace ++ evs ∧
    (∀ c ∈ evs, c.isCreate = false ∧ c.isStatusUpdate = false) ∧
    ∀ c ∈ evs, c.isUpdate = true →
      c = Call.update (obj.setResourceVersion (w.st.1.versionOf obj))
  made : ¬ w.st.1.has obj.key →
    w1.trace = w.trace ++ [Call.get obj.kind obj.meta.Namespace obj.meta.Name, Call.create obj]

/-- What a step that manages no resource does to the in-memory platform: the
store is as before and no create, update or status update was issued. -/
structure Quiet (w w1 : World (Store × δ)) : Prop where
  store : w1.st.1 = w.st.1
  calls : ∃ evs, w1.trace = w.trace ++ evs ∧
    ∀ c ∈ evs, c.isCreate = false ∧ c.isUpdate = false ∧ c.isStatusUpdate = false

/-- The key of the resource that a step manages. -/
def stepKey (mongo : MongoDBCluster) : StepName → Option Key
  | .configServerWorkload => some (Kind.StatefulSet, mongo.Namespace, "config")
  | .shardNetwork i => some (Kind.Service, mongo.Namespace, mongo.Name ++ "-shard" ++ Nat.repr i)
  | .shardWorkload i => some (Kind.StatefulSet, mongo.Namespace, "mongo-shard" ++ Nat.repr i)
  | .routerWorkload => some (Kind.Deployment, mongo.Namespace, "mongos")
  | .configServerNetwork => some (Kind.Service, mongo.Namespace, mongo.Name ++ "-configsvr")
  | .routerNetwork => some (Kind.Service, mongo.Namespace, mongo.Name ++ "-mongos")
  | .backupJob => some (Kind.CronJob, mongo.Namespace, mongo.Name ++ "-backup")
  | _ => none

/-- A cluster object whose router count does not fit in 32 bits. -/
def wideCluster : MongoDBCluster :=
  { sampleCluster with Spec := { sampleCluster.Spec with MongosCount := 4294967297 } }

def wideWorld : World (Store × Unit) :=
  { st := ({ clusters := [wideCluster], objs := [], nextVersion := 1 }, ()), trace := [] }

/-! ## Observations on created resources -/

/-- The number of objects of kind `k` in a list. -/
def countKind (k : Kind) (l : List Object) : Nat := l.countP (fun o => decide (o.kind = k))

/-- The replica count a workload object carries. -/
def Object.replicas : Object → Option Int
  | .statefulSet o => some o.Replicas
  | .deployment o => some o.Replicas
  | _ => none

/-! ## Observations on database calls -/

/-- The command document of a `RunCommand` call. -/
def Call.command : Call → Option Doc
  | .runCommand _ cmd => some cmd
  | _ => none

/-- The name of a command: the key of its first field. -/
def commandName : Doc → String
  | [] => ""
  | (k, _) :: _ => k

/-- The commands of the given name along a trace, in order. -/
def commandsNamed (name : String) (t : List Call) : List Doc :=
  (t.filterMap Call.command).filter (fun d => commandName d == name)

/-- The address and mode of a `Connect` call. -/
def Call.connection : Call → Option (String × Bool)
  | .connect uri direct => some (uri, direct)
  | _ => none

/-- The connections opened along a trace, in order. -/
def connections (t : List Call) : List (String × Bool) := t.filterMap Call.connection

/-- The address a call to the database driver goes to. -/
def Call.dbUri : Call → Option String
  | .connect uri _ => some uri
  | .ping uri => some uri
  | .runCommand uri _ => some uri
  | .disconnect uri => some uri
  | _ => none

/-- The calls that a function issued: the trace it left without the trace it
started from. -/
def callsSince (w w1 : World σ) : List Call := w1.trace.drop w.trace.length

/-- Member `host` accepts a direct connection and then answers the ping, when
the collaborators are in state `s`. -/
def reachable (env : Env σ) (host : String) (s : σ) : Bool :=
  (env.connect ("mongodb://" ++ host) true s).1.1.isNone &&
    (env.ping ("mongodb://" ++ host) (env.connect ("mongodb://" ++ host) true s).2).1.1.isNone

/-- The replication bootstrap as the specification words it, one algorithm with
the parameters replica-set name, config-server flag and member list: probe
every member (best effort), select the first reachable member, initiate the
set on it with all members. -/
def specBootstrap (env : Env σ) (replicaSetName : String) (configServer : Bool)
    (members : List String) (w : World σ) : Ret × World σ :=
  match probeMembers env members w with
  | (.ok _, w1) =>
    match findReachableHost env members w1 with
    | (.ok host, w2) => InitReplicaSet env replicaSetName host configServer members w2
    | (.err e, w2) => (.err e, w2)
    | (.panic m, w2) => (.panic m, w2)
    | (.hang, w2) => (.hang, w2)
  | r => r

/-- The members of the config-server set as the specification lists them. -/
def specConfigServerMembers (mongo : MongoDBCluster) : List String :=
  collectRange mongo.Spec.ConfigServerCount (fun i => configServerHost mongo i)

/-! ## Drivers and cluster objects of the examples -/

/-- A driver that refuses the connection to `a` and the ping of `b`, and serves
every other address. -/
def pickyDriver : Driver Unit where
  connect := fun uri _ s =>
    if uri = "mongodb://a" then ((some (newErr "connection refused"), 0), s) else ((none, 0), s)
  ping := fun uri s =>
    if uri = "mongodb://b" then ((some (newErr "no response"), 0), s) else ((none, 0), s)
  runCommand := fun _ _ s => ((.ok [], 0), s)
  disconnect := fun _ s => s
  pickTick := fun s => (true, s)

def pickyEnv : Env (Store × Unit) := memEnv pickyDriver acceptNonEmpty

/-- A driver for a set that is not initiated yet: its state tells whether
`replSetInitiate` was received; before that a status request fails, afterwards
it lists a primary. -/
def electingDriver : Driver Bool where
  connect := fun _ _ s => ((none, 0), s)
  ping := fun _ s => ((none, 0), s)
  runCommand := fun _ cmd s =>
    if commandName cmd = "replSetInitiate" then ((.ok [], 0), true)
    else if commandName cmd = "replSetGetStatus" then
      if s then ((.ok [("members", .arr [.doc [("stateStr", .str "PRIMARY")]])], 0), s)
      else ((.error { msg := "no replset config has been received" }, 0), s)
    else ((.ok [], 0), s)
  disconnect := fun _ s => s
  pickTick := fun s => (true, s)

def electingEnv : Env (Store × Bool) := memEnv electingDriver acceptNonEmpty

def electingWorld : World (Store × Bool) :=
  { st := ({ clusters := [sampleCluster], objs := [], nextVersion := 1 }, false), trace := [] }

/-- A driver that refuses `replSetInitiate` on a set that reports no status. -/
def refusingDriver : Driver Unit where
  connect := fun _ _ s => ((none, 0), s)
  ping := fun _ s => ((none, 0), s)
  runCommand := fun _ cmd s =>
    if commandName cmd = "replSetGetStatus" then
      ((.error { msg := "no replset config has been received" }, 0), s)
    else if commandName cmd = "replSetInitiate" then
      ((.error { msg := "not authorized" }, 0), s)
    else ((.ok [], 0), s)
  disconnect := fun _ s => s
  pickTick := fun s => (true, s)

def refusingEnv : Env (Store × Unit) := memEnv refusingDriver acceptNonEmpty

/-- A driver that serves direct connections only: a connection that is not
direct fails. -/
def directOnlyDriver : Driver Unit where
  connect := fun _ direct s =>
    if direct then ((none, 0), s) else ((some (newErr "server selection error"), 0), s)
  ping := fun _ s => ((none, 0), s)
  runCommand := fun _ _ s => ((.ok [], 0), s)
  disconnect := fun _ s => s
  pickTick := fun s => (true, s)

def directOnlyEnv : Env (Store × Unit) := memEnv directOnlyDriver acceptNonEmpty

/-- A driver whose `addShard` fails with the given text, every other call
succeeding. -/
def addShardFailsDriver (text : String) : Driver Unit where
  connect := fun _ _ s => ((none, 0), s)
  ping := fun _ s => ((none, 0), s)
  runCommand := fun _ cmd s =>
    if commandName cmd = "addShard" then ((.error { msg := text }, 0), s) else ((.ok [], 0), s)
  disconnect := fun _ s => s
  pickTick := fun s => (true, s)

def addShardFailsEnv (text : String) : Env (Store × Unit) :=
  memEnv (addShardFailsDriver text) acceptNonEmpty

/-- A shard configuration with two shards of two members each. -/
def twoShardConfig : ShardConfig :=
  { MongosURI := "mongodb://demo-mongos.db.svc.cluster.local:27017"
    Shards := [{ ReplicaSetName := "mongo-shard0", Members := ["h0", "h1"] },
               { ReplicaSetName := "mongo-shard1", Members := ["h2", "h3"] }]
    EnableDB := "", ShardCollection := "", ShardKey := [] }

/-- The sample cluster object without a sharding policy. -/
def noPolicyCluster : MongoDBCluster :=
  { sampleCluster with Spec := { sampleCluster.Spec with Sharding := none } }

def noPolicyWorld : World (Store × Unit) :=
  { st := ({ clusters := [noPolicyCluster], objs := [], nextVersion := 1 }, ()), trace := [] }

/-- The sample cluster object with a sharding policy that is switched off. -/
def disabledPolicyCluster : MongoDBCluster :=
  { sampleCluster with Spec := { sampleCluster.Spec with
      Sharding := some { Enabled := false, Database := "app", Collections := "app.users" } } }

/-- The sample cluster object with the declared shard key `userId`. -/
def keyedCluster : MongoDBCluster :=
  { sampleCluster with Spec := { sampleCluster.Spec with
      Sharding := some { Enabled := true, Database := "app", Collections := "app.users",
                         Key := "userId" } } }

/-- The cluster object with its sharding policy replaced. -/
def withSharding (policy : Option ShardingSpec) (mongo : MongoDBCluster) : MongoDBCluster :=
  { mongo with Spec := { mongo.Spec with Sharding := policy } }

/-! ## Names and addresses as the specification writes them -/

/-- The replica-set name of shard `i` as the specification writes it. -/
def specShardSetName (i : Int) : String := "mongo-shard" ++ itoa i

/-- The address of member `j` of shard `i` as the specification writes it. -/
def specShardAddress (mongo : MongoDBCluster) (i j : Int) : String :=
  "mongo-shard" ++ itoa i ++ "-" ++ itoa j ++ "." ++ mongo.Name ++ "-shard" ++ itoa i ++ "."
    ++ mongo.Namespace ++ ".svc.cluster.local:27018"

/-- The ordered member list of shard `i` as the specification writes it: one
address per index below the replica-set size. -/
def specShardMembers (mongo : MongoDBCluster) (i : Int) : List String :=
  (List.range mongo.Spec.ReplicaSetSize.toNat).map (fun j => specShardAddress mongo i (Int.ofNat j))

/-- The address of config server `i` as the specification writes it. -/
def specConfigAddress (mongo : MongoDBCluster) (i : Int) : String :=
  "config-" ++ itoa i ++ "." ++ mongo.Name ++ "-configsvr." ++ mongo.Namespace
    ++ ".svc.cluster.local:27019"

/-- The argument lists of the containers of a pod template. -/
def containerArgs (t : PodTemplateSpec) : List (List String) := t.Containers.map (fun c => c.Args)

/-- The ports of the containers of a pod template. -/
def containerPorts (t : PodTemplateSpec) : List Int := t.Containers.flatMap (fun c => c.Ports)

/-! ## Admission and the counts -/

/-- A cluster object with its four counts replaced. -/
def withCounts (replicaSetCount replicaSetSize configServerCount mongosCount : Int)
    (m : MongoDBCluster) : MongoDBCluster :=
  { m with Spec := { m.Spec with
      ReplicaSetCount := replicaSetCount
      ReplicaSetSize := replicaSetSize
      ConfigServerCount := configServerCount
      MongosCount := mongosCount } }

/-! ## Shard registration, command by command -/

/-- The `addShard` command that the loop of `InitSharding` builds for a shard
descriptor. -/
def addShardCommand (shard : Shard) : Doc :=
  [("addShard", .str (shard.ReplicaSetName ++ "/" ++ joinStrings "," shard.Members))]

/-- The `addShard` command of `shard`, sent to `uri` when the collaborators are
in state `st`, fails with an error that `isAlreadyExistsError` does not
accept: the condition under which the loop of `InitSharding` returns. -/
def addShardFatal (env : Env σ) (uri : String) (shard : Shard) (st : σ) : Bool :=
  match (env.runCommand uri (addShardCommand shard) st).1.1 with
  | .error e => !isAlreadyExistsError e
  | .ok _ => false

/-- A driver whose `addShard` fails with `boom` for the connection string `bad`
and succeeds for every other. -/
def oneShardFailsDriver (bad : String) : Driver Unit where
  connect := fun _ _ s => ((none, 0), s)
  ping := fun _ s => ((none, 0), s)
  runCommand := fun _ cmd s =>
    match cmd with
    | [("addShard", .str v)] =>
      if v = bad then ((.error (newErr "boom"), 0), s) else ((.ok [], 0), s)
    | _ => ((.ok [], 0), s)
  disconnect := fun _ s => s
  pickTick := fun s => (true, s)

def oneShardFailsEnv (bad : String) : Env (Store × Unit) :=
  memEnv (oneShardFailsDriver bad) acceptNonEmpty

/-- A shard configuration with four descriptors, the second without members. -/
def fourShardConfig : ShardConfig :=
  { MongosURI := "mongodb://demo-mongos.db.svc.cluster.local:27017"
    Shards := [{ ReplicaSetName := "mongo-shard0", Members := ["h0", "h1"] },
               { ReplicaSetName := "mongo-shard1", Members := [] },
               { ReplicaSetName := "mongo-shard2", Members := ["h2", "h3"] },
               { ReplicaSetName := "mongo-shard3", Members := ["h4"] }]
    EnableDB := "", ShardCollection := "", ShardKey := [] }

/-! ## The locals of the two shard bootstrappers -/

/-- The local `replicaSetName` of `reconcileReplicaSet`. -/
def replicationSetName (shardID : Int) : String := "mongo-shard" ++ itoa shardID

/-- The local `members` of `reconcileReplicaSet` when its loop is left. -/
def replicationMembers (mongo : MongoDBCluster) (shardID : Int) : List String :=
  collectRange mongo.Spec.ReplicaSetSize (fun i => shardHost mongo shardID i)

/-- The local `replicaSetName` of `reconcileEnbaleShardingMongos`. -/
def shardingSetName (shardID : Int) : String := "mongo-shard" ++ itoa shardID

/-- The local `members` of `reconcileEnbaleShardingMongos` when its loop is left,
before the sharding policy is read. -/
def shardingMembers (mongo : MongoDBCluster) (shardID : Int) : List String :=
  collectRange mongo.Spec.ReplicaSetSize (fun j =>
    "mongo-shard" ++ itoa shardID ++ "-" ++ itoa j ++ "." ++
      (mongo.Name ++ "-shard" ++ itoa shardID) ++ "." ++ mongo.Namespace
      ++ ".svc.cluster.local:" ++ itoa 27018)

/-! ## The statements of the config-server bootstrap after its loop -/

/-- The statements of `reconcileConfigServerReplicaSet` that follow its loop,
for the member list the loop has collected: select a reachable member and
initiate the config-server set on it. -/
def configServerInitiate (env : Env σ) (members : List String) (w : World σ) : Ret × World σ :=
  match findReachableHost env members w with
  | (.ok host, w1) => InitReplicaSet env "configReplSet" host true members w1
  | (.err e, w1) => (.err e, w1)
  | (.panic m, w1) => (.panic m, w1)
  | (.hang, w1) => (.hang, w1)

/-! # Theorems -/

/-! ## Decimal rendering and names -/

theorem digitChar_isDigit (k : Nat) (h : k < 10) : (Nat.digitChar k).isDigit = true := by
  interval_cases k <;> decide

theorem digitChar_val (k : Nat) (h : k < 10) : (Nat.digitChar k).toNat - 48 = k := by
  interval_cases k <;> decide

theorem digitsVal_append_singleton (xs : List Char) (c : Char) :
    digitsVal (xs ++ [c]) = digitsVal xs * 10 + (c.toNat - 48) := by
  simp [digitsVal, List.foldl_append]

theorem toDigitsCore_spec (fuel : Nat) : ∀ (n : Nat) (ds : List Char), n < fuel →
    ∃ xs, Nat.toDigitsCore 10 fuel n ds = xs ++ ds ∧ xs ≠ [] ∧
      (∀ c ∈ xs, c.isDigit = true) ∧ digitsVal xs = n := by
  induction fuel with
  | zero => intro n ds h; omega
  | succ f ih =>
    intro n ds h
    simp only [Nat.toDigitsCore]
    by_cases h0 : n / 10 = 0
    · simp only [h0, if_true]
      refine ⟨[Nat.digitChar (n % 10)], rfl, by simp, ?_, ?_⟩
      · intro c hc
        simp at hc
        subst hc
        exact digitChar_isDigit _ (Nat.mod_lt _ (by norm_num))
      · have hlt : n < 10 := by omega
        simp only [digitsVal, List.foldl, Nat.mod_eq_of_lt hlt, Nat.zero_mul, Nat.zero_add]
        exact digitChar_val n hlt
    · simp only [h0, if_false]
      obtain ⟨xs, hxs, hne, hdig, hval⟩ := ih (n / 10) (Nat.digitChar (n % 10) :: ds) (by omega)
      refine ⟨xs ++ [Nat.digitChar (n % 10)], by simp [hxs], by simp, ?_, ?_⟩
      · intro c hc
        rcases List.mem_append.mp hc with hc | hc
        · exact hdig c hc
        · simp at hc
          subst hc
          exact digitChar_isDigit _ (Nat.mod_lt _ (by norm_num))
      · rw [digitsVal_append_singleton, hval, digitChar_val _ (Nat.mod_lt n (by norm_num : 10 > 0))]
        omega

theorem repr_data (n : Nat) : (Nat.repr n).data ≠ [] ∧
    (∀ c ∈ (Nat.repr n).data, c.isDigit = true) ∧ digitsVal (Nat.repr n).data = n := by
  obtain ⟨xs, hxs, hne, hdig, hval⟩ := toDigitsCore_spec (n + 1) n [] (by omega)
  have : (Nat.repr n).data = xs := by
    simp [Nat.repr, Nat.toDigits, hxs, List.asString]
  rw [this]
  exact ⟨hne, hdig, hval⟩

theorem repr_injective (i j : Nat) (h : Nat.repr i = Nat.repr j) : i = j := by
  have hi := (repr_data i).2.2
  have hj := (repr_data j).2.2
  rw [h] at hi
  omega


theorem str_append_right_cancel (x y s : String) (h : x ++ s = y ++ s) : x = y := by
  have := congrArg String.data h
  simp only [String.data_append] at this
  exact String.ext (List.append_cancel_right this)

theorem str_append_left_cancel (x s t : String) (h : x ++ s = x ++ t) : s = t := by
  have := congrArg String.data h
  simp only [String.data_append] at this
  exact String.ext (List.append_cancel_left this)

theorem takeWhile_append_stop (p : Char → Bool) (l r : List Char) (c : Char)
    (hl : ∀ x ∈ l, p x = true) (hc : p c = false) : (l ++ c :: r).takeWhile p = l := by
  induction l with
  | nil => simp [List.takeWhile, hc]
  | cons a l ih =>
    have ha : p a = true := hl a (by simp)
    have := ih (fun x hx => hl x (by simp [hx]))
    simp [List.takeWhile_cons, ha, this]

theorem digit_suffix_unique (A B Di Dj : List Char) (c : Char) (hc : c.isDigit = false)
    (hi : ∀ d ∈ Di, d.isDigit = true) (hj : ∀ d ∈ Dj, d.isDigit = true)
    (h : A ++ c :: Di = B ++ c :: Dj) : A = B ∧ Di = Dj := by
  have hr := congrArg List.reverse h
  simp only [List.reverse_append, List.reverse_cons, List.append_assoc, List.singleton_append] at hr
  have h1 := takeWhile_append_stop Char.isDigit Di.reverse A.reverse c
    (fun x hx => hi x (List.mem_reverse.mp hx)) hc
  have h2 := takeWhile_append_stop Char.isDigit Dj.reverse B.reverse c
    (fun x hx => hj x (List.mem_reverse.mp hx)) hc
  rw [hr, h2] at h1
  have hD : Di = Dj := (List.reverse_injective h1).symm
  subst hD
  exact ⟨List.append_cancel_right h, rfl⟩

theorem shardName_inj (x y : String) (i j : Nat)
    (h : x ++ "-shard" ++ Nat.repr i = y ++ "-shard" ++ Nat.repr j) : x = y ∧ i = j := by
  have hd := congrArg String.data h
  simp only [String.data_append] at hd
  have hd2 : (x.data ++ ['-', 's', 'h', 'a', 'r']) ++ 'd' :: (Nat.repr i).data
      = (y.data ++ ['-', 's', 'h', 'a', 'r']) ++ 'd' :: (Nat.repr j).data := by
    simpa using hd
  obtain ⟨h1, h2⟩ := digit_suffix_unique _ _ _ _ 'd' (by decide) (repr_data i).2.1
    (repr_data j).2.1 hd2
  exact ⟨String.ext (List.append_cancel_right h1), repr_injective i j (String.ext h2)⟩

theorem data_getLast_append (a b : String) (h : b.data ≠ []) :
    (a ++ b).data.getLast? = b.data.getLast? := by
  rw [String.data_append]
  cases hb : b.data with
  | nil => exact absurd hb h
  | cons c cs =>
    rw [List.getLast?_append]
    cases hl : (c :: cs).getLast? with
    | none => simp at hl
    | some v => rfl


theorem itoa_ofNat (i : Nat) : itoa (Int.ofNat i) = Nat.repr i := rfl

theorem last_of_repr (x s : String) (i : Nat) :
    ∃ c, (x ++ s ++ Nat.repr i).data.getLast? = some c ∧ c.isDigit = true := by
  rw [data_getLast_append _ _ (repr_data i).1]
  cases h : (Nat.repr i).data.getLast? with
  | none => exact absurd (List.getLast?_eq_none_iff.mp h) (repr_data i).1
  | some c => exact ⟨c, rfl, (repr_data i).2.1 c (List.mem_of_getLast?_eq_some h)⟩

/-- An endpoint name that ends in a shard index is neither a config-server nor a
router endpoint name, of whatever cluster. -/
theorem shardName_ne (x y : String) (i : Nat) :
    x ++ "-shard" ++ Nat.repr i ≠ y ++ "-configsvr" ∧
    x ++ "-shard" ++ Nat.repr i ≠ y ++ "-mongos" := by
  obtain ⟨c, hc, hd⟩ := last_of_repr x "-shard" i
  constructor
  · intro h
    rw [h, data_getLast_append y "-configsvr" (by decide)] at hc
    have : c = 'r' := by
      have h2 : "-configsvr".data.getLast? = some 'r' := by decide
      rw [h2] at hc
      exact (Option.some.inj hc).symm
    subst this
    exact absurd hd (by decide)
  · intro h
    rw [h, data_getLast_append y "-mongos" (by decide)] at hc
    have : c = 's' := by
      have h2 : "-mongos".data.getLast? = some 's' := by decide
      rw [h2] at hc
      exact (Option.some.inj hc).symm
    subst this
    exact absurd hd (by decide)

theorem configsvrName_ne_mongosName (x y : String) : x ++ "-configsvr" ≠ y ++ "-mongos" := by
  intro h
  have h1 := data_getLast_append x "-configsvr" (by decide)
  rw [h, data_getLast_append y "-mongos" (by decide)] at h1
  exact absurd h1 (by decide)

theorem shardWorkloadName_ne_config (i : Nat) : "mongo-shard" ++ Nat.repr i ≠ "config" := by
  intro h
  have hd := congrArg String.data h
  rw [String.data_append] at hd
  have h1 : "mongo-shard".data = 'm' :: "ongo-shard".data := rfl
  have h2 : "config".data = 'c' :: "onfig".data := rfl
  rw [h1, h2, List.cons_append] at hd
  exact absurd (List.cons.inj hd).1 (by decide)

/-! ## Resource names (C6) -/

/-- C6, counterexample. Two cluster objects of one namespace with different names
are given the same config-server workload name, the same shard workload name
and the same router workload name. -/
theorem workload_names_collide :
    clusterA.Name ≠ clusterB.Name ∧ clusterA.Namespace = clusterB.Namespace ∧
    (configServerStatefulSet "1Gi" clusterA).ObjectMeta.Name
      = (configServerStatefulSet "1Gi" clusterB).ObjectMeta.Name ∧
    (shardStatefulSet "1Gi" clusterA 0).ObjectMeta.Name
      = (shardStatefulSet "1Gi" clusterB 0).ObjectMeta.Name ∧
    (mongosDeployment clusterA).ObjectMeta.Name = (mongosDeployment clusterB).ObjectMeta.Name := by
  decide

/-! ## Admission: what `validateSpec` accepts (C8, C9) -/

theorem validationErrors_eq_nil_iff (m : MongoDBCluster) :
    validationErrors m = [] ↔
      m.Spec.StorageSize ≠ "" ∧
        (m.Spec.Backup.Enabled = true →
          m.Spec.Backup.Schedule ≠ "" ∧ m.Spec.Backup.StorageEndpoint ≠ "" ∧
          m.Spec.Backup.Bucket ≠ "" ∧ m.Spec.Backup.SecretRef.Name ≠ "" ∧
          m.Spec.Backup.SecretRef.Namespace ≠ "") := by
  unfold validationErrors
  by_cases hs : m.Spec.StorageSize = "" <;> by_cases he : m.Spec.Backup.Enabled = true <;>
    by_cases h1 : m.Spec.Backup.Schedule = "" <;>
    by_cases h2 : m.Spec.Backup.StorageEndpoint = "" <;>
    by_cases h3 : m.Spec.Backup.Bucket = "" <;>
    by_cases h4 : m.Spec.Backup.SecretRef.Name = "" <;>
    by_cases h5 : m.Spec.Backup.SecretRef.Namespace = "" <;>
    simp [hs, he, h1, h2, h3, h4, h5]

theorem validateSpec_eq_none_iff (m : MongoDBCluster) :
    validateSpec m = none ↔ validationErrors m = [] := by
  unfold validateSpec
  cases h : validationErrors m with
  | nil => simp
  | cons a l => simp

/-- C8. `validateSpec`, which `ValidateCreate` and `ValidateUpdate` both return,
gives an error exactly when the storage size is empty, or backup is enabled and
one of schedule, storage endpoint, bucket, secret name or secret namespace is
empty. -/
theorem validateSpec_error_iff (m old : MongoDBCluster) :
    ((validateSpec m).isSome = true ↔
      (m.Spec.StorageSize = "" ∨
        (m.Spec.Backup.Enabled = true ∧
          (m.Spec.Backup.Schedule = "" ∨ m.Spec.Backup.StorageEndpoint = "" ∨
           m.Spec.Backup.Bucket = "" ∨ m.Spec.Backup.SecretRef.Name = "" ∨
           m.Spec.Backup.SecretRef.Namespace = "")))) ∧
    ValidateCreate m = validateSpec m ∧ ValidateUpdate old m = validateSpec m := by
  refine ⟨?_, rfl, rfl⟩
  have h := validateSpec_eq_none_iff m
  have h2 := validationErrors_eq_nil_iff m
  rw [← Option.not_isSome_iff_eq_none] at h
  constructor
  · intro hs
    by_contra hc
    push_neg at hc
    have : validationErrors m = [] := h2.mpr ⟨hc.1, fun he => by
      have := hc.2 he
      exact this⟩
    exact (h.mpr this) hs
  · intro hc
    by_contra hs
    have hnil := h.mp hs
    have := h2.mp hnil
    rcases hc with hc | ⟨he, hc⟩
    · exact this.1 hc
    · have h5 := this.2 he
      rcases hc with hc | hc | hc | hc | hc
      · exact h5.1 hc
      · exact h5.2.1 hc
      · exact h5.2.2.1 hc
      · exact h5.2.2.2.1 hc
      · exact h5.2.2.2.2 hc

/-- C9, counterexample. Defaulting followed by validation accepts an object whose
four counts are all negative and hands them on unchanged. -/
theorem negative_counts_accepted :
    validateSpec (Default negativeCountCluster) = none ∧
    (Default negativeCountCluster).Spec.ReplicaSetCount = -1 ∧
    (Default negativeCountCluster).Spec.ReplicaSetSize = -2 ∧
    (Default negativeCountCluster).Spec.ConfigServerCount = -3 ∧
    (Default negativeCountCluster).Spec.MongosCount = -4 := by
  decide

theorem Default_counts (m : MongoDBCluster) :
    (Default m).Spec.ReplicaSetCount = m.Spec.ReplicaSetCount ∧
    (Default m).Spec.ConfigServerCount = m.Spec.ConfigServerCount ∧
    (Default m).Spec.MongosCount = m.Spec.MongosCount ∧
    (Default m).Spec.ReplicaSetSize =
      (if m.Spec.ReplicaSetSize = 0 then 3 else m.Spec.ReplicaSetSize) := by
  unfold Default
  by_cases h0 : m.Spec.ReplicaSetSize = 0 <;> simp only [h0, if_true, if_false] <;>
    split_ifs <;> simp [h0]

/-! ## The create-or-update protocol (C4, C7) -/

theorem createOrUpdate_notFound (env : Env σ) (obj : Object) (w : World σ) (e : Error)
    (hget : (env.get obj.kind obj.meta.Namespace obj.meta.Name w.st).1 = .error e)
    (hnf : IsNotFound e = true) :
    createOrUpdate env obj w =
      apiCreate env obj (apiGet env obj.kind obj.meta.Namespace obj.meta.Name w).2 := by
  simp [createOrUpdate, apiGet, hget, hnf]

theorem createOrUpdate_found (env : Env σ) (obj existing : Object) (w : World σ)
    (hget : (env.get obj.kind obj.meta.Namespace obj.meta.Name w.st).1 = .ok existing) :
    createOrUpdate env obj w =
      apiUpdate env (obj.setResourceVersion existing.meta.ResourceVersion)
        (apiGet env obj.kind obj.meta.Namespace obj.meta.Name w).2 := by
  simp [createOrUpdate, apiGet, hget]

theorem createOrUpdate_otherError (env : Env σ) (obj : Object) (w : World σ) (e : Error)
    (hget : (env.get obj.kind obj.meta.Namespace obj.meta.Name w.st).1 = .error e)
    (hnf : IsNotFound e = false) :
    createOrUpdate env obj w =
      (.err e, (apiGet env obj.kind obj.meta.Namespace obj.meta.Name w).2) := by
  simp [createOrUpdate, apiGet, hget, hnf]

/-- The calls `createOrUpdate` issues: the lookup alone, or the lookup and one
create of the object, or the lookup and one update of the object under the
version token that was found. -/
theorem createOrUpdate_trace (env : Env σ) (obj : Object) (w : World σ) :
    (createOrUpdate env obj w).2.trace =
        w.trace ++ [Call.get obj.kind obj.meta.Namespace obj.meta.Name] ∨
    (createOrUpdate env obj w).2.trace =
        w.trace ++ [Call.get obj.kind obj.meta.Namespace obj.meta.Name, Call.create obj] ∨
    ∃ rv, (createOrUpdate env obj w).2.trace =
        w.trace ++ [Call.get obj.kind obj.meta.Namespace obj.meta.Name,
          Call.update (obj.setResourceVersion rv)] := by
  cases hget : (env.get obj.kind obj.meta.Namespace obj.meta.Name w.st).1 with
  | error e =>
    cases hnf : IsNotFound e with
    | true =>
      right; left
      rw [createOrUpdate_notFound env obj w e hget hnf]
      simp [apiCreate, apiGet]
    | false =>
      left
      rw [createOrUpdate_otherError env obj w e hget hnf]
      simp [apiGet]
  | ok existing =>
    right; right
    refine ⟨existing.meta.ResourceVersion, ?_⟩
    rw [createOrUpdate_found env obj existing w hget]
    simp [apiUpdate, apiGet]

theorem createIfAbsent_found (env : Env σ) (obj existing : Object) (w : World σ)
    (hget : (env.get obj.kind obj.meta.Namespace obj.meta.Name w.st).1 = .ok existing) :
    createIfAbsent env obj w =
      (.ok (), (apiGet env obj.kind obj.meta.Namespace obj.meta.Name w).2) := by
  simp [createIfAbsent, apiGet, hget]

/-- The six builders that end in `createOrUpdate` follow the protocol: given
that the owner reference can be set, each is `createOrUpdate` on an object of
its own kind, namespace and name, so (by `createOrUpdate_notFound`,
`createOrUpdate_found`, `createOrUpdate_otherError`) a not-found lookup gives
one create, a found object one update under its version token, and any other
lookup error is returned as is. -/
theorem builders_createOrUpdate (env : Env σ) (mongo : MongoDBCluster) (i : Int) (w : World σ)
    (gvk : String × String) (q : String) (hg : env.ownerGVK = .ok gvk)
    (hq : env.parseQuantity mongo.Spec.StorageSize = some q) :
    (∃ o, o.kind = Kind.StatefulSet ∧ o.meta.Name = "config" ∧
        o.meta.Namespace = mongo.Namespace ∧
        buildConfigServerStatefulSet env mongo w = createOrUpdate env o w) ∧
    (∃ o, o.kind = Kind.StatefulSet ∧ o.meta.Name = "mongo-shard" ++ itoa i ∧
        o.meta.Namespace = mongo.Namespace ∧
        buildShardStatefulSet env mongo i w = createOrUpdate env o w) ∧
    (∃ o, o.kind = Kind.Deployment ∧ o.meta.Name = "mongos" ∧
        o.meta.Namespace = mongo.Namespace ∧
        buildMongosDeployment env mongo w = createOrUpdate env o w) ∧
    (∃ o, o.kind = Kind.Service ∧ o.meta.Name = mongo.Name ++ "-configsvr" ∧
        o.meta.Namespace = mongo.Namespace ∧
        reconcileConfigSvrService env mongo w = createOrUpdate env o w) ∧
    (∃ o, o.kind = Kind.Service ∧ o.meta.Name = mongo.Name ++ "-mongos" ∧
        o.meta.Namespace = mongo.Namespace ∧
        reconcileMongosService env mongo w = createOrUpdate env o w) ∧
    (mongo.Spec.Backup.Enabled = true →
      ∃ o, o.kind = Kind.CronJob ∧ o.meta.Name = mongo.Name ++ "-backup" ∧
        o.meta.Namespace = mongo.Namespace ∧
        reconcileBackupCronJob env mongo w = createOrUpdate env o w) := by
  refine ⟨?_, ?_, ?_, ?_, ?_, ?_⟩
  · exact ⟨withOwner gvk mongo (.statefulSet (configServerStatefulSet q mongo)), rfl, rfl, rfl, by
      simp [buildConfigServerStatefulSet, SetControllerReference, hg, hq]⟩
  · exact ⟨withOwner gvk mongo (.statefulSet (shardStatefulSet q mongo i)), rfl, rfl, rfl, by
      simp [buildShardStatefulSet, SetControllerReference, hg, hq]⟩
  · exact ⟨withOwner gvk mongo (.deployment (mongosDeployment mongo)), rfl, rfl, rfl, by
      simp [buildMongosDeployment, SetControllerReference, hg]⟩
  · exact ⟨withOwner gvk mongo (.service (configSvrService mongo)), rfl, rfl, rfl, by
      simp [reconcileConfigSvrService, SetControllerReference, hg]⟩
  · exact ⟨withOwner gvk mongo (.service (mongosService mongo)), rfl, rfl, rfl, by
      simp [reconcileMongosService, SetControllerReference, hg]⟩
  · intro he
    exact ⟨withOwner gvk mongo (.cronJob (backupCronJob mongo)), rfl, rfl, rfl, by
      simp [reconcileBackupCronJob, SetControllerReference, hg, he]⟩

/-- The shard network builder leaves a found object alone: no update is issued. -/
theorem reconcileShardService_found (env : Env σ) (mongo : MongoDBCluster) (i : Int)
    (w : World σ) (gvk : String × String) (existing : Object) (hg : env.ownerGVK = .ok gvk)
    (hget : (env.get Kind.Service mongo.Namespace (mongo.Name ++ "-shard" ++ itoa i) w.st).1
      = .ok existing) :
    reconcileShardService env mongo i w =
      (.ok (), (apiGet env Kind.Service mongo.Namespace (mongo.Name ++ "-shard" ++ itoa i) w).2) := by
  simp only [reconcileShardService, SetControllerReference, hg]
  exact createIfAbsent_found env _ existing w hget

/-- C4, the failing input. On a platform that already holds the endpoint of shard
0, `reconcileShardService` returns success after the lookup alone: the trace
grows by one call and by no update (and no create), although the lookup found
the resource. -/
theorem reconcileShardService_skips_update :
    sampleWorldAfterPass.st.1.objs.any (Object.hasKey Kind.Service "db" "demo-shard0") = true ∧
    (reconcileShardService sampleEnv sampleCluster 0 sampleWorldAfterPass).1 = Res.ok () ∧
    (reconcileShardService sampleEnv sampleCluster 0 sampleWorldAfterPass).2.trace.length
      = sampleWorldAfterPass.trace.length + 1 ∧
    (updatedObjects (reconcileShardService sampleEnv sampleCluster 0
      sampleWorldAfterPass).2.trace).length = (updatedObjects sampleWorldAfterPass.trace).length ∧
    (createdObjects (reconcileShardService sampleEnv sampleCluster 0
      sampleWorldAfterPass).2.trace).length = (createdObjects sampleWorldAfterPass.trace).length ∧
    (updatedObjects (reconcileConfigSvrService sampleEnv sampleCluster
      sampleWorldAfterPass).2.trace).length
      = (updatedObjects sampleWorldAfterPass.trace).length + 1 := by
  decide

/-! ## Backup gating (C7) -/

/-- C7. With backup disabled `reconcileBackupCronJob` returns success and leaves
the world (state and trace) as it was; with backup enabled it builds one job
named `<cluster name>-backup` in the cluster's namespace with the schedule of
the spec, both key variables read from the secret of the spec and the endpoint
passed as a plain value, and, once the owner reference is set, it looks that
job up and issues at most one create or update, of that job. -/
theorem backup_gating (env : Env σ) (mongo : MongoDBCluster) (w : World σ) :
    (mongo.Spec.Backup.Enabled = false ∧ reconcileBackupCronJob env mongo w = (.ok (), w)) ∨
    (mongo.Spec.Backup.Enabled = true ∧
      (backupCronJob mongo).ObjectMeta.Name = mongo.Name ++ "-backup" ∧
      (backupCronJob mongo).ObjectMeta.Namespace = mongo.Namespace ∧
      (backupCronJob mongo).Schedule = mongo.Spec.Backup.Schedule ∧
      (∃ c, (backupCronJob mongo).Template.Containers = [c] ∧
        c.Env = [
          { Name := "AWS_ACCESS_KEY_ID"
            ValueFrom := some { Name := mongo.Spec.Backup.SecretRef.Name, Key := "accessKey" } },
          { Name := "AWS_SECRET_ACCESS_KEY"
            ValueFrom := some { Name := mongo.Spec.Backup.SecretRef.Name, Key := "secretKey" } },
          { Name := "AWS_ENDPOINT_URL", Value := mongo.Spec.Backup.StorageEndpoint }]) ∧
      ((∃ e, env.ownerGVK = .error e ∧ reconcileBackupCronJob env mongo w = (.err e, w)) ∨
       (∃ job : CronJob,
          job.ObjectMeta.Name = mongo.Name ++ "-backup" ∧
          job.ObjectMeta.Namespace = mongo.Namespace ∧
          job.Schedule = mongo.Spec.Backup.Schedule ∧
          job.Template = (backupCronJob mongo).Template ∧
          reconcileBackupCronJob env mongo w = createOrUpdate env (.cronJob job) w ∧
          ((reconcileBackupCronJob env mongo w).2.trace =
              w.trace ++ [Call.get Kind.CronJob mongo.Namespace (mongo.Name ++ "-backup")] ∨
           (reconcileBackupCronJob env mongo w).2.trace =
              w.trace ++ [Call.get Kind.CronJob mongo.Namespace (mongo.Name ++ "-backup"),
                Call.create (.cronJob job)] ∨
           ∃ rv, (reconcileBackupCronJob env mongo w).2.trace =
              w.trace ++ [Call.get Kind.CronJob mongo.Namespace (mongo.Name ++ "-backup"),
                Call.update ((Object.cronJob job).setResourceVersion rv)])))) := by
  cases he : mongo.Spec.Backup.Enabled with
  | false => left; exact ⟨rfl, by simp [reconcileBackupCronJob, he]⟩
  | true =>
    right
    refine ⟨rfl, rfl, rfl, rfl, ⟨_, rfl, rfl⟩, ?_⟩
    cases hg : env.ownerGVK with
    | error e => left; exact ⟨e, rfl, by simp [reconcileBackupCronJob, he, SetControllerReference, hg]⟩
    | ok gvk =>
      right
      obtain ⟨job, hjob, h1, h2, h3, h4⟩ : ∃ job : CronJob,
          withOwner gvk mongo (.cronJob (backupCronJob mongo)) = .cronJob job ∧
          job.ObjectMeta.Name = mongo.Name ++ "-backup" ∧
          job.ObjectMeta.Namespace = mongo.Namespace ∧
          job.Schedule = mongo.Spec.Backup.Schedule ∧
          job.Template = (backupCronJob mongo).Template := ⟨_, rfl, rfl, rfl, rfl, rfl⟩
      have hrun : reconcileBackupCronJob env mongo w = createOrUpdate env (.cronJob job) w := by
        simp [reconcileBackupCronJob, he, SetControllerReference, hg, hjob]
      refine ⟨job, h1, h2, h3, h4, hrun, ?_⟩
      have hk : (Object.cronJob job).kind = Kind.CronJob := rfl
      have hn : (Object.cronJob job).meta.Name = mongo.Name ++ "-backup" := h1
      have hs : (Object.cronJob job).meta.Namespace = mongo.Namespace := h2
      have ht := createOrUpdate_trace env (.cronJob job) w
      rw [hk, hn, hs] at ht
      rw [hrun]
      exact ht

/-! ## Frame lemmas: what a call may change -/

theorem goSelect_rel {env : Env σ} {R : World σ → World σ → Prop} (pre : Preorder2 R)
    (db : DbFrame env R) (now deadline tickAt : Nat) (w : World σ) :
    R w (goSelect env now deadline tickAt w).2 := by
  unfold goSelect
  simp only
  split_ifs <;> first | exact db.pick w | exact pre.refl w

theorem probeSelect_rel {env : Env σ} {R : World σ → World σ → Prop} (pre : Preorder2 R)
    (db : DbFrame env R) (now deadline tickAt : Nat) (w : World σ) :
    R w (probeSelect env now deadline tickAt w).2 := by
  unfold probeSelect
  split_ifs
  · exact goSelect_rel pre db now deadline tickAt w
  · exact pre.refl w

theorem waitForReplicaSetHealthyLoop_rel {env : Env σ} {R : World σ → World σ → Prop}
    (pre : Preorder2 R) (db : DbFrame env R) (uri : String) (deadline : Nat) :
    ∀ (rounds now tickAt : Nat) (w : World σ),
      R w (waitForReplicaSetHealthyLoop env uri deadline rounds now tickAt w).2 := by
  intro rounds
  induction rounds with
  | zero => intro now tickAt w; exact pre.refl w
  | succ n ih =>
    intro now tickAt w
    unfold waitForReplicaSetHealthyLoop
    have hs := probeSelect_rel pre db now deadline tickAt w
    rcases hsel : probeSelect env now deadline tickAt w with ⟨⟨f, t⟩, w1⟩
    rw [hsel] at hs
    cases f with
    | done => exact hs
    | tick =>
      simp only
      have hp := db.ping uri w1
      rcases hping : dbPing env uri w1 with ⟨⟨oe, d⟩, w2⟩
      rw [hping] at hp
      cases oe with
      | none =>
        simp only
        split_ifs
        · exact pre.trans _ _ _ hs hp
        · exact pre.trans _ _ _ hs (pre.trans _ _ _ hp (ih _ _ w2))
      | some e => exact pre.trans _ _ _ hs (pre.trans _ _ _ hp (ih _ _ w2))

theorem waitForReplicaSetHealthy_rel {env : Env σ} {R : World σ → World σ → Prop}
    (pre : Preorder2 R) (db : DbFrame env R) (uri : String) (timeout : Nat) (w : World σ) :
    R w (waitForReplicaSetHealthy env uri timeout w).2 := by
  unfold waitForReplicaSetHealthy
  have hc := db.connect ("mongodb://" ++ uri) false w
  rcases hcon : dbConnect env ("mongodb://" ++ uri) false w with ⟨⟨oe, c⟩, w1⟩
  rw [hcon] at hc
  cases oe with
  | some e => exact hc
  | none =>
    exact pre.trans _ _ _ hc (pre.trans _ _ _
      (waitForReplicaSetHealthyLoop_rel pre db _ _ _ _ _ w1) (db.disconnect _ _))

theorem findReachableHost_rel {env : Env σ} {R : World σ → World σ → Prop}
    (pre : Preorder2 R) (db : DbFrame env R) :
    ∀ (members : List String) (w : World σ), R w (findReachableHost env members w).2 := by
  intro members
  induction members with
  | nil => intro w; exact pre.refl w
  | cons host rest ih =>
    intro w
    unfold findReachableHost
    have hc := db.connect ("mongodb://" ++ host) true w
    rcases hcon : dbConnect env ("mongodb://" ++ host) true w with ⟨⟨oe, c⟩, w1⟩
    rw [hcon] at hc
    cases oe with
    | some e => exact pre.trans _ _ _ hc (ih w1)
    | none =>
      simp only
      have hp := db.ping ("mongodb://" ++ host) w1
      rcases hping : dbPing env ("mongodb://" ++ host) w1 with ⟨⟨oe2, d⟩, w2⟩
      rw [hping] at hp
      cases oe2 with
      | none => exact pre.trans _ _ _ hc (pre.trans _ _ _ hp (db.disconnect _ _))
      | some e =>
        exact pre.trans _ _ _ hc (pre.trans _ _ _ hp (pre.trans _ _ _ (db.disconnect _ _) (ih _)))

theorem waitForPrimaryLoop_rel {env : Env σ} {R : World σ → World σ → Prop}
    (pre : Preorder2 R) (db : DbFrame env R) (uri : String) :
    ∀ (rounds now tickAt : Nat) (w : World σ),
      R w (waitForPrimaryLoop env uri rounds now tickAt w).2 := by
  intro rounds
  induction rounds with
  | zero => intro now tickAt w; exact pre.refl w
  | succ n ih =>
    intro now tickAt w
    unfold waitForPrimaryLoop
    have hs := goSelect_rel pre db now 30000 tickAt w
    rcases hsel : goSelect env now 30000 tickAt w with ⟨⟨f, t⟩, w1⟩
    rw [hsel] at hs
    cases f with
    | done => exact hs
    | tick =>
      simp only
      have hp := db.run uri [("replSetGetStatus", .int 1)] w1
      rcases hrun : dbRunCommand env uri [("replSetGetStatus", .int 1)] w1 with ⟨⟨r, d⟩, w2⟩
      rw [hrun] at hp
      have h12 := pre.trans _ _ _ hs hp
      have hrec := fun a b => pre.trans _ _ _ h12 (ih a b w2)
      cases r with
      | error e => exact hrec _ _
      | ok status =>
        simp only
        split
        · split
          · exact h12
          · exact hrec _ _
          · exact h12
          · exact h12
          · exact h12
        · exact hrec _ _

theorem waitForPrimary_rel {env : Env σ} {R : World σ → World σ → Prop}
    (pre : Preorder2 R) (db : DbFrame env R) (uri : String) (w : World σ) :
    R w (waitForPrimary env uri w).2 :=
  waitForPrimaryLoop_rel pre db uri _ _ _ w

theorem InitReplicaSet_rel {env : Env σ} {R : World σ → World σ → Prop}
    (pre : Preorder2 R) (db : DbFrame env R) (replicaSetName host : String)
    (configServer : Bool) (members : List String) (w : World σ) :
    R w (InitReplicaSet env replicaSetName host configServer members w).2 := by
  unfold InitReplicaSet
  split_ifs
  · exact pre.refl w
  · have hc := db.connect ("mongodb://" ++ host) true w
    rcases hcon : dbConnect env ("mongodb://" ++ host) true w with ⟨⟨oe, c⟩, w1⟩
    rw [hcon] at hc
    cases oe with
    | some e => exact hc
    | none =>
      simp only
      have hp := db.run ("mongodb://" ++ host) [("replSetGetStatus", .int 1)] w1
      rcases hrun : dbRunCommand env ("mongodb://" ++ host) [("replSetGetStatus", .int 1)] w1
        with ⟨⟨r, d⟩, w2⟩
      rw [hrun] at hp
      have h12 := pre.trans _ _ _ hc hp
      cases r with
      | ok v => exact pre.trans _ _ _ h12 (db.disconnect _ _)
      | error e1 =>
        simp only
        have hq := db.run ("mongodb://" ++ host)
          [("replSetInitiate", .doc (replSetConfig replicaSetName configServer members))] w2
        rcases hrun2 : dbRunCommand env ("mongodb://" ++ host)
          [("replSetInitiate", .doc (replSetConfig replicaSetName configServer members))] w2
          with ⟨⟨r2, d2⟩, w3⟩
        rw [hrun2] at hq
        have h13 := pre.trans _ _ _ h12 hq
        cases r2 with
        | error e2 => exact pre.trans _ _ _ h13 (db.disconnect _ _)
        | ok v =>
          exact pre.trans _ _ _ h13 (pre.trans _ _ _ (waitForPrimary_rel pre db _ w3)
            (db.disconnect _ _))

theorem reconcileConfigServerReplicaSet_rel {env : Env σ} {R : World σ → World σ → Prop}
    (pre : Preorder2 R) (db : DbFrame env R) (mongo : MongoDBCluster) (w : World σ) :
    R w (reconcileConfigServerReplicaSet env mongo w).2 := by
  unfold reconcileConfigServerReplicaSet
  split_ifs
  · exact waitForReplicaSetHealthy_rel pre db _ _ w
  · simp only [findReachableHost]
    exact pre.refl w

theorem probeMembers_rel {env : Env σ} {R : World σ → World σ → Prop}
    (pre : Preorder2 R) (db : DbFrame env R) :
    ∀ (members : List String) (w : World σ), R w (probeMembers env members w).2 := by
  intro members
  induction members with
  | nil => intro w; exact pre.refl w
  | cons host rest ih =>
    intro w
    unfold probeMembers
    have h := waitForReplicaSetHealthy_rel pre db host 3000 w
    rcases hw : waitForReplicaSetHealthy env host 3000 w with ⟨r, w1⟩
    rw [hw] at h
    cases r with
    | ok v => exact pre.trans _ _ _ h (ih w1)
    | err e => exact pre.trans _ _ _ h (ih w1)
    | panic m => exact h
    | hang => exact h

theorem reconcileReplicaSet_rel {env : Env σ} {R : World σ → World σ → Prop}
    (pre : Preorder2 R) (db : DbFrame env R) (mongo : MongoDBCluster) (shardID : Int)
    (w : World σ) : R w (reconcileReplicaSet env mongo shardID w).2 := by
  unfold reconcileReplicaSet
  simp only
  have h := probeMembers_rel pre db
    (collectRange mongo.Spec.ReplicaSetSize (fun i => shardHost mongo shardID i)) w
  rcases hp : probeMembers env
    (collectRange mongo.Spec.ReplicaSetSize (fun i => shardHost mongo shardID i)) w with ⟨r, w1⟩
  rw [hp] at h
  cases r with
  | ok v =>
    simp only
    have h2 := findReachableHost_rel pre db
      (collectRange mongo.Spec.ReplicaSetSize (fun i => shardHost mongo shardID i)) w1
    rcases hf : findReachableHost env
      (collectRange mongo.Spec.ReplicaSetSize (fun i => shardHost mongo shardID i)) w1
      with ⟨r2, w2⟩
    rw [hf] at h2
    have h12 := pre.trans _ _ _ h h2
    cases r2 with
    | ok host => exact pre.trans _ _ _ h12 (InitReplicaSet_rel pre db _ _ _ _ w2)
    | err e => exact h12
    | panic m => exact h12
    | hang => exact h12
  | err e => exact h
  | panic m => exact h
  | hang => exact h

theorem addShards_rel {env : Env σ} {R : World σ → World σ → Prop}
    (pre : Preorder2 R) (db : DbFrame env R) (uri : String) :
    ∀ (shards : List Shard) (w : World σ), R w (addShards env uri shards w).2 := by
  intro shards
  induction shards with
  | nil => intro w; exact pre.refl w
  | cons shard rest ih =>
    intro w
    unfold addShards
    split_ifs
    · exact ih w
    · have hp := db.run uri
        [("addShard", .str (shard.ReplicaSetName ++ "/" ++ joinStrings "," shard.Members))] w
      rcases hrun : dbRunCommand env uri
        [("addShard", .str (shard.ReplicaSetName ++ "/" ++ joinStrings "," shard.Members))] w
        with ⟨⟨r, d⟩, w1⟩
      rw [hrun] at hp
      cases r with
      | ok v => exact pre.trans _ _ _ hp (ih w1)
      | error e =>
        simp only
        split_ifs
        · exact hp
        · exact pre.trans _ _ _ hp (ih w1)

theorem enableSharding_rel {env : Env σ} {R : World σ → World σ → Prop}
    (pre : Preorder2 R) (db : DbFrame env R) (cfg : ShardConfig) (w : World σ) :
    R w (enableSharding env cfg w).2 := by
  unfold enableSharding
  split_ifs
  · have hp := db.run cfg.MongosURI [("enableSharding", .str cfg.EnableDB)] w
    rcases hrun : dbRunCommand env cfg.MongosURI [("enableSharding", .str cfg.EnableDB)] w
      with ⟨⟨r, d⟩, w1⟩
    rw [hrun] at hp
    cases r with
    | ok v => exact hp
    | error e =>
      simp only
      split_ifs <;> exact hp
  · exact pre.refl w

theorem shardCollection_rel {env : Env σ} {R : World σ → World σ → Prop}
    (pre : Preorder2 R) (db : DbFrame env R) (cfg : ShardConfig) (w : World σ) :
    R w (shardCollection env cfg w).2 := by
  unfold shardCollection
  split_ifs
  · have hp := db.run cfg.MongosURI
      [("shardCollection", .str cfg.ShardCollection), ("key", .doc cfg.ShardKey)] w
    rcases hrun : dbRunCommand env cfg.MongosURI
      [("shardCollection", .str cfg.ShardCollection), ("key", .doc cfg.ShardKey)] w
      with ⟨⟨r, d⟩, w1⟩
    rw [hrun] at hp
    cases r with
    | ok v => exact hp
    | error e => exact hp
  · exact pre.refl w

theorem InitSharding_rel {env : Env σ} {R : World σ → World σ → Prop}
    (pre : Preorder2 R) (db : DbFrame env R) (cfg : ShardConfig) (w : World σ) :
    R w (InitSharding env cfg w).2 := by
  unfold InitSharding
  have hc := db.connect cfg.MongosURI false w
  rcases hcon : dbConnect env cfg.MongosURI false w with ⟨⟨oe, c⟩, w1⟩
  rw [hcon] at hc
  cases oe with
  | some e => exact hc
  | none =>
    simp only
    have ha := addShards_rel pre db cfg.MongosURI cfg.Shards w1
    rcases hadd : addShards env cfg.MongosURI cfg.Shards w1 with ⟨r, w2⟩
    rw [hadd] at ha
    have h12 := pre.trans _ _ _ hc ha
    cases r with
    | ok v =>
      simp only
      have he := enableSharding_rel pre db cfg w2
      rcases hen : enableSharding env cfg w2 with ⟨r3, w3⟩
      rw [hen] at he
      have h13 := pre.trans _ _ _ h12 he
      cases r3 with
      | ok v =>
        exact pre.trans _ _ _ h13 (pre.trans _ _ _ (shardCollection_rel pre db cfg w3)
          (db.disconnect _ _))
      | err e => exact pre.trans _ _ _ h13 (db.disconnect _ _)
      | panic m => exact pre.trans _ _ _ h13 (db.disconnect _ _)
      | hang => exact pre.trans _ _ _ h13 (db.disconnect _ _)
    | err e => exact pre.trans _ _ _ h12 (db.disconnect _ _)
    | panic m => exact pre.trans _ _ _ h12 (db.disconnect _ _)
    | hang => exact pre.trans _ _ _ h12 (db.disconnect _ _)

theorem reconcileEnbaleShardingMongos_rel {env : Env σ} {R : World σ → World σ → Prop}
    (pre : Preorder2 R) (db : DbFrame env R) (mongo : MongoDBCluster) (shardID : Int)
    (w : World σ) : R w (reconcileEnbaleShardingMongos env mongo shardID w).2 := by
  unfold reconcileEnbaleShardingMongos
  simp only
  split
  · exact pre.refl w
  · exact InitSharding_rel pre db _ w

theorem createOrUpdate_rel {env : Env σ} {R : World σ → World σ → Prop}
    (pre : Preorder2 R) (api : ApiFrame env R) (obj : Object) (w : World σ) :
    R w (createOrUpdate env obj w).2 := by
  unfold createOrUpdate
  have hg := api.get obj.kind obj.meta.Namespace obj.meta.Name w
  rcases hget : apiGet env obj.kind obj.meta.Namespace obj.meta.Name w with ⟨r, w1⟩
  rw [hget] at hg
  cases r with
  | error e =>
    simp only
    split_ifs
    · exact pre.trans _ _ _ hg (api.create _ _)
    · exact hg
  | ok existing => exact pre.trans _ _ _ hg (api.update _ _)

theorem createIfAbsent_rel {env : Env σ} {R : World σ → World σ → Prop}
    (pre : Preorder2 R) (api : ApiFrame env R) (obj : Object) (w : World σ) :
    R w (createIfAbsent env obj w).2 := by
  unfold createIfAbsent
  have hg := api.get obj.kind obj.meta.Namespace obj.meta.Name w
  rcases hget : apiGet env obj.kind obj.meta.Namespace obj.meta.Name w with ⟨r, w1⟩
  rw [hget] at hg
  cases r with
  | error e =>
    simp only
    split_ifs
    · exact pre.trans _ _ _ hg (api.create _ _)
    · exact hg
  | ok existing => exact hg

theorem andThen_rel {R : World σ → World σ → Prop} (pre : Preorder2 R) (a b : Step σ)
    (ha : ∀ w, R w (a w).2) (hb : ∀ w, R w (b w).2) (w : World σ) :
    R w (andThen a b w).2 := by
  unfold andThen
  have h := ha w
  rcases hw : a w with ⟨r, w1⟩
  rw [hw] at h
  cases r with
  | ok v => exact pre.trans _ _ _ h (hb w1)
  | err e => exact h
  | panic m => exact h
  | hang => exact h

theorem forEachIndex_rel {R : World σ → World σ → Prop} (pre : Preorder2 R)
    (body : Int → Step σ) (hb : ∀ i w, R w (body i w).2) :
    ∀ (l : List Nat) (w : World σ), R w (forEachIndex body l w).2 := by
  intro l
  induction l with
  | nil => intro w; exact pre.refl w
  | cons i rest ih =>
    intro w
    unfold forEachIndex
    have h := hb (Int.ofNat i) w
    rcases hw : body (Int.ofNat i) w with ⟨r, w1⟩
    rw [hw] at h
    cases r with
    | ok v => exact pre.trans _ _ _ h (ih w1)
    | err e => exact h
    | panic m => exact h
    | hang => exact h

theorem forRange_rel {R : World σ → World σ → Prop} (pre : Preorder2 R) (n : Int)
    (body : Int → Step σ) (hb : ∀ i w, R w (body i w).2) (w : World σ) :
    R w (forRange n body w).2 :=
  forEachIndex_rel pre body hb _ w

/-- Every step other than the status write keeps a relation that all lookups,
creates, updates and database calls keep. -/
theorem runStep_rel {env : Env σ} {R : World σ → World σ → Prop} (pre : Preorder2 R)
    (db : DbFrame env R) (api : ApiFrame env R) (mongo : MongoDBCluster) (s : StepName)
    (hs : s ≠ StepName.statusWrite) (w : World σ) : R w (runStep env mongo s w).2 := by
  cases s with
  | configServerWorkload =>
    simp only [runStep, buildConfigServerStatefulSet]
    split
    · exact pre.refl w
    · split
      · exact pre.refl w
      · exact createOrUpdate_rel pre api _ w
  | shardNetwork i =>
    simp only [runStep, reconcileShardService]
    split
    · exact pre.refl w
    · exact createIfAbsent_rel pre api _ w
  | shardWorkload i =>
    simp only [runStep, buildShardStatefulSet]
    split
    · exact pre.refl w
    · split
      · exact pre.refl w
      · exact createOrUpdate_rel pre api _ w
  | routerWorkload =>
    simp only [runStep, buildMongosDeployment]
    split
    · exact pre.refl w
    · exact createOrUpdate_rel pre api _ w
  | configServerNetwork =>
    simp only [runStep, reconcileConfigSvrService]
    split
    · exact pre.refl w
    · exact createOrUpdate_rel pre api _ w
  | routerNetwork =>
    simp only [runStep, reconcileMongosService]
    split
    · exact pre.refl w
    · exact createOrUpdate_rel pre api _ w
  | configServerReplication => exact reconcileConfigServerReplicaSet_rel pre db mongo w
  | shardReplication i => exact reconcileReplicaSet_rel pre db mongo _ w
  | shardSharding i => exact reconcileEnbaleShardingMongos_rel pre db mongo _ w
  | backupJob =>
    simp only [runStep, reconcileBackupCronJob]
    split_ifs
    · exact pre.refl w
    · split
      · exact pre.refl w
      · exact createOrUpdate_rel pre api _ w
  | statusWrite => exact absurd rfl hs

theorem runSteps_rel {env : Env σ} {R : World σ → World σ → Prop} (pre : Preorder2 R)
    (db : DbFrame env R) (api : ApiFrame env R) (mongo : MongoDBCluster) :
    ∀ (l : List StepName), StepName.statusWrite ∉ l → ∀ w : World σ,
      R w (runSteps env mongo l w).2 := by
  intro l
  induction l with
  | nil => intro _ w; exact pre.refl w
  | cons s rest ih =>
    intro hl w
    unfold runSteps
    have hs : s ≠ StepName.statusWrite := fun h => hl (by simp [h])
    have h := runStep_rel pre db api mongo s hs w
    rcases hw : runStep env mongo s w with ⟨r, w1⟩
    rw [hw] at h
    cases r with
    | ok v => exact pre.trans _ _ _ h (ih (fun hm => hl (by simp [hm])) w1)
    | err e => exact h
    | panic m => exact h
    | hang => exact h

/-! ### The pass as a list of steps -/

theorem runSteps_append (env : Env σ) (mongo : MongoDBCluster) (l1 l2 : List StepName)
    (w : World σ) :
    runSteps env mongo (l1 ++ l2) w =
      andThen (runSteps env mongo l1) (runSteps env mongo l2) w := by
  induction l1 generalizing w with
  | nil => simp [runSteps, andThen]
  | cons s rest ih =>
    simp only [List.cons_append, runSteps, andThen]
    rcases hw : runStep env mongo s w with ⟨r, w1⟩
    cases r with
    | ok v => exact ih w1
    | err e => rfl
    | panic m => rfl
    | hang => rfl

theorem runSteps_singleton (env : Env σ) (mongo : MongoDBCluster) (s : StepName) (w : World σ) :
    runSteps env mongo [s] w = runStep env mongo s w := by
  simp only [runSteps]
  rcases hw : runStep env mongo s w with ⟨r, w1⟩
  cases r <;> rfl

theorem andThen_congr (a a1 b b1 : Step σ) (ha : ∀ w, a w = a1 w) (hb : ∀ w, b w = b1 w)
    (w : World σ) : andThen a b w = andThen a1 b1 w := by
  simp only [andThen, ha]
  rcases a1 w with ⟨r, w1⟩
  cases r <;> simp [hb]

theorem forEachIndex_eq_runSteps (env : Env σ) (mongo : MongoDBCluster) (body : Int → Step σ)
    (f : Nat → List StepName)
    (hf : ∀ i w, body (Int.ofNat i) w = runSteps env mongo (f i) w) :
    ∀ (l : List Nat) (w : World σ),
      forEachIndex body l w = runSteps env mongo (l.flatMap f) w := by
  intro l
  induction l with
  | nil => intro w; rfl
  | cons i rest ih =>
    intro w
    simp only [List.flatMap_cons, runSteps_append, forEachIndex, andThen, hf]
    rcases runSteps env mongo (f i) w with ⟨r, w1⟩
    cases r <;> simp [ih]

theorem andThen_assoc (a b c : Step σ) : andThen (andThen a b) c = andThen a (andThen b c) := by
  funext w
  simp only [andThen]
  rcases a w with ⟨r, w1⟩
  cases r with
  | ok v => rfl
  | err e => rfl
  | panic m => rfl
  | hang => rfl

theorem runSteps_cons_eq (env : Env σ) (mongo : MongoDBCluster) (s : StepName)
    (l : List StepName) :
    runSteps env mongo (s :: l) = andThen (runStep env mongo s) (runSteps env mongo l) := by
  funext w
  simp only [runSteps, andThen]

theorem runSteps_append_eq (env : Env σ) (mongo : MongoDBCluster) (l1 l2 : List StepName) :
    runSteps env mongo (l1 ++ l2) = andThen (runSteps env mongo l1) (runSteps env mongo l2) :=
  funext (runSteps_append env mongo l1 l2)

theorem runSteps_singleton_eq (env : Env σ) (mongo : MongoDBCluster) (s : StepName) :
    runSteps env mongo [s] = runStep env mongo s :=
  funext (runSteps_singleton env mongo s)

theorem forRange_eq_runSteps (env : Env σ) (mongo : MongoDBCluster) (n : Int)
    (body : Int → Step σ) (f : Nat → List StepName)
    (hf : ∀ i w, body (Int.ofNat i) w = runSteps env mongo (f i) w) :
    forRange n body = runSteps env mongo ((List.range n.toNat).flatMap f) :=
  funext (forEachIndex_eq_runSteps env mongo body f hf _)

/-- After loading, a pass is its steps in `stepOrder`, taken until one does not
succeed. -/
theorem reconcileLoaded_eq_runSteps (env : Env σ) (mongo : MongoDBCluster) :
    reconcileLoaded env mongo = runSteps env mongo (stepOrder mongo) := by
  have h1 : forRange mongo.Spec.ReplicaSetCount (fun i =>
      andThen (reconcileShardService env mongo i) (buildShardStatefulSet env mongo i))
      = runSteps env mongo ((List.range mongo.Spec.ReplicaSetCount.toNat).flatMap
          (fun i => [StepName.shardNetwork i, StepName.shardWorkload i])) :=
    forRange_eq_runSteps env mongo _ _ _ (fun i w => by
      rw [runSteps_cons_eq, runSteps_singleton_eq]; rfl)
  have h2 : forRange mongo.Spec.ReplicaSetCount (fun i => reconcileReplicaSet env mongo i)
      = runSteps env mongo ((List.range mongo.Spec.ReplicaSetCount.toNat).map
          StepName.shardReplication) := by
    rw [List.map_eq_flatMap]
    exact forRange_eq_runSteps env mongo _ _ _ (fun i w => by
      rw [runSteps_singleton_eq]; rfl)
  have h3 : forRange mongo.Spec.ReplicaSetCount (fun i =>
      reconcileEnbaleShardingMongos env mongo i)
      = runSteps env mongo ((List.range mongo.Spec.ReplicaSetCount.toNat).map
          StepName.shardSharding) := by
    rw [List.map_eq_flatMap]
    exact forRange_eq_runSteps env mongo _ _ _ (fun i w => by
      rw [runSteps_singleton_eq]; rfl)
  have hshape : stepOrder mongo = StepName.configServerWorkload ::
      ((List.range mongo.Spec.ReplicaSetCount.toNat).flatMap
          (fun i => [StepName.shardNetwork i, StepName.shardWorkload i]) ++
        (StepName.routerWorkload :: StepName.configServerNetwork :: StepName.routerNetwork ::
          StepName.configServerReplication ::
          ((List.range mongo.Spec.ReplicaSetCount.toNat).map StepName.shardReplication ++
            ((List.range mongo.Spec.ReplicaSetCount.toNat).map StepName.shardSharding ++
              (StepName.backupJob :: [StepName.statusWrite]))))) := by
    simp [stepOrder]
  rw [hshape, runSteps_cons_eq, runSteps_append_eq, runSteps_cons_eq, runSteps_cons_eq,
    runSteps_cons_eq, runSteps_cons_eq, runSteps_append_eq, runSteps_append_eq,
    runSteps_cons_eq, runSteps_singleton_eq, ← h1, ← h2, ← h3]
  unfold reconcileLoaded convergeResources
  simp only [andThen_assoc]
  rfl

/-! ### What the steps add to the trace -/

theorem Extends.preorder (P : Call → Prop) : Preorder2 (Extends (σ := σ) P) where
  refl := fun w => ⟨[], by simp, by simp⟩
  trans := by
    rintro a b c ⟨e1, h1, p1⟩ ⟨e2, h2, p2⟩
    refine ⟨e1 ++ e2, by rw [h2, h1, List.append_assoc], ?_⟩
    intro x hx
    rcases List.mem_append.mp hx with hx | hx
    · exact p1 x hx
    · exact p2 x hx

theorem Extends.dbFrame (env : Env σ) (P : Call → Prop) (hP : ∀ c, c.isDb = true → P c) :
    DbFrame env (Extends P) where
  connect := fun uri d w => ⟨[Call.connect uri d], rfl, by simpa using hP (Call.connect uri d) rfl⟩
  ping := fun uri w => ⟨[Call.ping uri], rfl, by simpa using hP (Call.ping uri) rfl⟩
  run := fun uri cmd w =>
    ⟨[Call.runCommand uri cmd], rfl, by simpa using hP (Call.runCommand uri cmd) rfl⟩
  disconnect := fun uri w =>
    ⟨[Call.disconnect uri], rfl, by simpa using hP (Call.disconnect uri) rfl⟩
  pick := fun w => ⟨[], by simp, by simp⟩

theorem Extends.apiFrame (env : Env σ) (P : Call → Prop)
    (hg : ∀ k ns name, P (Call.get k ns name)) (hc : ∀ o, P (Call.create o))
    (hu : ∀ o, P (Call.update o)) : ApiFrame env (Extends P) where
  get := fun k ns name w => ⟨[Call.get k ns name], rfl, by simpa using hg k ns name⟩
  create := fun o w => ⟨[Call.create o], rfl, by simpa using hc o⟩
  update := fun o w => ⟨[Call.update o], rfl, by simpa using hu o⟩

/-- Steps other than the status write add no status update to the trace. -/
theorem runSteps_noStatus (env : Env σ) (mongo : MongoDBCluster) (l : List StepName)
    (hl : StepName.statusWrite ∉ l) (w : World σ) :
    Extends (fun c => c.isStatusUpdate = false) w (runSteps env mongo l w).2 :=
  runSteps_rel (Extends.preorder (fun c => c.isStatusUpdate = false))
    (Extends.dbFrame env (fun c => c.isStatusUpdate = false)
      (fun c hc => by cases c <;> simp_all [Call.isDb, Call.isStatusUpdate]))
    (Extends.apiFrame env (fun c => c.isStatusUpdate = false)
      (fun _ _ _ => rfl) (fun _ => rfl) (fun _ => rfl)) mongo l hl w

theorem stepOrder_eq (mongo : MongoDBCluster) :
    ∃ init, stepOrder mongo = init ++ [StepName.statusWrite] ∧ StepName.statusWrite ∉ init := by
  refine ⟨[StepName.configServerWorkload] ++
    (List.range mongo.Spec.ReplicaSetCount.toNat).flatMap
      (fun i => [StepName.shardNetwork i, StepName.shardWorkload i]) ++
    [StepName.routerWorkload, StepName.configServerNetwork, StepName.routerNetwork,
      StepName.configServerReplication] ++
    (List.range mongo.Spec.ReplicaSetCount.toNat).map StepName.shardReplication ++
    (List.range mongo.Spec.ReplicaSetCount.toNat).map StepName.shardSharding ++
    [StepName.backupJob], ?_, ?_⟩
  · simp [stepOrder]
  · simp

theorem split_before_last {α : Type} (init pre post : List α) (s x : α) (hx : x ∉ init)
    (h : init ++ [x] = pre ++ s :: post) :
    x ∉ pre ∧ ((s = x ∧ post = [] ∧ pre = init) ∨ s ≠ x) := by
  rcases List.append_eq_append_iff.mp h with ⟨a, ha, hb⟩ | ⟨c, hc, hd⟩
  · -- pre = init ++ a, [x] = a ++ s :: post
    have : a = [] := by
      cases a with
      | nil => rfl
      | cons y ys =>
        have := congrArg List.length hb
        simp at this
    subst this
    simp at hb ha
    subst ha
    exact ⟨hx, Or.inl ⟨hb.1.symm, hb.2, rfl⟩⟩
  · -- init = pre ++ c, s :: post = c ++ [x]
    have hpre : x ∉ pre := fun hm => hx (by rw [hc]; exact List.mem_append_left _ hm)
    refine ⟨hpre, ?_⟩
    cases c with
    | nil =>
      simp at hd hc
      exact Or.inl ⟨hd.1, hd.2, hc.symm⟩
    | cons y ys =>
      simp at hd
      right
      intro hs
      apply hx
      rw [hc, ← hd.1, hs]
      simp

/-! ## The pass: abort on error (C2) -/

theorem Reconcile_of_loaded (env : Env σ) (req : Request) (w : World σ) (mongo : MongoDBCluster)
    (hload : (env.getCluster req.Namespace req.Name w.st).1 = .ok mongo) :
    Reconcile env req w =
      runSteps env mongo (stepOrder mongo) (apiGetCluster env req.Namespace req.Name w).2 := by
  rw [← reconcileLoaded_eq_runSteps]
  simp only [Reconcile, apiGetCluster, hload]

theorem filter_status_of_extends (w w1 : World σ)
    (h : Extends (fun c => c.isStatusUpdate = false) w w1) :
    ∃ evs, w1.trace = w.trace ++ evs ∧ evs.filter Call.isStatusUpdate = [] := by
  obtain ⟨evs, he, hp⟩ := h
  exact ⟨evs, he, List.filter_eq_nil_iff.mpr (fun c hc => by simp [hp c hc])⟩

/-- The trace of a run of steps that ends in a failing or succeeding step `s`
after the steps `pre` succeeded: no status update before `s`, and `s` adds
one exactly when it is the status write. -/
theorem trace_of_steps (env : Env σ) (mongo : MongoDBCluster) (pre : List StepName)
    (s : StepName) (hpre : StepName.statusWrite ∉ pre) (w0 : World σ) :
    ∃ evs, (runStep env mongo s (runSteps env mongo pre w0).2).2.trace = w0.trace ++ evs ∧
      evs.filter Call.isStatusUpdate =
        if s = StepName.statusWrite then [Call.statusUpdate (withRunningStatus mongo)] else [] := by
  obtain ⟨e1, h1, f1⟩ := filter_status_of_extends _ _ (runSteps_noStatus env mongo pre hpre w0)
  by_cases hs : s = StepName.statusWrite
  · subst hs
    refine ⟨e1 ++ [Call.statusUpdate (withRunningStatus mongo)], ?_, ?_⟩
    · simp [runStep, updateStatus, apiStatusUpdate, h1]
    · simp [List.filter_append, f1, Call.isStatusUpdate]
  · have h2 := runStep_rel (Extends.preorder (fun c => c.isStatusUpdate = false))
      (Extends.dbFrame env (fun c => c.isStatusUpdate = false)
        (fun c hc => by cases c <;> simp_all [Call.isDb, Call.isStatusUpdate]))
      (Extends.apiFrame env (fun c => c.isStatusUpdate = false)
        (fun _ _ _ => rfl) (fun _ => rfl) (fun _ => rfl)) mongo s hs
      (runSteps env mongo pre w0).2
    obtain ⟨e2, h2, f2⟩ := filter_status_of_extends _ _ h2
    refine ⟨e1 ++ e2, by rw [h2, h1, List.append_assoc], ?_⟩
    simp [List.filter_append, f1, f2, hs]

theorem runSteps_split (env : Env σ) (mongo : MongoDBCluster) (pre post : List StepName)
    (s : StepName) (w0 : World σ) (hpre : (runSteps env mongo pre w0).1 = .ok ()) :
    runSteps env mongo (pre ++ s :: post) w0 =
      match runStep env mongo s (runSteps env mongo pre w0).2 with
      | (.ok _, w1) => runSteps env mongo post w1
      | r => r := by
  rw [runSteps_append]
  simp only [andThen]
  rcases h : runSteps env mongo pre w0 with ⟨r, w1⟩
  rw [h] at hpre
  simp only at hpre
  subst hpre
  rfl

/-- C2. The steps of a pass run in the order of `stepOrder` (config-server
workload; per shard index its network, then its workload; router workload;
config-server network; router network; config-server replication; per-shard
replication; per-shard sharding; backup job; status write). When the steps
before `s` succeed and `s` returns an error, `Reconcile` returns that error
and ends in the world that `s` left: nothing is executed after `s`, and the
trace of the pass holds a status update only if `s` is the status write
itself (the refused write). -/
theorem reconcile_aborts_on_error (env : Env σ) (req : Request) (w : World σ)
    (mongo : MongoDBCluster) (pre post : List StepName) (s : StepName) (e : Error)
    (hload : (env.getCluster req.Namespace req.Name w.st).1 = .ok mongo)
    (hsplit : stepOrder mongo = pre ++ s :: post)
    (hpre : (runSteps env mongo pre (apiGetCluster env req.Namespace req.Name w).2).1 = .ok ())
    (hs : (runStep env mongo s
      (runSteps env mongo pre (apiGetCluster env req.Namespace req.Name w).2).2).1 = .err e) :
    Reconcile env req w = (.err e, (runStep env mongo s
      (runSteps env mongo pre (apiGetCluster env req.Namespace req.Name w).2).2).2) ∧
    ((Reconcile env req w).2.trace.drop w.trace.length).filter Call.isStatusUpdate =
      (if s = StepName.statusWrite then [Call.statusUpdate (withRunningStatus mongo)] else []) := by
  have hrec : Reconcile env req w = (.err e, (runStep env mongo s
      (runSteps env mongo pre (apiGetCluster env req.Namespace req.Name w).2).2).2) := by
    rw [Reconcile_of_loaded env req w mongo hload, hsplit, runSteps_split _ _ _ _ _ _ hpre]
    rcases h : runStep env mongo s
      (runSteps env mongo pre (apiGetCluster env req.Namespace req.Name w).2).2 with ⟨r, w2⟩
    rw [h] at hs
    simp only at hs
    subst hs
    rfl
  refine ⟨hrec, ?_⟩
  obtain ⟨init, hinit, hni⟩ := stepOrder_eq mongo
  have hnp : StepName.statusWrite ∉ pre :=
    (split_before_last init pre post s StepName.statusWrite hni (hinit ▸ hsplit)).1
  obtain ⟨evs, ht, hf⟩ := trace_of_steps env mongo pre s hnp
    (apiGetCluster env req.Namespace req.Name w).2
  rw [hrec]
  simp only
  rw [ht]
  have : (apiGetCluster env req.Namespace req.Name w).2.trace
      = w.trace ++ [Call.getCluster req.Namespace req.Name] := rfl
  rw [this, List.append_assoc, List.drop_left']
  · simp [List.filter_append, hf, Call.isStatusUpdate]
  · rfl

theorem reconcile_aborts_on_error_witness :
    (Reconcile downEnv sampleRequest sampleWorld).1
      = Res.err { msg := "connection failed: server selection error" } ∧
    ((Reconcile downEnv sampleRequest sampleWorld).2.trace.drop
      sampleWorld.trace.length).filter Call.isStatusUpdate = [] :=
  have h := reconcile_aborts_on_error downEnv sampleRequest sampleWorld sampleCluster
    [StepName.configServerWorkload, StepName.shardNetwork 0, StepName.shardWorkload 0,
      StepName.shardNetwork 1, StepName.shardWorkload 1, StepName.routerWorkload,
      StepName.configServerNetwork, StepName.routerNetwork]
    [StepName.shardReplication 0, StepName.shardReplication 1, StepName.shardSharding 0,
      StepName.shardSharding 1, StepName.backupJob, StepName.statusWrite]
    StepName.configServerReplication { msg := "connection failed: server selection error" }
    rfl (by decide) (by decide) (by decide)
  ⟨congrArg Prod.fst h.1, h.2⟩

theorem wrap64_of_inRange (x : Int) (h1 : -9223372036854775808 ≤ x)
    (h2 : x < 9223372036854775808) : wrap64 x = x := by
  unfold wrap64
  omega

/-! ## Election bound (C10) -/

theorem goSelect_spec (env : Env σ) (now deadline tickAt : Nat) (w : World σ) :
    (goSelect env now deadline tickAt w).2.trace = w.trace ∧
    (goSelect env now deadline tickAt w).1.2 = max now (min deadline tickAt) ∧
    ((goSelect env now deadline tickAt w).1.1 = Fired.tick →
      tickAt ≤ max now (min deadline tickAt)) := by
  unfold goSelect
  simp only
  split_ifs <;> simp_all

theorem nextTick_ge (period tickAt t : Nat) : tickAt + period ≤ nextTick period tickAt t := by
  unfold nextTick
  have : period ≤ period * ((t - tickAt) / period + 1) := Nat.le_mul_of_pos_right _ (Nat.succ_pos _)
  omega

theorem scanPrimary_ne_err : ∀ (l : List Bson) (e : Error), scanPrimary l ≠ .err e := by
  intro l
  induction l with
  | nil => intro e; simp [scanPrimary]
  | cons x xs ih =>
    intro e
    cases x <;> simp only [scanPrimary, ne_eq, reduceCtorEq, not_false_eq_true]
    split
    · split_ifs
      · simp
      · exact ih e
    · exact ih e

theorem scanPrimary_ne_hang : ∀ (l : List Bson), scanPrimary l ≠ .hang := by
  intro l
  induction l with
  | nil => simp [scanPrimary]
  | cons x xs ih =>
    cases x <;> simp only [scanPrimary, ne_eq, reduceCtorEq, not_false_eq_true]
    split
    · split_ifs
      · simp
      · exact ih
    · exact ih

/-- The loop of `waitForPrimary` ends within its rounds: it never hangs, it ends in
success, in the timeout error or in a panic, and the calls it issued are status
requests, at most one per tick that falls before the deadline. -/
theorem waitForPrimaryLoop_bound (env : Env σ) (uri : String) :
    ∀ (rounds now tickAt : Nat) (w : World σ), now ≤ 30000 →
      30000 < tickAt + 2000 * rounds →
      ((waitForPrimaryLoop env uri (rounds + 1) now tickAt w).1 = .ok () ∨
       (waitForPrimaryLoop env uri (rounds + 1) now tickAt w).1 =
          .err (newErr "timeout waiting for replica set to become primary") ∨
       ∃ m, (waitForPrimaryLoop env uri (rounds + 1) now tickAt w).1 = .panic m) ∧
      ∃ evs, (waitForPrimaryLoop env uri (rounds + 1) now tickAt w).2.trace = w.trace ++ evs ∧
        evs.length ≤ (32000 - tickAt) / 2000 ∧
        ∀ c ∈ evs, c = Call.runCommand uri statusCmd := by
  intro rounds
  induction rounds with
  | zero =>
    intro now tickAt w hnow hfuel
    have hsel := goSelect_spec env now 30000 tickAt w
    unfold waitForPrimaryLoop
    rcases hg : goSelect env now 30000 tickAt w with ⟨⟨f, t⟩, w1⟩
    rw [hg] at hsel
    cases f with
    | done => exact ⟨Or.inr (Or.inl rfl), [], by simpa using hsel.1, by simp, by simp⟩
    | tick =>
      have := hsel.2.2 rfl
      omega
  | succ n ih =>
    intro now tickAt w hnow hfuel
    have hsel := goSelect_spec env now 30000 tickAt w
    unfold waitForPrimaryLoop
    rcases hg : goSelect env now 30000 tickAt w with ⟨⟨f, t⟩, w1⟩
    rw [hg] at hsel
    simp only at hsel
    cases f with
    | done => exact ⟨Or.inr (Or.inl rfl), [], by simpa using hsel.1, by simp, by simp⟩
    | tick =>
      simp only
      have htick : tickAt ≤ max now (min 30000 tickAt) := hsel.2.2 rfl
      have hle : tickAt ≤ 30000 := by omega
      rcases hrun : dbRunCommand env uri [("replSetGetStatus", .int 1)] w1 with ⟨⟨r, d⟩, w2⟩
      have htr : w2.trace = w.trace ++ [Call.runCommand uri statusCmd] := by
        have : (dbRunCommand env uri [("replSetGetStatus", .int 1)] w1).2.trace
            = w1.trace ++ [Call.runCommand uri statusCmd] := rfl
        rw [hrun] at this
        rw [this, hsel.1]
      have hstop : ∃ evs, w2.trace = w.trace ++ evs ∧ evs.length ≤ (32000 - tickAt) / 2000 ∧
          ∀ c ∈ evs, c = Call.runCommand uri statusCmd := by
        refine ⟨[Call.runCommand uri statusCmd], htr, ?_, by simp⟩
        simp only [List.length_singleton]
        omega
      have hrec : ∀ a, a ≤ 30000 →
          ((waitForPrimaryLoop env uri (n + 1) a (nextTick 2000 tickAt t) w2).1 = .ok () ∨
           (waitForPrimaryLoop env uri (n + 1) a (nextTick 2000 tickAt t) w2).1 =
              .err (newErr "timeout waiting for replica set to become primary") ∨
           ∃ m, (waitForPrimaryLoop env uri (n + 1) a (nextTick 2000 tickAt t) w2).1 = .panic m) ∧
          ∃ evs, (waitForPrimaryLoop env uri (n + 1) a (nextTick 2000 tickAt t) w2).2.trace
              = w.trace ++ evs ∧
            evs.length ≤ (32000 - tickAt) / 2000 ∧
            ∀ c ∈ evs, c = Call.runCommand uri statusCmd := by
        intro a ha
        have hn := nextTick_ge 2000 tickAt t
        obtain ⟨h1, evs, h2, h3, h4⟩ := ih a (nextTick 2000 tickAt t) w2 ha (by omega)
        refine ⟨h1, Call.runCommand uri statusCmd :: evs, ?_, ?_, ?_⟩
        · rw [h2, htr]; simp
        · simp only [List.length_cons]
          omega
        · intro c hc
          rcases List.mem_cons.mp hc with hc | hc
          · exact hc
          · exact h4 c hc
      cases r with
      | error e => exact hrec _ (Nat.min_le_right _ _)
      | ok status =>
        simp only
        split
        · split
          · exact ⟨Or.inl rfl, hstop⟩
          · exact hrec _ (Nat.min_le_right _ _)
          · rename_i hsc
            exact absurd hsc (scanPrimary_ne_err _ _)
          · exact ⟨Or.inr (Or.inr ⟨_, rfl⟩), hstop⟩
          · rename_i hsc
            exact absurd hsc (scanPrimary_ne_hang _)
        · exact hrec _ (Nat.min_le_right _ _)

/-- Election bound. `waitForPrimary` never hangs: it ends in success, in the
timeout error or in a panic, after at most 15 status requests and no other call. -/
theorem waitForPrimary_bounded (env : Env σ) (uri : String) (w : World σ) :
    ((waitForPrimary env uri w).1 = .ok () ∨
     (waitForPrimary env uri w).1 =
        .err (newErr "timeout waiting for replica set to become primary") ∨
     ∃ m, (waitForPrimary env uri w).1 = .panic m) ∧
    ∃ evs, (waitForPrimary env uri w).2.trace = w.trace ++ evs ∧ evs.length ≤ 15 ∧
      ∀ c ∈ evs, c = Call.runCommand uri statusCmd := by
  obtain ⟨h1, evs, h2, h3, h4⟩ :=
    waitForPrimaryLoop_bound env uri 15 0 2000 w (by norm_num) (by norm_num)
  exact ⟨h1, evs, h2, by simpa using h3, h4⟩

theorem waitForPrimaryLoop_neverPrimary (env : Env σ) (uri : String) (hnp : NeverPrimary env) :
    ∀ (rounds now tickAt : Nat) (w : World σ),
      (waitForPrimaryLoop env uri rounds now tickAt w).1 ≠ .ok () ∧
      ∀ m, (waitForPrimaryLoop env uri rounds now tickAt w).1 ≠ .panic m := by
  intro rounds
  induction rounds with
  | zero => intro now tickAt w; simp [waitForPrimaryLoop]
  | succ n ih =>
    intro now tickAt w
    unfold waitForPrimaryLoop
    rcases hg : goSelect env now 30000 tickAt w with ⟨⟨f, t⟩, w1⟩
    cases f with
    | done => simp
    | tick =>
      simp only
      rcases hrun : dbRunCommand env uri [("replSetGetStatus", .int 1)] w1 with ⟨⟨r, d⟩, w2⟩
      cases r with
      | error e => exact ih _ _ _
      | ok status =>
        have hst : (env.runCommand uri [("replSetGetStatus", .int 1)] w1.st).1.1 = .ok status := by
          have : (dbRunCommand env uri [("replSetGetStatus", .int 1)] w1).1.1
              = (env.runCommand uri [("replSetGetStatus", .int 1)] w1.st).1.1 := rfl
          rw [← this, hrun]
        simp only
        split
        · rename_i members hm
          rw [hnp _ _ _ status hst members hm]
          exact ih _ _ _
        · exact ih _ _ _

/-- When no reply ever lists a primary (failed replies and replies without a
member array included, every listed member being a document), `waitForPrimary`
returns the timeout error after at most 15 status requests. -/
theorem waitForPrimary_times_out (env : Env σ) (uri : String) (w : World σ)
    (hnp : NeverPrimary env) :
    (waitForPrimary env uri w).1 =
        .err (newErr "timeout waiting for replica set to become primary") ∧
    ∃ evs, (waitForPrimary env uri w).2.trace = w.trace ++ evs ∧ evs.length ≤ 15 ∧
      ∀ c ∈ evs, c = Call.runCommand uri statusCmd := by
  obtain ⟨h1, h2⟩ := waitForPrimary_bounded env uri w
  have h3 := waitForPrimaryLoop_neverPrimary env uri hnp 16 0 2000 w
  refine ⟨?_, h2⟩
  rcases h1 with h | h | ⟨m, h⟩
  · exact absurd h h3.1
  · exact h
  · exact absurd h (h3.2 m)

theorem neverPrimary_secondaryEnv : NeverPrimary secondaryEnv := by
  intro uri cmd s status h members hm
  have hs : status = [("members", .arr [.doc [("stateStr", .str "SECONDARY")]])] := by
    have : (secondaryEnv.runCommand uri cmd s).1.1
        = .ok [("members", .arr [.doc [("stateStr", .str "SECONDARY")]])] := rfl
    rw [this] at h
    exact (Except.ok.inj h).symm
  subst hs
  have hm2 : members = [.doc [("stateStr", .str "SECONDARY")]] := by
    have : Bson.index "members" [("members", Bson.arr [.doc [("stateStr", .str "SECONDARY")]])]
        = .arr [.doc [("stateStr", .str "SECONDARY")]] := rfl
    rw [this] at hm
    exact (Bson.arr.inj hm).symm
  subst hm2
  decide

theorem waitForPrimary_times_out_witness :
    (waitForPrimary secondaryEnv "mongodb://h" sampleWorld).1 =
      .err (newErr "timeout waiting for replica set to become primary") :=
  (waitForPrimary_times_out secondaryEnv "mongodb://h" sampleWorld neverPrimary_secondaryEnv).1

/-- In the model the bound is reached: with instant replies that never list a
primary and the ticker winning the tie at 30 s, fifteen status requests are
issued before the timeout error. -/
theorem waitForPrimary_fifteen_polls :
    (waitForPrimary secondaryEnv "mongodb://h" sampleWorld).2.trace.length = 15 := by
  decide

/-- As soon as a reply lists a primary the loop returns success: when the ticker
fires in a round and the reply to that round's request lists a member in state
`PRIMARY` (after documents only), the loop ends there with success. -/
theorem waitForPrimaryLoop_primary (env : Env σ) (uri : String) (rounds now tickAt : Nat)
    (w : World σ) (status : Doc) (members : List Bson)
    (htick : (goSelect env now 30000 tickAt w).1.1 = Fired.tick)
    (hreply : (env.runCommand uri statusCmd (goSelect env now 30000 tickAt w).2.st).1.1
      = .ok status)
    (hm : Bson.index "members" status = .arr members)
    (hp : scanPrimary members = .ok true) :
    waitForPrimaryLoop env uri (rounds + 1) now tickAt w =
      (.ok (), (dbRunCommand env uri statusCmd (goSelect env now 30000 tickAt w).2).2) := by
  unfold waitForPrimaryLoop
  rcases hg : goSelect env now 30000 tickAt w with ⟨⟨f, t⟩, w1⟩
  rw [hg] at htick hreply
  simp only at htick hreply
  subst htick
  simp only
  rcases hrun : dbRunCommand env uri [("replSetGetStatus", .int 1)] w1 with ⟨⟨r, d⟩, w2⟩
  have hst : r = .ok status := by
    have : (dbRunCommand env uri [("replSetGetStatus", .int 1)] w1).1.1
        = (env.runCommand uri statusCmd w1.st).1.1 := rfl
    rw [hrun, hreply] at this
    exact this
  subst hst
  simp only [hm, hp]
  have : (dbRunCommand env uri statusCmd w1).2 = w2 := by
    have : (dbRunCommand env uri [("replSetGetStatus", .int 1)] w1).2 = w2 := by rw [hrun]
    exact this
  rw [this]

/-- C10, the failing input. A status reply whose member array holds a value that is
not a document makes `waitForPrimary` panic at the first poll instead of
polling on to the timeout error. -/
theorem waitForPrimary_panics_on_malformed_member :
    (waitForPrimary malformedEnv "mongodb://h" sampleWorld).1 =
      Res.panic "interface conversion: interface is not primitive.M" ∧
    (waitForPrimary malformedEnv "mongodb://h" sampleWorld).2.trace.length = 1 := by
  decide

/-! ## The in-memory platform: what each step does to the store -/

theorem hasKey_iff (k : Kind) (ns name : String) (x : Object) :
    Object.hasKey k ns name x = true ↔ x.key = (k, ns, name) := by
  simp [Object.hasKey, Object.key, Prod.ext_iff, and_assoc]

theorem key_setResourceVersion (o : Object) (rv : String) :
    (o.setResourceVersion rv).key = o.key := by
  cases o <;> rfl

theorem resourceVersion_setResourceVersion (o : Object) (rv : String) :
    (o.setResourceVersion rv).meta.ResourceVersion = rv := by
  cases o <;> rfl

theorem key_withOwner (gvk : String × String) (mongo : MongoDBCluster) (o : Object) :
    (withOwner gvk mongo o).key = o.key := by
  cases o <;> rfl

theorem Store.get_of_not_has (s : Store) (k : Kind) (ns name : String)
    (h : ¬ s.has (k, ns, name)) : s.get k ns name = .error notFoundError := by
  unfold Store.get
  have : s.objs.find? (Object.hasKey k ns name) = none := by
    rw [List.find?_eq_none]
    intro x hx hk
    exact h ⟨x, hx, (hasKey_iff k ns name x).mp hk⟩
  rw [this]

theorem Store.get_of_has (s : Store) (k : Kind) (ns name : String)
    (h : s.has (k, ns, name)) :
    ∃ existing, s.objs.find? (Object.hasKey k ns name) = some existing ∧
      s.get k ns name = .ok existing := by
  unfold Store.get
  obtain ⟨x, hx, hk⟩ := h
  cases hf : s.objs.find? (Object.hasKey k ns name) with
  | none =>
    rw [List.find?_eq_none] at hf
    exact absurd ((hasKey_iff k ns name x).mpr hk) (by simpa using hf x hx)
  | some e => exact ⟨e, rfl, rfl⟩

theorem any_hasKey_iff (s : Store) (k : Kind) (ns name : String) :
    s.objs.any (Object.hasKey k ns name) = true ↔ s.has (k, ns, name) := by
  rw [List.any_eq_true]
  constructor
  · rintro ⟨x, hx, hk⟩
    exact ⟨x, hx, (hasKey_iff k ns name x).mp hk⟩
  · rintro ⟨x, hx, hk⟩
    exact ⟨x, hx, (hasKey_iff k ns name x).mpr hk⟩

theorem Store.create_of_not_has (s : Store) (obj : Object) (h : ¬ s.has obj.key) :
    s.create obj = (none, { s with
      objs := s.objs ++ [obj.setResourceVersion (Nat.repr s.nextVersion)]
      nextVersion := s.nextVersion + 1 }) := by
  unfold Store.create
  rw [if_neg]
  exact fun ha => h ((any_hasKey_iff _ _ _ _).mp ha)

theorem mem_createOrUpdate_absent (drv : Driver δ) (pq : String → Option String) (obj : Object)
    (w : World (Store × δ)) (h : ¬ w.st.1.has obj.key) :
    createOrUpdate (memEnv drv pq) obj w = (.ok (), afterCreate obj w) := by
  have hget : ((memEnv drv pq).get obj.kind obj.meta.Namespace obj.meta.Name w.st).1
      = .error notFoundError := Store.get_of_not_has _ _ _ _ h
  rw [createOrUpdate_notFound _ obj w notFoundError hget rfl]
  simp [apiCreate, apiGet, memEnv, Store.create_of_not_has _ _ h, afterCreate, Res.ofErr]

theorem mem_createIfAbsent_absent (drv : Driver δ) (pq : String → Option String) (obj : Object)
    (w : World (Store × δ)) (h : ¬ w.st.1.has obj.key) :
    createIfAbsent (memEnv drv pq) obj w = (.ok (), afterCreate obj w) := by
  have hget : ((memEnv drv pq).get obj.kind obj.meta.Namespace obj.meta.Name w.st).1
      = .error notFoundError := Store.get_of_not_has _ _ _ _ h
  have hnf : IsNotFound notFoundError = true := rfl
  simp [createIfAbsent, apiCreate, apiGet, memEnv, Store.create_of_not_has _ _ h, afterCreate,
    Res.ofErr, Store.get_of_not_has _ _ _ _ h, hnf]

theorem mem_createOrUpdate_present (drv : Driver δ) (pq : String → Option String) (obj : Object)
    (w : World (Store × δ)) (h : w.st.1.has obj.key) :
    createOrUpdate (memEnv drv pq) obj w
      = (.ok (), afterUpdate obj (w.st.1.versionOf obj) w) := by
  obtain ⟨existing, hfind, hg⟩ := Store.get_of_has _ _ _ _ h
  have hv : w.st.1.versionOf obj = existing.meta.ResourceVersion := by
    unfold Store.versionOf
    rw [hfind]
  rw [hv]
  have hget : ((memEnv drv pq).get obj.kind obj.meta.Namespace obj.meta.Name w.st).1
      = .ok existing := hg
  rw [createOrUpdate_found _ obj existing w hget]
  have hk : (obj.setResourceVersion existing.meta.ResourceVersion).key = obj.key :=
    key_setResourceVersion _ _
  have hk1 : (obj.setResourceVersion existing.meta.ResourceVersion).kind = obj.kind :=
    congrArg (fun k : Key => k.1) hk
  have hk2 : (obj.setResourceVersion existing.meta.ResourceVersion).meta.Namespace
      = obj.meta.Namespace := congrArg (fun k : Key => k.2.1) hk
  have hk3 : (obj.setResourceVersion existing.meta.ResourceVersion).meta.Name
      = obj.meta.Name := congrArg (fun k : Key => k.2.2) hk
  simp [apiUpdate, apiGet, memEnv, Store.update, afterUpdate, Res.ofErr, hk1, hk2, hk3, hfind,
    resourceVersion_setResourceVersion]

theorem mem_createIfAbsent_present (drv : Driver δ) (pq : String → Option String) (obj : Object)
    (w : World (Store × δ)) (h : w.st.1.has obj.key) :
    createIfAbsent (memEnv drv pq) obj w = (.ok (), afterFound obj w) := by
  obtain ⟨existing, hfind, hg⟩ := Store.get_of_has _ _ _ _ h
  simp [createIfAbsent, apiGet, memEnv, hg, afterFound]

theorem find_append_other (l : List Object) (new o : Object) (h : new.key ≠ o.key) :
    (l ++ [new]).find? (Object.hasKey o.kind o.meta.Namespace o.meta.Name)
      = l.find? (Object.hasKey o.kind o.meta.Namespace o.meta.Name) := by
  have hp : Object.hasKey o.kind o.meta.Namespace o.meta.Name new = false := by
    cases hk : Object.hasKey o.kind o.meta.Namespace o.meta.Name new with
    | false => rfl
    | true => exact absurd ((hasKey_iff _ _ _ new).mp hk) h
  induction l with
  | nil => simp [List.find?, hp]
  | cons a t ih =>
    simp only [List.cons_append, List.find?_cons]
    cases Object.hasKey o.kind o.meta.Namespace o.meta.Name a with
    | true => rfl
    | false => exact ih

theorem find_map_other (p : Object → Bool) (f : Object → Object)
    (h1 : ∀ x, p x = true → f x = x) (h2 : ∀ x, p x = false → p (f x) = false) :
    ∀ l : List Object, (l.map f).find? p = l.find? p := by
  intro l
  induction l with
  | nil => rfl
  | cons a t ih =>
    simp only [List.map_cons, List.find?_cons]
    cases ha : p a with
    | true => rw [h1 a ha, ha]
    | false => rw [h2 a ha]; exact ih

theorem Applied.ofCreate (obj : Object) (w : World (Store × δ)) (h : ¬ w.st.1.has obj.key) :
    Applied obj w (afterCreate obj w) where
  clusters := rfl
  others := by
    intro o ho
    unfold Store.versionOf
    have : (afterCreate obj w).st.1.objs
        = w.st.1.objs ++ [obj.setResourceVersion (Nat.repr w.st.1.nextVersion)] := rfl
    rw [this, find_append_other _ _ o (by rw [key_setResourceVersion]; exact fun e => ho e.symm)]
  holds := ⟨obj.setResourceVersion (Nat.repr w.st.1.nextVersion), by simp [afterCreate],
    key_setResourceVersion _ _⟩
  mono := by
    rintro key ⟨x, hx, hk⟩
    exact ⟨x, by simp [afterCreate, hx], hk⟩
  only := by
    rintro key ⟨x, hx, hk⟩
    simp only [afterCreate, List.mem_append, List.mem_singleton] at hx
    rcases hx with hx | hx
    · exact Or.inl ⟨x, hx, hk⟩
    · right
      rw [← hk, hx, key_setResourceVersion]
  kept := fun hp => absurd hp h
  made := fun _ => rfl

theorem Applied.ofUpdate (obj : Object) (rv : String) (w : World (Store × δ))
    (h : w.st.1.has obj.key) (hrv : rv = w.st.1.versionOf obj) :
    Applied obj w (afterUpdate obj rv w) := by
  have hkey : ∀ x : Object, (if Object.hasKey obj.kind obj.meta.Namespace obj.meta.Name x then
      (obj.setResourceVersion rv).setResourceVersion (Nat.repr w.st.1.nextVersion) else x).key
      = x.key := by
    intro x
    split_ifs with hx
    · rw [key_setResourceVersion, key_setResourceVersion]
      exact ((hasKey_iff _ _ _ x).mp hx).symm
    · rfl
  have hmono : ∀ key, w.st.1.has key → (afterUpdate obj rv w).st.1.has key := by
    rintro key ⟨x, hx, hk⟩
    exact ⟨_, List.mem_map.mpr ⟨x, hx, rfl⟩, (hkey x).trans hk⟩
  refine ⟨rfl, hmono _ h, hmono, ?_, ?_, ?_, fun hn => absurd h hn⟩
  · rintro key ⟨y, hy, hk⟩
    obtain ⟨x, hx, hxy⟩ := List.mem_map.mp hy
    left
    exact ⟨x, hx, by rw [← hk, ← hxy, hkey x]⟩
  · intro o ho
    unfold Store.versionOf
    have hobjs : (afterUpdate obj rv w).st.1.objs = w.st.1.objs.map (fun x =>
        if Object.hasKey obj.kind obj.meta.Namespace obj.meta.Name x then
          (obj.setResourceVersion rv).setResourceVersion (Nat.repr w.st.1.nextVersion)
        else x) := rfl
    rw [hobjs, find_map_other]
    · intro x hx
      have hxk := (hasKey_iff _ _ _ x).mp hx
      have hne : Object.hasKey obj.kind obj.meta.Namespace obj.meta.Name x = false := by
        cases hk : Object.hasKey obj.kind obj.meta.Namespace obj.meta.Name x with
        | false => rfl
        | true => exact absurd (hxk.symm.trans ((hasKey_iff _ _ _ x).mp hk)) ho
      simp [hne]
    · intro x hx
      cases hk : Object.hasKey o.kind o.meta.Namespace o.meta.Name
          (if Object.hasKey obj.kind obj.meta.Namespace obj.meta.Name x then
            (obj.setResourceVersion rv).setResourceVersion (Nat.repr w.st.1.nextVersion)
          else x) with
      | false => rfl
      | true =>
        have h1 := (hasKey_iff _ _ _ _).mp hk
        rw [hkey x] at h1
        rw [(hasKey_iff _ _ _ x).mpr h1] at hx
        cases hx
  · intro _
    refine ⟨_, rfl, ?_, ?_⟩
    · intro c hc
      simp only [List.mem_cons, List.mem_singleton, List.not_mem_nil, or_false] at hc
      rcases hc with hc | hc <;> subst hc <;> exact ⟨rfl, rfl⟩
    · intro c hc hu
      simp only [List.mem_cons, List.mem_singleton, List.not_mem_nil, or_false] at hc
      rcases hc with hc | hc
      · subst hc; simp [Call.isUpdate] at hu
      · rw [hc, hrv]

theorem Applied.ofFound (obj : Object) (w : World (Store × δ)) (h : w.st.1.has obj.key) :
    Applied obj w (afterFound obj w) := by
  refine ⟨rfl, h, fun _ hk => hk, fun _ hk => Or.inl hk, fun _ _ => rfl, ?_,
    fun hn => absurd h hn⟩
  intro _
  refine ⟨_, rfl, ?_, ?_⟩
  · intro c hc
    simp only [List.mem_singleton] at hc
    subst hc
    exact ⟨rfl, rfl⟩
  · intro c hc hu
    simp only [List.mem_singleton] at hc
    subst hc
    simp [Call.isUpdate] at hu

theorem mem_createOrUpdate (drv : Driver δ) (pq : String → Option String) (obj : Object)
    (w : World (Store × δ)) :
    (createOrUpdate (memEnv drv pq) obj w).1 = .ok () ∧
      Applied obj w (createOrUpdate (memEnv drv pq) obj w).2 := by
  by_cases h : w.st.1.has obj.key
  · rw [mem_createOrUpdate_present drv pq obj w h]
    exact ⟨rfl, Applied.ofUpdate obj _ w h rfl⟩
  · rw [mem_createOrUpdate_absent drv pq obj w h]
    exact ⟨rfl, Applied.ofCreate obj w h⟩

theorem mem_createIfAbsent (drv : Driver δ) (pq : String → Option String) (obj : Object)
    (w : World (Store × δ)) :
    (createIfAbsent (memEnv drv pq) obj w).1 = .ok () ∧
      Applied obj w (createIfAbsent (memEnv drv pq) obj w).2 := by
  by_cases h : w.st.1.has obj.key
  · rw [mem_createIfAbsent_present drv pq obj w h]
    exact ⟨rfl, Applied.ofFound obj w h⟩
  · rw [mem_createIfAbsent_absent drv pq obj w h]
    exact ⟨rfl, Applied.ofCreate obj w h⟩

theorem Quiet.isPreorder : Preorder2 (Quiet (δ := δ)) where
  refl := fun w => ⟨rfl, [], by simp, by simp⟩
  trans := by
    rintro a b c ⟨s1, e1, h1, p1⟩ ⟨s2, e2, h2, p2⟩
    refine ⟨s2.trans s1, e1 ++ e2, by rw [h2, h1, List.append_assoc], ?_⟩
    intro x hx
    rcases List.mem_append.mp hx with hx | hx
    · exact p1 x hx
    · exact p2 x hx

theorem Quiet.framesDb (drv : Driver δ) (pq : String → Option String) :
    DbFrame (memEnv drv pq) (Quiet (δ := δ)) where
  connect := fun uri d w => ⟨rfl, [Call.connect uri d], rfl, by simp [Call.isCreate,
    Call.isUpdate, Call.isStatusUpdate]⟩
  ping := fun uri w => ⟨rfl, [Call.ping uri], rfl, by simp [Call.isCreate,
    Call.isUpdate, Call.isStatusUpdate]⟩
  run := fun uri cmd w => ⟨rfl, [Call.runCommand uri cmd], rfl, by simp [Call.isCreate,
    Call.isUpdate, Call.isStatusUpdate]⟩
  disconnect := fun uri w => ⟨rfl, [Call.disconnect uri], rfl, by simp [Call.isCreate,
    Call.isUpdate, Call.isStatusUpdate]⟩
  pick := fun w => ⟨rfl, [], by simp, by simp⟩

/-- On the in-memory platform every step but the status write either manages the
resource `stepObject` names, and then succeeds with the effect `Applied`, or
manages none and is `Quiet`. -/
theorem mem_runStep (drv : Driver δ) (pq : String → Option String) (mongo : MongoDBCluster)
    (s : StepName) (hs : s ≠ StepName.statusWrite) (w : World (Store × δ)) :
    (∃ obj, stepObject pq mongo s = some obj ∧
      (runStep (memEnv drv pq) mongo s w).1 = .ok () ∧
      Applied obj w (runStep (memEnv drv pq) mongo s w).2) ∨
    (stepObject pq mongo s = none ∧ Quiet w (runStep (memEnv drv pq) mongo s w).2) := by
  have hg : (memEnv drv pq).ownerGVK = .ok memGVK := rfl
  have hp : (memEnv drv pq).parseQuantity = pq := rfl
  cases s with
  | configServerWorkload =>
    cases hq : pq mongo.Spec.StorageSize with
    | none =>
      right
      refine ⟨by simp [stepObject, hq], ?_⟩
      simp only [runStep, buildConfigServerStatefulSet, hp, hq]
      exact Quiet.isPreorder.refl w
    | some q =>
      left
      refine ⟨withOwner memGVK mongo (.statefulSet (configServerStatefulSet q mongo)),
        by simp [stepObject, hq], ?_⟩
      simp only [runStep, buildConfigServerStatefulSet, hp, hq, SetControllerReference, hg]
      exact mem_createOrUpdate drv pq _ w
  | shardNetwork i =>
    left
    refine ⟨_, rfl, ?_⟩
    simp only [runStep, reconcileShardService, SetControllerReference, hg]
    exact mem_createIfAbsent drv pq _ w
  | shardWorkload i =>
    cases hq : pq mongo.Spec.StorageSize with
    | none =>
      right
      refine ⟨by simp [stepObject, hq], ?_⟩
      simp only [runStep, buildShardStatefulSet, hp, hq]
      exact Quiet.isPreorder.refl w
    | some q =>
      left
      refine ⟨withOwner memGVK mongo (.statefulSet (shardStatefulSet q mongo (Int.ofNat i))),
        by simp [stepObject, hq], ?_⟩
      simp only [runStep, buildShardStatefulSet, hp, hq, SetControllerReference, hg]
      exact mem_createOrUpdate drv pq _ w
  | routerWorkload =>
    left
    refine ⟨_, rfl, ?_⟩
    simp only [runStep, buildMongosDeployment, SetControllerReference, hg]
    exact mem_createOrUpdate drv pq _ w
  | configServerNetwork =>
    left
    refine ⟨_, rfl, ?_⟩
    simp only [runStep, reconcileConfigSvrService, SetControllerReference, hg]
    exact mem_createOrUpdate drv pq _ w
  | routerNetwork =>
    left
    refine ⟨_, rfl, ?_⟩
    simp only [runStep, reconcileMongosService, SetControllerReference, hg]
    exact mem_createOrUpdate drv pq _ w
  | configServerReplication =>
    exact Or.inr ⟨rfl, reconcileConfigServerReplicaSet_rel Quiet.isPreorder
      (Quiet.framesDb drv pq) mongo w⟩
  | shardReplication i =>
    exact Or.inr ⟨rfl, reconcileReplicaSet_rel Quiet.isPreorder (Quiet.framesDb drv pq) mongo _ w⟩
  | shardSharding i =>
    exact Or.inr ⟨rfl, reconcileEnbaleShardingMongos_rel Quiet.isPreorder
      (Quiet.framesDb drv pq) mongo _ w⟩
  | backupJob =>
    cases he : mongo.Spec.Backup.Enabled with
    | false =>
      right
      refine ⟨by simp [stepObject, he], ?_⟩
      simp only [runStep, reconcileBackupCronJob, he]
      exact Quiet.isPreorder.refl w
    | true =>
      left
      refine ⟨withOwner memGVK mongo (.cronJob (backupCronJob mongo)),
        by simp [stepObject, he], ?_⟩
      simp only [runStep, reconcileBackupCronJob, he, SetControllerReference, hg]
      exact mem_createOrUpdate drv pq _ w
  | statusWrite => exact absurd rfl hs

theorem runSteps_cons_ok (env : Env σ) (mongo : MongoDBCluster) (s : StepName)
    (rest : List StepName) (w : World σ) (h : (runStep env mongo s w).1 = .ok ()) :
    runSteps env mongo (s :: rest) w = runSteps env mongo rest (runStep env mongo s w).2 := by
  simp only [runSteps]
  rcases hr : runStep env mongo s w with ⟨r, w1⟩
  rw [hr] at h
  simp only at h
  subst h
  rfl

theorem runSteps_cons_not_ok (env : Env σ) (mongo : MongoDBCluster) (s : StepName)
    (rest : List StepName) (w : World σ) (h : (runStep env mongo s w).1 ≠ .ok ()) :
    runSteps env mongo (s :: rest) w = runStep env mongo s w := by
  simp only [runSteps]
  rcases hr : runStep env mongo s w with ⟨r, w1⟩
  rw [hr] at h
  cases r with
  | ok v => exact absurd rfl h
  | err e => rfl
  | panic m => rfl
  | hang => rfl

theorem created_of_isCreate_false (evs : List Call) (h : ∀ c ∈ evs, c.isCreate = false) :
    createdObjects evs = [] := by
  unfold createdObjects
  rw [List.filterMap_eq_nil_iff]
  intro c hc
  have := h c hc
  cases c <;> simp_all [Call.isCreate, Call.created]

theorem updated_of_isUpdate_false (evs : List Call) (h : ∀ c ∈ evs, c.isUpdate = false) :
    updatedObjects evs = [] := by
  unfold updatedObjects
  rw [List.filterMap_eq_nil_iff]
  intro c hc
  have := h c hc
  cases c <;> simp_all [Call.isUpdate, Call.updated]

theorem createdObjects_append (a b : List Call) :
    createdObjects (a ++ b) = createdObjects a ++ createdObjects b := by
  simp [createdObjects, List.filterMap_append]

theorem updatedObjects_append (a b : List Call) :
    updatedObjects (a ++ b) = updatedObjects a ++ updatedObjects b := by
  simp [updatedObjects, List.filterMap_append]

/-- Steps before the status write leave the cluster objects alone and never
remove a key from the in-memory store. -/
theorem mem_runSteps_mono (drv : Driver δ) (pq : String → Option String)
    (mongo : MongoDBCluster) :
    ∀ (l : List StepName), StepName.statusWrite ∉ l → ∀ w : World (Store × δ),
      (runSteps (memEnv drv pq) mongo l w).2.st.1.clusters = w.st.1.clusters ∧
      ∀ key, w.st.1.has key → (runSteps (memEnv drv pq) mongo l w).2.st.1.has key := by
  intro l
  induction l with
  | nil => intro _ w; exact ⟨rfl, fun _ h => h⟩
  | cons s rest ih =>
    intro hl w
    have hs : s ≠ StepName.statusWrite := fun h => hl (by simp [h])
    have hrest : StepName.statusWrite ∉ rest := fun h => hl (by simp [h])
    have hstep : (runStep (memEnv drv pq) mongo s w).2.st.1.clusters = w.st.1.clusters ∧
        ∀ key, w.st.1.has key → (runStep (memEnv drv pq) mongo s w).2.st.1.has key := by
      rcases mem_runStep drv pq mongo s hs w with ⟨obj, _, _, ha⟩ | ⟨_, hq⟩
      · exact ⟨ha.clusters, ha.mono⟩
      · exact ⟨by rw [hq.store], fun key hk => by rw [hq.store]; exact hk⟩
    by_cases hok : (runStep (memEnv drv pq) mongo s w).1 = .ok ()
    · rw [runSteps_cons_ok _ _ _ _ _ hok]
      obtain ⟨h1, h2⟩ := ih hrest (runStep (memEnv drv pq) mongo s w).2
      exact ⟨h1.trans hstep.1, fun key hk => h2 key (hstep.2 key hk)⟩
    · rw [runSteps_cons_not_ok _ _ _ _ _ hok]
      exact hstep

/-- After a successful run of steps the in-memory store holds the resource of
every step that manages one. -/
theorem mem_runSteps_holds (drv : Driver δ) (pq : String → Option String)
    (mongo : MongoDBCluster) :
    ∀ (l : List StepName), StepName.statusWrite ∉ l → ∀ w : World (Store × δ),
      (runSteps (memEnv drv pq) mongo l w).1 = .ok () →
      ∀ s ∈ l, ∀ obj, stepObject pq mongo s = some obj →
        (runSteps (memEnv drv pq) mongo l w).2.st.1.has obj.key := by
  intro l
  induction l with
  | nil => intro _ w _ s hs; simp at hs
  | cons s rest ih =>
    intro hl w hok s1 hs1 obj hobj
    have hs : s ≠ StepName.statusWrite := fun h => hl (by simp [h])
    have hrest : StepName.statusWrite ∉ rest := fun h => hl (by simp [h])
    by_cases hstep : (runStep (memEnv drv pq) mongo s w).1 = .ok ()
    · rw [runSteps_cons_ok _ _ _ _ _ hstep] at hok ⊢
      rcases List.mem_cons.mp hs1 with h | h
      · subst h
        rcases mem_runStep drv pq mongo s1 hs w with ⟨obj1, ho, _, ha⟩ | ⟨hn, _⟩
        · rw [hobj] at ho
          cases ho
          exact (mem_runSteps_mono drv pq mongo rest hrest _).2 _ ha.holds
        · rw [hobj] at hn
          cases hn
      · exact ih hrest _ hok s1 h obj hobj
    · rw [runSteps_cons_not_ok _ _ _ _ _ hstep] at hok
      exact absurd hok hstep

/-- When the in-memory store already holds the resource of every step, a run of
steps creates nothing and writes no status, and every update it issues carries
the resource of one of its steps under the version token that the store held
for that resource when the run began. -/
theorem mem_runSteps_no_create (drv : Driver δ) (pq : String → Option String)
    (mongo : MongoDBCluster) :
    ∀ (l : List StepName), StepName.statusWrite ∉ l →
      (l.filterMap (fun s => (stepObject pq mongo s).map Object.key)).Nodup →
      ∀ w : World (Store × δ),
      (∀ s ∈ l, ∀ obj, stepObject pq mongo s = some obj → w.st.1.has obj.key) →
      ∃ evs, (runSteps (memEnv drv pq) mongo l w).2.trace = w.trace ++ evs ∧
        (∀ c ∈ evs, c.isCreate = false ∧ c.isStatusUpdate = false) ∧
        ∀ c ∈ evs, c.isUpdate = true →
          ∃ s ∈ l, ∃ obj, stepObject pq mongo s = some obj ∧
            c = Call.update (obj.setResourceVersion (w.st.1.versionOf obj)) := by
  intro l
  induction l with
  | nil => intro _ _ w _; exact ⟨[], by simp [runSteps], by simp, by simp⟩
  | cons s rest ih =>
    intro hl hnd w hall
    have hs : s ≠ StepName.statusWrite := fun h => hl (by simp [h])
    have hrest : StepName.statusWrite ∉ rest := fun h => hl (by simp [h])
    have hmono : ∀ key, w.st.1.has key → (runStep (memEnv drv pq) mongo s w).2.st.1.has key :=
      (mem_runSteps_mono drv pq mongo [s] (by simpa using hs.symm) w |>.2) |> fun h => by
        rw [runSteps_singleton] at h
        exact h
    have hstep : ∃ evs, (runStep (memEnv drv pq) mongo s w).2.trace = w.trace ++ evs ∧
        (∀ c ∈ evs, c.isCreate = false ∧ c.isStatusUpdate = false) ∧
        (∀ c ∈ evs, c.isUpdate = true →
          ∃ obj, stepObject pq mongo s = some obj ∧
            c = Call.update (obj.setResourceVersion (w.st.1.versionOf obj))) ∧
        (rest.filterMap (fun s => (stepObject pq mongo s).map Object.key)).Nodup ∧
        ∀ s1 ∈ rest, ∀ o1, stepObject pq mongo s1 = some o1 →
          (runStep (memEnv drv pq) mongo s w).2.st.1.versionOf o1 = w.st.1.versionOf o1 := by
      rcases mem_runStep drv pq mongo s hs w with ⟨obj, ho, _, ha⟩ | ⟨hn, hq⟩
      · obtain ⟨evs, h1, h2, h3⟩ := ha.kept (hall s (by simp) obj ho)
        have hnd2 : obj.key ∉ rest.filterMap (fun s => (stepObject pq mongo s).map Object.key) ∧
            (rest.filterMap (fun s => (stepObject pq mongo s).map Object.key)).Nodup := by
          simpa [List.filterMap_cons, ho] using hnd
        refine ⟨evs, h1, h2, fun c hc hu => ⟨obj, ho, h3 c hc hu⟩, hnd2.2, ?_⟩
        intro s1 hs1 o1 ho1
        apply ha.others
        intro hk
        apply hnd2.1
        rw [← hk]
        exact List.mem_filterMap.mpr ⟨s1, hs1, by simp [ho1]⟩
      · obtain ⟨evs, h1, h2⟩ := hq.calls
        have hnd2 : (rest.filterMap (fun s => (stepObject pq mongo s).map Object.key)).Nodup := by
          simpa [List.filterMap_cons, hn] using hnd
        refine ⟨evs, h1, fun c hc => ⟨(h2 c hc).1, (h2 c hc).2.2⟩, fun c hc hu => ?_, hnd2, ?_⟩
        · rw [(h2 c hc).2.1] at hu
          cases hu
        · intro s1 _ o1 _
          rw [hq.store]
    obtain ⟨e1, t1, c1, u1, hnd2, hver⟩ := hstep
    by_cases hok : (runStep (memEnv drv pq) mongo s w).1 = .ok ()
    · rw [runSteps_cons_ok _ _ _ _ _ hok]
      obtain ⟨e2, t2, c2, u2⟩ := ih hrest hnd2 (runStep (memEnv drv pq) mongo s w).2
        (fun s1 hs1 obj ho => hmono _ (hall s1 (by simp [hs1]) obj ho))
      refine ⟨e1 ++ e2, by rw [t2, t1, List.append_assoc], ?_, ?_⟩
      · intro c hc
        rcases List.mem_append.mp hc with h | h
        · exact c1 c h
        · exact c2 c h
      · intro c hc hu
        rcases List.mem_append.mp hc with h | h
        · obtain ⟨obj, ho, he⟩ := u1 c h hu
          exact ⟨s, by simp, obj, ho, he⟩
        · obtain ⟨s1, hs1, obj, ho, he⟩ := u2 c h hu
          exact ⟨s1, by simp [hs1], obj, ho, by rw [he, hver s1 hs1 obj ho]⟩
    · rw [runSteps_cons_not_ok _ _ _ _ _ hok]
      refine ⟨e1, t1, c1, ?_⟩
      intro c hc hu
      obtain ⟨obj, ho, he⟩ := u1 c hc hu
      exact ⟨s, by simp, obj, ho, he⟩

/-! ## Steps, keys and creates on the in-memory platform (C3, C5) -/

theorem stepKey_of_stepObject (pq : String → Option String) (mongo : MongoDBCluster)
    (s : StepName) (obj : Object) (h : stepObject pq mongo s = some obj) :
    stepKey mongo s = some obj.key := by
  cases s with
  | configServerWorkload =>
    cases hq : pq mongo.Spec.StorageSize with
    | none => simp [stepObject, hq] at h
    | some q =>
      simp only [stepObject, hq, Option.map_some'] at h
      cases h
      rfl
  | shardNetwork i => simp only [stepObject] at h; cases h; rfl
  | shardWorkload i =>
    cases hq : pq mongo.Spec.StorageSize with
    | none => simp [stepObject, hq] at h
    | some q =>
      simp only [stepObject, hq, Option.map_some'] at h
      cases h
      rfl
  | routerWorkload => simp only [stepObject] at h; cases h; rfl
  | configServerNetwork => simp only [stepObject] at h; cases h; rfl
  | routerNetwork => simp only [stepObject] at h; cases h; rfl
  | backupJob =>
    cases he : mongo.Spec.Backup.Enabled with
    | false => simp [stepObject, he] at h
    | true =>
      simp only [stepObject, he, if_true] at h
      cases h
      rfl
  | configServerReplication => simp [stepObject] at h
  | shardReplication i => simp [stepObject] at h
  | shardSharding i => simp [stepObject] at h
  | statusWrite => simp [stepObject] at h

/-- Different steps manage resources with different keys. -/
theorem stepKey_inj (mongo : MongoDBCluster) (a b : StepName) (k : Key)
    (ha : stepKey mongo a = some k) (hb : stepKey mongo b = some k) : a = b := by
  rw [← hb] at ha
  cases a <;> cases b <;> simp only [stepKey, Option.some.injEq, Prod.mk.injEq, reduceCtorEq,
    false_and, and_false, true_and] at ha <;>
    first
      | rfl
      | (exfalso; simp only [stepKey, reduceCtorEq] at hb; done)
      | skip
  · exact absurd ha.symm (shardWorkloadName_ne_config _)
  · exact congrArg _ (shardName_inj _ _ _ _ ha).2
  · exact absurd ha (shardName_ne _ _ _).1
  · exact absurd ha (shardName_ne _ _ _).2
  · exact absurd ha (shardWorkloadName_ne_config _)
  · exact congrArg _ (repr_injective _ _ (str_append_left_cancel _ _ _ ha))
  · exact absurd ha.symm (shardName_ne _ _ _).1
  · exact absurd ha (configsvrName_ne_mongosName _ _)
  · exact absurd ha.symm (shardName_ne _ _ _).2
  · exact absurd ha.symm (configsvrName_ne_mongosName _ _)

theorem stepOrder_nodup (mongo : MongoDBCluster) : (stepOrder mongo).Nodup := by
  unfold stepOrder
  have hfm : ((List.range mongo.Spec.ReplicaSetCount.toNat).flatMap
      (fun i => [StepName.shardNetwork i, StepName.shardWorkload i])).Nodup := by
    rw [List.nodup_flatMap]
    refine ⟨fun i _ => by simp, ?_⟩
    refine List.Nodup.pairwise_of_forall_ne (List.nodup_range _) ?_
    intro a _ b _ hab
    simp only [Function.onFun, List.disjoint_cons_left, List.mem_cons, List.mem_singleton,
      StepName.shardNetwork.injEq, reduceCtorEq, or_false, false_or, StepName.shardWorkload.injEq,
      List.disjoint_nil_left, and_true, List.not_mem_nil]
    exact ⟨hab, hab⟩
  have hm1 : ((List.range mongo.Spec.ReplicaSetCount.toNat).map StepName.shardReplication).Nodup :=
    (List.nodup_range _).map (fun a b h => by injection h)
  have hm2 : ((List.range mongo.Spec.ReplicaSetCount.toNat).map StepName.shardSharding).Nodup :=
    (List.nodup_range _).map (fun a b h => by injection h)
  simp only [List.nodup_append, List.nodup_cons, List.nodup_nil, hfm, hm1, hm2,
    List.mem_cons, List.mem_singleton, List.mem_append, List.mem_map, List.mem_flatMap,
    List.mem_range, List.not_mem_nil, reduceCtorEq, List.disjoint_left, not_false_eq_true,
    and_true, or_false, false_or, and_false, exists_false, not_or, true_and, and_self,
    exists_const, implies_true, forall_exists_index, forall_eq_or_imp, forall_eq,
    imp_false, not_exists, not_and, forall_apply_eq_imp_iff₂, or_self]
  refine ⟨⟨⟨?_, ?_⟩, ?_⟩, ?_⟩
  · rintro a x ⟨_, (rfl | rfl)⟩ <;> simp
  · intro a h x hx
    rcases h with (rfl | ⟨y, _, (rfl | rfl)⟩) | rfl | rfl | rfl | rfl <;> simp
  · intro a h x hx
    rcases h with ((rfl | ⟨y, _, (rfl | rfl)⟩) | rfl | rfl | rfl | rfl) | ⟨y, _, rfl⟩ <;> simp
  · intro a h
    rcases h with (((rfl | ⟨y, _, (rfl | rfl)⟩) | rfl | rfl | rfl | rfl) | ⟨y, _, rfl⟩) |
      ⟨y, _, rfl⟩ <;> simp

theorem stepKeys_nodup (pq : String → Option String) (mongo : MongoDBCluster) (l : List StepName)
    (hl : l.Nodup) :
    (l.filterMap (fun s => (stepObject pq mongo s).map Object.key)).Nodup := by
  refine List.Nodup.filterMap ?_ hl
  intro a b k ha hb
  simp only [Option.mem_def, Option.map_eq_some'] at ha hb
  obtain ⟨oa, hoa, hka⟩ := ha
  obtain ⟨ob, hob, hkb⟩ := hb
  exact stepKey_inj mongo a b k (hka ▸ stepKey_of_stepObject pq mongo a oa hoa)
    (hkb ▸ stepKey_of_stepObject pq mongo b ob hob)

/-- From a store that holds none of their resources, a successful run of steps
creates the resource of each step that manages one, in order, and updates
nothing. -/
theorem mem_runSteps_creates (drv : Driver δ) (pq : String → Option String)
    (mongo : MongoDBCluster) :
    ∀ (l : List StepName), StepName.statusWrite ∉ l →
      (l.filterMap (fun s => (stepObject pq mongo s).map Object.key)).Nodup →
      ∀ w : World (Store × δ),
      (∀ s ∈ l, ∀ obj, stepObject pq mongo s = some obj → ¬ w.st.1.has obj.key) →
      (runSteps (memEnv drv pq) mongo l w).1 = .ok () →
      ∃ evs, (runSteps (memEnv drv pq) mongo l w).2.trace = w.trace ++ evs ∧
        createdObjects evs = l.filterMap (stepObject pq mongo) ∧ updatedObjects evs = [] ∧
        evs.filter Call.isStatusUpdate = [] := by
  intro l
  induction l with
  | nil => intro _ _ w _ _; exact ⟨[], by simp [runSteps], rfl, rfl, rfl⟩
  | cons s rest ih =>
    intro hl hnd w hfresh hok
    have hs : s ≠ StepName.statusWrite := fun h => hl (by simp [h])
    have hrest : StepName.statusWrite ∉ rest := fun h => hl (by simp [h])
    have hstep : (runStep (memEnv drv pq) mongo s w).1 = .ok () := by
      by_contra hn
      rw [runSteps_cons_not_ok _ _ _ _ _ hn] at hok
      exact hn hok
    rw [runSteps_cons_ok _ _ _ _ _ hstep] at hok ⊢
    rcases mem_runStep drv pq mongo s hs w with ⟨obj, ho, _, ha⟩ | ⟨hn, hq⟩
    · have hmade := ha.made (hfresh s (by simp) obj ho)
      have hnd2 : obj.key ∉ rest.filterMap (fun s => (stepObject pq mongo s).map Object.key) ∧
          (rest.filterMap (fun s => (stepObject pq mongo s).map Object.key)).Nodup := by
        simpa [List.filterMap_cons, ho] using hnd
      have hfresh2 : ∀ s1 ∈ rest, ∀ o1, stepObject pq mongo s1 = some o1 →
          ¬ (runStep (memEnv drv pq) mongo s w).2.st.1.has o1.key := by
        intro s1 hs1 o1 ho1 hhas
        rcases ha.only _ hhas with h | h
        · exact hfresh s1 (by simp [hs1]) o1 ho1 h
        · apply hnd2.1
          rw [← h]
          exact List.mem_filterMap.mpr ⟨s1, hs1, by simp [ho1]⟩
      obtain ⟨evs, ht, hc, hu, hst⟩ := ih hrest hnd2.2 _ hfresh2 hok
      refine ⟨[Call.get obj.kind obj.meta.Namespace obj.meta.Name, Call.create obj] ++ evs,
        by rw [ht, hmade, List.append_assoc], ?_, ?_, ?_⟩
      · rw [createdObjects_append, hc]
        simp [createdObjects, Call.created, List.filterMap_cons, ho]
      · rw [updatedObjects_append, hu]
        simp [updatedObjects, Call.updated]
      · rw [List.filter_append, hst]
        simp [Call.isStatusUpdate]
    · obtain ⟨e1, t1, p1⟩ := hq.calls
      have hnd2 : (rest.filterMap (fun s => (stepObject pq mongo s).map Object.key)).Nodup := by
        simpa [List.filterMap_cons, hn] using hnd
      have hfresh2 : ∀ s1 ∈ rest, ∀ o1, stepObject pq mongo s1 = some o1 →
          ¬ (runStep (memEnv drv pq) mongo s w).2.st.1.has o1.key := by
        intro s1 hs1 o1 ho1
        rw [hq.store]
        exact hfresh s1 (by simp [hs1]) o1 ho1
      obtain ⟨evs, ht, hc, hu, hst⟩ := ih hrest hnd2 _ hfresh2 hok
      refine ⟨e1 ++ evs, by rw [ht, t1, List.append_assoc], ?_, ?_, ?_⟩
      · rw [createdObjects_append, hc, created_of_isCreate_false e1 (fun c hc => (p1 c hc).1)]
        simp [List.filterMap_cons, hn]
      · rw [updatedObjects_append, hu, updated_of_isUpdate_false e1 (fun c hc => (p1 c hc).2.1)]
        rfl
      · rw [List.filter_append, hst, List.append_nil, List.filter_eq_nil_iff]
        intro c hc
        simp [(p1 c hc).2.2]

theorem toInt32_of_inRange (x : Int) (h1 : -2147483648 ≤ x) (h2 : x < 2147483648) :
    toInt32 x = x := by
  unfold toInt32
  omega

theorem countP_flatMap_const {α β : Type} (p : β → Bool) (f : α → List β) (c : Nat)
    (h : ∀ a, (f a).countP p = c) : ∀ l : List α, (l.flatMap f).countP p = l.length * c := by
  intro l
  induction l with
  | nil => simp
  | cons a t ih => simp [List.flatMap_cons, List.countP_append, ih, h, Nat.succ_mul, Nat.add_comm]

theorem kind_withOwner (gvk : String × String) (mongo : MongoDBCluster) (o : Object) :
    (withOwner gvk mongo o).kind = o.kind := by
  cases o <;> rfl

/-! ## The already-done detection (C11, C18) -/

theorem list_ends_iff (l p : List Char) :
    (decide (p.length ≤ l.length) &&
      (l == p || (decide (p.length < l.length) &&
        (l.take p.length == p || l.drop (l.length - p.length) == p)))) = true ↔
    ∃ t, l = p ++ t ∨ l = t ++ p := by
  simp only [Bool.and_eq_true, Bool.or_eq_true, decide_eq_true_eq, beq_iff_eq]
  constructor
  · rintro ⟨_, h | ⟨_, h | h⟩⟩
    · exact ⟨[], Or.inl (by simp [h])⟩
    · refine ⟨l.drop p.length, Or.inl ?_⟩
      conv_lhs => rw [← List.take_append_drop p.length l]
      rw [h]
    · refine ⟨l.take (l.length - p.length), Or.inr ?_⟩
      conv_lhs => rw [← List.take_append_drop (l.length - p.length) l]
      rw [h]
  · rintro ⟨t, h | h⟩
    · subst h
      refine ⟨by simp, ?_⟩
      cases t with
      | nil => left; simp
      | cons c cs =>
        right
        exact ⟨by simp, Or.inl (by simp)⟩
    · subst h
      refine ⟨by simp, ?_⟩
      cases t with
      | nil => left; simp
      | cons c cs =>
        right
        refine ⟨by simp only [List.length_append, List.length_cons]; omega, Or.inr ?_⟩
        have hlen : ((c :: cs) ++ p).length - p.length = (c :: cs).length := by
          simp only [List.length_append, List.length_cons]
          omega
        rw [hlen]
        exact List.drop_left' rfl

/-- What `contains` computes: `substr` stands at the start or at the end of `s`. -/
theorem contains_iff (s substr : String) :
    contains s substr = true ↔ ∃ t : String, s = substr ++ t ∨ s = t ++ substr := by
  unfold contains
  rw [list_ends_iff]
  constructor
  · rintro ⟨t, h | h⟩
    · exact ⟨⟨t⟩, Or.inl (String.ext (by simpa using h))⟩
    · exact ⟨⟨t⟩, Or.inr (String.ext (by simpa using h))⟩
  · rintro ⟨t, h | h⟩
    · exact ⟨t.data, Or.inl (by rw [h]; simp)⟩
    · exact ⟨t.data, Or.inr (by rw [h]; simp)⟩

/-- The errors that `isAlreadyExistsError` accepts: the text starts or ends with
one of the two phrases. -/
theorem isAlreadyExistsError_iff (e : Error) :
    isAlreadyExistsError e = true ↔
      ∃ t : String, e.msg = "already exists" ++ t ∨ e.msg = t ++ "already exists" ∨
        e.msg = "duplicate key" ++ t ∨ e.msg = t ++ "duplicate key" := by
  unfold isAlreadyExistsError
  rw [Bool.or_eq_true, contains_iff, contains_iff]
  constructor
  · rintro (⟨t, h | h⟩ | ⟨t, h | h⟩)
    · exact ⟨t, Or.inl h⟩
    · exact ⟨t, Or.inr (Or.inl h)⟩
    · exact ⟨t, Or.inr (Or.inr (Or.inl h))⟩
    · exact ⟨t, Or.inr (Or.inr (Or.inr h))⟩
  · rintro ⟨t, h | h | h | h⟩
    · exact Or.inl ⟨t, Or.inl h⟩
    · exact Or.inl ⟨t, Or.inr h⟩
    · exact Or.inr ⟨t, Or.inl h⟩
    · exact Or.inr ⟨t, Or.inr h⟩

theorem isAlreadyEnabledError_iff (e : Error) :
    isAlreadyEnabledError e = true ↔
      ∃ t : String, e.msg = "already enabled" ++ t ∨ e.msg = t ++ "already enabled" :=
  contains_iff _ _

/-- One round of the registration loop on a shard with members whose `addShard`
fails: the loop goes on when `isAlreadyExistsError` accepts the error and
returns the wrapped error otherwise. -/
theorem addShards_on_error (env : Env σ) (uri : String) (shard : Shard) (rest : List Shard)
    (w : World σ) (e : Error) (hm : shard.Members.length ≠ 0)
    (he : (env.runCommand uri
      [("addShard", .str (shard.ReplicaSetName ++ "/" ++ joinStrings "," shard.Members))]
        w.st).1.1 = .error e) :
    addShards env uri (shard :: rest) w =
      if isAlreadyExistsError e then
        addShards env uri rest (dbRunCommand env uri
          [("addShard", .str (shard.ReplicaSetName ++ "/" ++ joinStrings "," shard.Members))] w).2
      else
        (.err (wrapErr ("failed to add shard " ++ shard.ReplicaSetName ++ ": ") e),
          (dbRunCommand env uri
            [("addShard", .str (shard.ReplicaSetName ++ "/" ++ joinStrings "," shard.Members))]
              w).2) := by
  rw [addShards, if_neg hm]
  rcases hr : dbRunCommand env uri
    [("addShard", .str (shard.ReplicaSetName ++ "/" ++ joinStrings "," shard.Members))] w
    with ⟨⟨r, d⟩, w1⟩
  have : r = .error e := by
    have h2 : (dbRunCommand env uri
      [("addShard", .str (shard.ReplicaSetName ++ "/" ++ joinStrings "," shard.Members))] w).1.1
        = .error e := he
    rw [hr] at h2
    exact h2
  subst this
  cases hx : isAlreadyExistsError e <;> simp [hx]

/-- C18. The helper `contains` is true exactly when `substr` stands at the start or
at the end of `s`; an occurrence inside the text is missed: the text of a
duplicate-key error holds the phrase `duplicate key` and `contains` is false
on it, so `isAlreadyExistsError` rejects it, and `isAlreadyEnabledError`
rejects a text with `already enabled` inside. -/
theorem contains_misses_inner_occurrence :
    (∀ s substr : String,
      contains s substr = true ↔ ∃ t : String, s = substr ++ t ∨ s = t ++ substr) ∧
    "E11000 duplicate key error collection: config.shards"
      = "E11000 " ++ "duplicate key" ++ " error collection: config.shards" ∧
    contains "E11000 duplicate key error collection: config.shards" "duplicate key" = false ∧
    isAlreadyExistsError (newErr "E11000 duplicate key error collection: config.shards")
      = false ∧
    "sharding already enabled for app" = "sharding " ++ "already enabled" ++ " for app" ∧
    isAlreadyEnabledError (newErr "sharding already enabled for app") = false :=
  ⟨contains_iff, by decide, by decide, by decide, by decide, by decide⟩

/-- C11. The check `isAlreadyExistsError` accepts an error exactly when its text
starts or ends with `already exists` or `duplicate key`. An `addShard` error
whose text holds `duplicate key` in the middle makes `InitSharding` fail, for the first call and for every
repeated call with the same configuration; the same phrase at the end of the
text is tolerated. -/
theorem InitSharding_rejects_inner_phrase :
    (∀ e : Error, isAlreadyExistsError e = true ↔
      ∃ t : String, e.msg = "already exists" ++ t ∨ e.msg = t ++ "already exists" ∨
        e.msg = "duplicate key" ++ t ∨ e.msg = t ++ "duplicate key") ∧
    "E11000 duplicate key error collection: config.shards"
      = "E11000 " ++ "duplicate key" ++ " error collection: config.shards" ∧
    (InitSharding (addShardFailsEnv "E11000 duplicate key error collection: config.shards")
        twoShardConfig sampleWorld).1
      = Res.err (newErr ("failed to add shard mongo-shard0: " ++
          "E11000 duplicate key error collection: config.shards")) ∧
    (InitSharding (addShardFailsEnv "E11000 duplicate key error collection: config.shards")
        twoShardConfig
        (InitSharding (addShardFailsEnv "E11000 duplicate key error collection: config.shards")
          twoShardConfig sampleWorld).2).1
      = Res.err (newErr ("failed to add shard mongo-shard0: " ++
          "E11000 duplicate key error collection: config.shards")) ∧
    (InitSharding (addShardFailsEnv "E11000 duplicate key") twoShardConfig sampleWorld).1
      = Res.ok () :=
  ⟨isAlreadyExistsError_iff, by decide, by decide, by decide, by decide⟩

/-! ## Selection of a reachable member (C12) -/

theorem callsSince_of_trace (w w1 : World σ) (evs : List Call) (h : w1.trace = w.trace ++ evs) :
    callsSince w w1 = evs := by
  unfold callsSince
  rw [h, List.drop_left' rfl]

/-- The run of `findReachableHost` when the reachability of each member does not
depend on the moment it is tried. -/
theorem findReachableHost_run (env : Env σ) (reach : String → Bool) :
    ∀ (members : List String) (w : World σ),
      (∀ host ∈ members, ∀ s, reachable env host s = reach host) →
      ∃ evs, (findReachableHost env members w).2.trace = w.trace ++ evs ∧
        (findReachableHost env members w).1 =
          (match members.find? reach with
           | some host => Res.ok host
           | none => Res.err (newErr "no reachable MongoDB host found")) ∧
        connections evs =
          ((members.takeWhile (fun h => !reach h)) ++ (members.find? reach).toList).map
            (fun h => ("mongodb://" ++ h, true)) ∧
        ∀ c ∈ evs, ∃ h ∈ (members.takeWhile (fun h => !reach h)) ++ (members.find? reach).toList,
          c.dbUri = some ("mongodb://" ++ h) := by
  intro members
  induction members with
  | nil =>
    intro w _
    exact ⟨[], by simp [findReachableHost], rfl, rfl, by simp⟩
  | cons host rest ih =>
    intro w hreach
    have hrest : ∀ h ∈ rest, ∀ s, reachable env h s = reach h :=
      fun h hh s => hreach h (List.mem_cons_of_mem _ hh) s
    have hhost := hreach host (List.mem_cons_self _ _) w.st
    unfold reachable at hhost
    unfold findReachableHost
    rcases hc : dbConnect env ("mongodb://" ++ host) true w with ⟨⟨o, d⟩, w1⟩
    have ho : o = (env.connect ("mongodb://" ++ host) true w.st).1.1 := by
      have : (dbConnect env ("mongodb://" ++ host) true w).1.1
          = (env.connect ("mongodb://" ++ host) true w.st).1.1 := rfl
      rw [hc] at this
      exact this
    have hw1s : w1.st = (env.connect ("mongodb://" ++ host) true w.st).2 := by
      have : (dbConnect env ("mongodb://" ++ host) true w).2.st
          = (env.connect ("mongodb://" ++ host) true w.st).2 := rfl
      rw [hc] at this
      exact this
    have hw1 : w1.trace = w.trace ++ [Call.connect ("mongodb://" ++ host) true] := by
      have : (dbConnect env ("mongodb://" ++ host) true w).2.trace
          = w.trace ++ [Call.connect ("mongodb://" ++ host) true] := rfl
      rw [hc] at this
      exact this
    cases o with
    | some e =>
      have hr : reach host = false := by
        rw [← hhost, ← ho]
        rfl
      obtain ⟨evs, ht, hres, hconn, hall⟩ := ih w1 hrest
      refine ⟨Call.connect ("mongodb://" ++ host) true :: evs, ?_, ?_, ?_, ?_⟩
      · simp only
        rw [ht, hw1]
        simp
      · simp only [List.find?_cons, hr]
        exact hres
      · simp only [List.takeWhile_cons, List.find?_cons, hr, Bool.not_false, if_true,
          List.cons_append, List.map_cons]
        simp only [connections, List.filterMap_cons, Call.connection]
        exact congrArg _ hconn
      · intro c hcm
        simp only [List.takeWhile_cons, List.find?_cons, hr, Bool.not_false, if_true,
          List.cons_append]
        rcases List.mem_cons.mp hcm with h | h
        · exact ⟨host, List.mem_cons_self _ _, by rw [h]; rfl⟩
        · obtain ⟨x, hx, hu⟩ := hall c h
          exact ⟨x, List.mem_cons_of_mem _ hx, hu⟩
    | none =>
      simp only
      rcases hp : dbPing env ("mongodb://" ++ host) w1 with ⟨⟨p, d2⟩, w2⟩
      have hpv : p = (env.ping ("mongodb://" ++ host)
          (env.connect ("mongodb://" ++ host) true w.st).2).1.1 := by
        have : (dbPing env ("mongodb://" ++ host) w1).1.1
            = (env.ping ("mongodb://" ++ host) w1.st).1.1 := rfl
        rw [hp, hw1s] at this
        exact this
      have hw2 : w2.trace = w.trace ++ [Call.connect ("mongodb://" ++ host) true,
          Call.ping ("mongodb://" ++ host)] := by
        have : (dbPing env ("mongodb://" ++ host) w1).2.trace
            = w1.trace ++ [Call.ping ("mongodb://" ++ host)] := rfl
        rw [hp] at this
        rw [this, hw1]
        simp
      have hd : (dbDisconnect env ("mongodb://" ++ host) w2).trace
          = w.trace ++ [Call.connect ("mongodb://" ++ host) true,
            Call.ping ("mongodb://" ++ host), Call.disconnect ("mongodb://" ++ host)] := by
        have : (dbDisconnect env ("mongodb://" ++ host) w2).trace
            = w2.trace ++ [Call.disconnect ("mongodb://" ++ host)] := rfl
        rw [this, hw2]
        simp
      cases p with
      | none =>
        have hr : reach host = true := by
          rw [← hhost, ← ho, ← hpv]
          rfl
        refine ⟨[Call.connect ("mongodb://" ++ host) true,
            Call.ping ("mongodb://" ++ host), Call.disconnect ("mongodb://" ++ host)],
          hd, ?_, ?_, ?_⟩
        · simp only [List.find?_cons, hr]
        · simp only [List.takeWhile_cons, List.find?_cons, hr, Bool.not_true]
          rfl
        · intro c hcm
          simp only [List.takeWhile_cons, List.find?_cons, hr, Bool.not_true]
          refine ⟨host, by simp, ?_⟩
          simp only [List.mem_cons, List.mem_singleton, List.not_mem_nil, or_false] at hcm
          rcases hcm with h | h | h <;> rw [h] <;> rfl
      | some e =>
        have hr : reach host = false := by
          rw [← hhost, ← ho, ← hpv]
          rfl
        obtain ⟨evs, ht, hres, hconn, hall⟩ :=
          ih (dbDisconnect env ("mongodb://" ++ host) w2) hrest
        refine ⟨[Call.connect ("mongodb://" ++ host) true,
            Call.ping ("mongodb://" ++ host), Call.disconnect ("mongodb://" ++ host)] ++ evs,
          ?_, ?_, ?_, ?_⟩
        · simp only
          rw [ht, hd]
          simp
        · simp only [List.find?_cons, hr]
          exact hres
        · simp only [List.takeWhile_cons, List.find?_cons, hr, Bool.not_false, if_true,
            List.cons_append, List.map_cons]
          simp only [connections, List.filterMap_cons, Call.connection, List.nil_append]
          exact congrArg _ hconn
        · intro c hcm
          simp only [List.takeWhile_cons, List.find?_cons, hr, Bool.not_false, if_true,
            List.cons_append]
          simp only [List.cons_append, List.nil_append, List.mem_cons] at hcm
          rcases hcm with h | h | h | h
          · exact ⟨host, List.mem_cons_self _ _, by rw [h]; rfl⟩
          · exact ⟨host, List.mem_cons_self _ _, by rw [h]; rfl⟩
          · exact ⟨host, List.mem_cons_self _ _, by rw [h]; rfl⟩
          · obtain ⟨x, hx, hu⟩ := hall c h
            exact ⟨x, List.mem_cons_of_mem _ hx, hu⟩

theorem find_some_split {α : Type} (p : α → Bool) :
    ∀ (l : List α) (x : α), l.find? p = some x →
      ∃ pre post, l = pre ++ x :: post ∧ p x = true ∧ ∀ h ∈ pre, p h = false := by
  intro l
  induction l with
  | nil => intro x h; cases h
  | cons a t ih =>
    intro x h
    cases hp : p a with
    | true =>
      simp only [List.find?_cons, hp] at h
      have hx : a = x := by injection h
      subst hx
      exact ⟨[], t, rfl, hp, by simp⟩
    | false =>
      simp only [List.find?_cons, hp] at h
      obtain ⟨pre, post, hl, hx, hpre⟩ := ih x h
      refine ⟨a :: pre, post, by rw [hl]; rfl, hx, ?_⟩
      intro h1 hh
      rcases List.mem_cons.mp hh with h2 | h2
      · rw [h2]; exact hp
      · exact hpre h1 h2

/-- C12. When each member is either reachable (it accepts a direct connection and
answers the ping) or not, `findReachableHost` returns the first reachable
member of the list; it returns the error `no reachable MongoDB host found`
exactly when no member is reachable; and it opens one direct connection to
each member before the selected one and to the selected one, in order, every
call it issues going to one of these, none to a later member. -/
theorem findReachableHost_first (env : Env σ) (reach : String → Bool) (members : List String)
    (w : World σ) (hreach : ∀ host ∈ members, ∀ s, reachable env host s = reach host) :
    (findReachableHost env members w).1 =
      (match members.find? reach with
       | some host => Res.ok host
       | none => Res.err (newErr "no reachable MongoDB host found")) ∧
    ((findReachableHost env members w).1 = Res.err (newErr "no reachable MongoDB host found") ↔
      ∀ host ∈ members, reach host = false) ∧
    (∀ host, (findReachableHost env members w).1 = Res.ok host →
      ∃ pre post, members = pre ++ host :: post ∧ reach host = true ∧
        ∀ h ∈ pre, reach h = false) ∧
    connections (callsSince w (findReachableHost env members w).2) =
      ((members.takeWhile (fun h => !reach h)) ++ (members.find? reach).toList).map
        (fun h => ("mongodb://" ++ h, true)) ∧
    ∀ c ∈ callsSince w (findReachableHost env members w).2,
      ∃ h ∈ (members.takeWhile (fun h => !reach h)) ++ (members.find? reach).toList,
        c.dbUri = some ("mongodb://" ++ h) := by
  obtain ⟨evs, ht, hres, hconn, hall⟩ := findReachableHost_run env reach members w hreach
  rw [callsSince_of_trace _ _ _ ht]
  refine ⟨hres, ?_, ?_, hconn, hall⟩
  · rw [hres]
    cases hf : members.find? reach with
    | none =>
      simp only [true_iff]
      intro host hh
      have := List.find?_eq_none.mp hf host hh
      simpa using this
    | some x =>
      simp only [reduceCtorEq, false_iff, not_forall]
      exact ⟨x, List.mem_of_find?_eq_some hf, by simp [List.find?_some hf]⟩
  · intro host hok
    rw [hres] at hok
    cases hf : members.find? reach with
    | none => rw [hf] at hok; cases hok
    | some x =>
      rw [hf] at hok
      have hx : x = host := by injection hok
      subst hx
      exact find_some_split reach members x hf

theorem findReachableHost_first_witness :
    (findReachableHost pickyEnv ["a", "b", "c", "d"] sampleWorld).1 = Res.ok "c" ∧
    connections (callsSince sampleWorld
        (findReachableHost pickyEnv ["a", "b", "c", "d"] sampleWorld).2) =
      [("mongodb://a", true), ("mongodb://b", true), ("mongodb://c", true)] :=
  have h := findReachableHost_first pickyEnv (fun h => h != "a" && h != "b")
    ["a", "b", "c", "d"] sampleWorld (by
      intro host hh s
      simp only [List.mem_cons, List.mem_singleton, List.not_mem_nil, or_false] at hh
      rcases hh with rfl | rfl | rfl | rfl <;> rfl)
  ⟨h.1, h.2.2.2.1⟩

/-! ## Initiation of a replica set (C13, C16) -/

/-- The run of `InitReplicaSet` on a non-empty member list, case by case: the
connection fails; the status request is answered; the status request fails and
the initiation fails; the status request fails, the initiation succeeds and
the election is awaited. -/
theorem InitReplicaSet_run (env : Env σ) (replicaSetName host : String) (configServer : Bool)
    (members : List String) (w : World σ) (hne : members ≠ []) :
    (∃ e, (dbConnect env ("mongodb://" ++ host) true w).1.1 = some e ∧
      (InitReplicaSet env replicaSetName host configServer members w).1
        = .err (wrapErr "failed to connect to MongoDB: " e) ∧
      (InitReplicaSet env replicaSetName host configServer members w).2.trace
        = w.trace ++ [Call.connect ("mongodb://" ++ host) true]) ∨
    ((dbConnect env ("mongodb://" ++ host) true w).1.1 = none ∧
      ((∃ reply, (dbRunCommand env ("mongodb://" ++ host) statusCmd
            (dbConnect env ("mongodb://" ++ host) true w).2).1.1 = .ok reply ∧
          (InitReplicaSet env replicaSetName host configServer members w).1 = .ok () ∧
          (InitReplicaSet env replicaSetName host configServer members w).2.trace
            = w.trace ++ [Call.connect ("mongodb://" ++ host) true,
                Call.runCommand ("mongodb://" ++ host) statusCmd,
                Call.disconnect ("mongodb://" ++ host)]) ∨
       (∃ e0, (dbRunCommand env ("mongodb://" ++ host) statusCmd
            (dbConnect env ("mongodb://" ++ host) true w).2).1.1 = .error e0 ∧
          ((∃ e, (dbRunCommand env ("mongodb://" ++ host)
                [("replSetInitiate", .doc (replSetConfig replicaSetName configServer members))]
                (dbRunCommand env ("mongodb://" ++ host) statusCmd
                  (dbConnect env ("mongodb://" ++ host) true w).2).2).1.1 = .error e ∧
              (InitReplicaSet env replicaSetName host configServer members w).1
                = .err (wrapErr "replSetInitiate failed: " e) ∧
              (InitReplicaSet env replicaSetName host configServer members w).2.trace
                = w.trace ++ [Call.connect ("mongodb://" ++ host) true,
                    Call.runCommand ("mongodb://" ++ host) statusCmd,
                    Call.runCommand ("mongodb://" ++ host)
                      [("replSetInitiate",
                        .doc (replSetConfig replicaSetName configServer members))],
                    Call.disconnect ("mongodb://" ++ host)]) ∨
           (∃ reply polls, (dbRunCommand env ("mongodb://" ++ host)
                [("replSetInitiate", .doc (replSetConfig replicaSetName configServer members))]
                (dbRunCommand env ("mongodb://" ++ host) statusCmd
                  (dbConnect env ("mongodb://" ++ host) true w).2).2).1.1 = .ok reply ∧
              (InitReplicaSet env replicaSetName host configServer members w).1
                = (waitForPrimary env ("mongodb://" ++ host)
                    (dbRunCommand env ("mongodb://" ++ host)
                      [("replSetInitiate",
                        .doc (replSetConfig replicaSetName configServer members))]
                      (dbRunCommand env ("mongodb://" ++ host) statusCmd
                        (dbConnect env ("mongodb://" ++ host) true w).2).2).2).1 ∧
              (InitReplicaSet env replicaSetName host configServer members w).2.trace
                = w.trace ++ [Call.connect ("mongodb://" ++ host) true,
                    Call.runCommand ("mongodb://" ++ host) statusCmd,
                    Call.runCommand ("mongodb://" ++ host)
                      [("replSetInitiate",
                        .doc (replSetConfig replicaSetName configServer members))]]
                  ++ polls ++ [Call.disconnect ("mongodb://" ++ host)] ∧
              polls.length ≤ 15 ∧
              ∀ c ∈ polls, c = Call.runCommand ("mongodb://" ++ host) statusCmd))))) := by
  have hlen : ¬ members.length = 0 := fun h => hne (List.length_eq_zero.mp h)
  have hsc : statusCmd = [("replSetGetStatus", Bson.int 1)] := rfl
  rw [hsc]
  unfold InitReplicaSet
  rw [if_neg hlen]
  have t1 : (dbConnect env ("mongodb://" ++ host) true w).2.trace
      = w.trace ++ [Call.connect ("mongodb://" ++ host) true] := rfl
  rcases hc : dbConnect env ("mongodb://" ++ host) true w with ⟨⟨o, d⟩, w1⟩
  rw [hc] at t1
  simp only at t1 ⊢
  cases o with
  | some e => exact Or.inl ⟨e, rfl, rfl, t1⟩
  | none =>
    right
    refine ⟨rfl, ?_⟩
    simp only
    have t2 : (dbRunCommand env ("mongodb://" ++ host) [("replSetGetStatus", .int 1)] w1).2.trace
        = w1.trace ++ [Call.runCommand ("mongodb://" ++ host) [("replSetGetStatus", .int 1)]] :=
      rfl
    rcases hs : dbRunCommand env ("mongodb://" ++ host) [("replSetGetStatus", .int 1)] w1
      with ⟨⟨r, d2⟩, w2⟩
    rw [hs] at t2
    simp only at t2 ⊢
    cases r with
    | ok reply =>
      left
      refine ⟨reply, rfl, rfl, ?_⟩
      show w2.trace ++ [Call.disconnect ("mongodb://" ++ host)] = _
      rw [t2, t1]
      simp
    | error e0 =>
      right
      refine ⟨e0, rfl, ?_⟩
      simp only
      have t3 : (dbRunCommand env ("mongodb://" ++ host)
          [("replSetInitiate", .doc (replSetConfig replicaSetName configServer members))]
          w2).2.trace = w2.trace ++ [Call.runCommand ("mongodb://" ++ host)
          [("replSetInitiate", .doc (replSetConfig replicaSetName configServer members))]] := rfl
      rcases hi : dbRunCommand env ("mongodb://" ++ host)
          [("replSetInitiate", .doc (replSetConfig replicaSetName configServer members))] w2
        with ⟨⟨ri, d3⟩, w3⟩
      rw [hi] at t3
      simp only at t3 ⊢
      cases ri with
      | error e =>
        left
        refine ⟨e, rfl, rfl, ?_⟩
        show w3.trace ++ [Call.disconnect ("mongodb://" ++ host)] = _
        rw [t3, t2, t1]
        simp
      | ok reply =>
        right
        obtain ⟨_, polls, hp, hlen, hall⟩ := waitForPrimary_bounded env ("mongodb://" ++ host) w3
        refine ⟨reply, polls, rfl, rfl, ?_, hlen, hall⟩
        show (waitForPrimary env ("mongodb://" ++ host) w3).2.trace
          ++ [Call.disconnect ("mongodb://" ++ host)] = _
        rw [hp, t3, t2, t1]
        simp

theorem commandsNamed_append (name : String) (a b : List Call) :
    commandsNamed name (a ++ b) = commandsNamed name a ++ commandsNamed name b := by
  simp [commandsNamed, List.filterMap_append, List.filter_append]

/-- Status requests are not commands of another name. -/
theorem commandsNamed_polls (name uri : String) (hname : name ≠ "replSetGetStatus")
    (polls : List Call) (h : ∀ c ∈ polls, c = Call.runCommand uri statusCmd) :
    commandsNamed name polls = [] := by
  induction polls with
  | nil => rfl
  | cons c cs ih =>
    have hc := h c (List.mem_cons_self _ _)
    subst hc
    have hcs := ih (fun c hc => h c (List.mem_cons_of_mem _ hc))
    have : commandsNamed name (Call.runCommand uri statusCmd :: cs) = commandsNamed name cs := by
      have hn : ("replSetGetStatus" == name) = false := by
        simp only [beq_eq_false_iff_ne, ne_eq]
        exact fun h => hname h.symm
      simp only [commandsNamed, List.filterMap_cons, Call.command, List.filter_cons, statusCmd,
        commandName, hn]
      rfl
    rw [this, hcs]

/-- The `replSetInitiate` commands that `InitReplicaSet` issues: none, or the one
that carries the configuration document built from its arguments. -/
theorem InitReplicaSet_initiate_commands (env : Env σ) (replicaSetName host : String)
    (configServer : Bool) (members : List String) (w : World σ) :
    (commandsNamed "replSetInitiate"
        (callsSince w (InitReplicaSet env replicaSetName host configServer members w).2) = [] ∧
      (members = [] ∨ (∃ e, (dbConnect env ("mongodb://" ++ host) true w).1.1 = some e) ∨
        ∃ reply, (dbRunCommand env ("mongodb://" ++ host) statusCmd
          (dbConnect env ("mongodb://" ++ host) true w).2).1.1 = .ok reply)) ∨
    (commandsNamed "replSetInitiate"
        (callsSince w (InitReplicaSet env replicaSetName host configServer members w).2)
        = [[("replSetInitiate", .doc (replSetConfig replicaSetName configServer members))]] ∧
      members ≠ [] ∧ (dbConnect env ("mongodb://" ++ host) true w).1.1 = none ∧
      ∃ e0, (dbRunCommand env ("mongodb://" ++ host) statusCmd
          (dbConnect env ("mongodb://" ++ host) true w).2).1.1 = .error e0) := by
  by_cases hne : members = []
  · left
    subst hne
    refine ⟨?_, Or.inl rfl⟩
    have : (InitReplicaSet env replicaSetName host configServer [] w).2.trace = w.trace ++ [] := by
      simp [InitReplicaSet]
    rw [callsSince_of_trace _ _ _ this]
    rfl
  · rcases InitReplicaSet_run env replicaSetName host configServer members w hne with
      ⟨e, hc, _, ht⟩ | ⟨hc, ⟨reply, hs, _, ht⟩ | ⟨e0, hs, ⟨e, _, _, ht⟩ | ⟨reply, polls, _, _, ht, _, hp⟩⟩⟩
    · left
      rw [callsSince_of_trace _ _ _ ht]
      exact ⟨rfl, Or.inr (Or.inl ⟨e, hc⟩)⟩
    · left
      rw [callsSince_of_trace _ _ _ ht]
      exact ⟨rfl, Or.inr (Or.inr ⟨reply, hs⟩)⟩
    · right
      rw [callsSince_of_trace _ _ _ ht]
      exact ⟨rfl, hne, hc, e0, hs⟩
    · right
      rw [List.append_assoc, List.append_assoc] at ht
      rw [callsSince_of_trace _ _ _ ht, commandsNamed_append, commandsNamed_append,
        commandsNamed_polls "replSetInitiate" _ (by decide) polls hp]
      exact ⟨rfl, hne, hc, e0, hs⟩

/-- C13. On a non-empty member list: when the connection is made and the status
request is answered, `InitReplicaSet` returns success after exactly three
calls (connect, status request, disconnect), so it neither initiates nor polls;
it issues `replSetInitiate` exactly when the connection is made and the status
request fails, and then once; and when that command fails its error is
returned, wrapped as `replSetInitiate failed: ...`, without any poll. -/
theorem InitReplicaSet_idempotent (env : Env σ) (replicaSetName host : String)
    (configServer : Bool) (members : List String) (w : World σ) (hne : members ≠ []) :
    (∀ reply, (dbConnect env ("mongodb://" ++ host) true w).1.1 = none →
      (dbRunCommand env ("mongodb://" ++ host) statusCmd
        (dbConnect env ("mongodb://" ++ host) true w).2).1.1 = .ok reply →
      (InitReplicaSet env replicaSetName host configServer members w).1 = .ok () ∧
      callsSince w (InitReplicaSet env replicaSetName host configServer members w).2
        = [Call.connect ("mongodb://" ++ host) true,
            Call.runCommand ("mongodb://" ++ host) statusCmd,
            Call.disconnect ("mongodb://" ++ host)]) ∧
    (commandsNamed "replSetInitiate"
        (callsSince w (InitReplicaSet env replicaSetName host configServer members w).2) ≠ [] ↔
      (dbConnect env ("mongodb://" ++ host) true w).1.1 = none ∧
      ∃ e0, (dbRunCommand env ("mongodb://" ++ host) statusCmd
        (dbConnect env ("mongodb://" ++ host) true w).2).1.1 = .error e0) ∧
    (commandsNamed "replSetInitiate"
        (callsSince w (InitReplicaSet env replicaSetName host configServer members w).2)).length
      ≤ 1 ∧
    (∀ e0 e, (dbConnect env ("mongodb://" ++ host) true w).1.1 = none →
      (dbRunCommand env ("mongodb://" ++ host) statusCmd
        (dbConnect env ("mongodb://" ++ host) true w).2).1.1 = .error e0 →
      (dbRunCommand env ("mongodb://" ++ host)
        [("replSetInitiate", .doc (replSetConfig replicaSetName configServer members))]
        (dbRunCommand env ("mongodb://" ++ host) statusCmd
          (dbConnect env ("mongodb://" ++ host) true w).2).2).1.1 = .error e →
      (InitReplicaSet env replicaSetName host configServer members w).1
        = .err (wrapErr "replSetInitiate failed: " e) ∧
      callsSince w (InitReplicaSet env replicaSetName host configServer members w).2
        = [Call.connect ("mongodb://" ++ host) true,
            Call.runCommand ("mongodb://" ++ host) statusCmd,
            Call.runCommand ("mongodb://" ++ host)
              [("replSetInitiate", .doc (replSetConfig replicaSetName configServer members))],
            Call.disconnect ("mongodb://" ++ host)]) := by
  have hrun := InitReplicaSet_run env replicaSetName host configServer members w hne
  have hcmd := InitReplicaSet_initiate_commands env replicaSetName host configServer members w
  refine ⟨?_, ?_, ?_, ?_⟩
  · intro reply hc hs
    rcases hrun with ⟨e, hc2, _, _⟩ | ⟨_, ⟨reply2, _, hok, ht⟩ | ⟨e0, hs2, _⟩⟩
    · rw [hc] at hc2; cases hc2
    · exact ⟨hok, callsSince_of_trace _ _ _ ht⟩
    · rw [hs] at hs2; cases hs2
  · rcases hcmd with ⟨h0, hwhy⟩ | ⟨h1, _, hc, e0, hs⟩
    · rw [h0]
      simp only [ne_eq, not_true_eq_false, false_iff, not_and, not_exists]
      intro hc e0 hs
      rcases hwhy with h | ⟨e, h⟩ | ⟨reply, h⟩
      · exact hne h
      · rw [hc] at h; cases h
      · rw [hs] at h; cases h
    · rw [h1]
      simp only [ne_eq, reduceCtorEq, not_false_eq_true, true_iff]
      exact ⟨hc, e0, hs⟩
  · rcases hcmd with ⟨h0, _⟩ | ⟨h1, _⟩
    · rw [h0]; simp
    · rw [h1]; simp
  · intro e0 e hc hs hi
    rcases hrun with ⟨e2, hc2, _, _⟩ |
      ⟨_, ⟨reply2, hs2, _, _⟩ | ⟨e1, _, ⟨e3, hi3, herr, ht⟩ | ⟨reply3, polls, hi3, _⟩⟩⟩
    · rw [hc] at hc2; cases hc2
    · rw [hs] at hs2; cases hs2
    · rw [hi] at hi3
      have : e = e3 := by injection hi3
      subst this
      exact ⟨herr, callsSince_of_trace _ _ _ ht⟩
    · rw [hi] at hi3; cases hi3

theorem InitReplicaSet_idempotent_witness :
    (InitReplicaSet sampleEnv "mongo-shard0" "h0" false ["h0", "h1"] sampleWorld).1 = Res.ok () ∧
    callsSince sampleWorld
        (InitReplicaSet sampleEnv "mongo-shard0" "h0" false ["h0", "h1"] sampleWorld).2
      = [Call.connect "mongodb://h0" true, Call.runCommand "mongodb://h0" statusCmd,
          Call.disconnect "mongodb://h0"] ∧
    (InitReplicaSet refusingEnv "mongo-shard0" "h0" false ["h0", "h1"] sampleWorld).1
      = Res.err (newErr "replSetInitiate failed: not authorized") :=
  ⟨((InitReplicaSet_idempotent sampleEnv "mongo-shard0" "h0" false ["h0", "h1"] sampleWorld
      (by simp)).1 [] rfl rfl).1,
   ((InitReplicaSet_idempotent sampleEnv "mongo-shard0" "h0" false ["h0", "h1"] sampleWorld
      (by simp)).1 [] rfl rfl).2,
   ((InitReplicaSet_idempotent refusingEnv "mongo-shard0" "h0" false ["h0", "h1"] sampleWorld
      (by simp)).2.2.2 (newErr "no replset config has been received") (newErr "not authorized")
      rfl rfl rfl).1⟩

/-- The member documents, position by position. -/
theorem memberList_getElem (members : List String) (i : Nat) :
    (memberList members)[i]? =
      (members[i]?).map (fun m => Bson.doc [("_id", .int (Int.ofNat i)), ("host", .str m)]) := by
  unfold memberList
  rw [List.getElem?_zipWith]
  by_cases h : i < members.length
  · simp [List.getElem?_range, h, List.getElem?_eq_getElem h]
  · have h2 : members[i]? = none := List.getElem?_eq_none (not_lt.mp h)
    simp [h2]

/-- C16. The configuration document of `InitReplicaSet`: `(_id, members)` for a
shard set and `(_id, configsvr: true, members)` for the config-server set, the
members field holding one document `(_id: i, host: m_i)` per member in order;
and every `replSetInitiate` command that `InitReplicaSet` issues carries
exactly this document. -/
theorem replSetInitiate_document (env : Env σ) (replicaSetName host : String)
    (configServer : Bool) (members : List String) (w : World σ) :
    replSetConfig replicaSetName false members
      = [("_id", .str replicaSetName), ("members", .arr (memberList members))] ∧
    replSetConfig replicaSetName true members
      = [("_id", .str replicaSetName), ("configsvr", .bool true),
          ("members", .arr (memberList members))] ∧
    (memberList members).length = members.length ∧
    (∀ i, (memberList members)[i]? =
      (members[i]?).map (fun m => Bson.doc [("_id", .int (Int.ofNat i)), ("host", .str m)])) ∧
    (∀ d ∈ commandsNamed "replSetInitiate"
        (callsSince w (InitReplicaSet env replicaSetName host configServer members w).2),
      d = [("replSetInitiate", .doc (replSetConfig replicaSetName configServer members))]) ∧
    replSetConfig "configReplSet" true ["c0:27019", "c1:27019"]
      = [("_id", .str "configReplSet"), ("configsvr", .bool true),
          ("members", .arr [.doc [("_id", .int 0), ("host", .str "c0:27019")],
                            .doc [("_id", .int 1), ("host", .str "c1:27019")]])] := by
  refine ⟨rfl, rfl, by simp [memberList], memberList_getElem members, ?_, rfl⟩
  intro d hd
  rcases InitReplicaSet_initiate_commands env replicaSetName host configServer members w with
    ⟨h0, _⟩ | ⟨h1, _⟩
  · rw [h0] at hd; cases hd
  · rw [h1] at hd
    simpa using hd

/-! ## Shard registration (C17) -/

theorem intercalate_go (s : String) :
    ∀ (l : List String) (acc : String),
      String.intercalate.go acc s l =
        match l with
        | [] => acc
        | b :: bs => acc ++ s ++ joinStrings s (b :: bs) := by
  intro l
  induction l with
  | nil => intro acc; rfl
  | cons a t ih =>
    intro acc
    rw [String.intercalate.go, ih]
    cases t with
    | nil => rfl
    | cons b bs =>
      simp only [joinStrings, String.append_assoc]

/-- The helper `joinStrings` is the library join. -/
theorem joinStrings_eq_intercalate (sep : String) (l : List String) :
    joinStrings sep l = sep.intercalate l := by
  cases l with
  | nil => rfl
  | cons a t =>
    rw [String.intercalate, intercalate_go]
    cases t with
    | nil => rfl
    | cons b bs => simp only [joinStrings, String.append_assoc]

theorem commandsNamed_cons_runCommand (name uri : String) (d : Doc) (t : List Call) :
    commandsNamed name (Call.runCommand uri d :: t) =
      (if commandName d == name then [d] else []) ++ commandsNamed name t := by
  simp only [commandsNamed, List.filterMap_cons, Call.command, List.filter_cons]
  split_ifs <;> rfl

/-- The run of the registration loop: the `addShard` commands it issues are, in
order, those of the shards with members, up to the first one that fails with
an error that `isAlreadyExistsError` does not accept, and all of them when the
loop succeeds. -/
theorem addShards_run (env : Env σ) (uri : String) :
    ∀ (shards : List Shard) (w : World σ),
      ∃ evs, (addShards env uri shards w).2.trace = w.trace ++ evs ∧
        (∃ rest, (shards.filter (fun s => decide (s.Members.length ≠ 0))).map (fun s =>
            ([("addShard", Bson.str (s.ReplicaSetName ++ "/" ++ joinStrings "," s.Members))] : Doc))
          = commandsNamed "addShard" evs ++ rest) ∧
        ((addShards env uri shards w).1 = .ok () →
          commandsNamed "addShard" evs =
            (shards.filter (fun s => decide (s.Members.length ≠ 0))).map (fun s =>
              ([("addShard", Bson.str (s.ReplicaSetName ++ "/" ++ joinStrings "," s.Members))]
                : Doc))) := by
  intro shards
  induction shards with
  | nil => intro w; exact ⟨[], by simp [addShards], ⟨[], rfl⟩, fun _ => rfl⟩
  | cons shard rest ih =>
    intro w
    by_cases hm : shard.Members.length = 0
    · rw [addShards, if_pos hm]
      obtain ⟨evs, ht, hp, hall⟩ := ih w
      have hf : ((shard :: rest).filter (fun s => decide (s.Members.length ≠ 0)))
          = rest.filter (fun s => decide (s.Members.length ≠ 0)) := by
        rw [List.filter_cons]
        simp only [hm, ne_eq, not_true_eq_false, decide_False, Bool.false_eq_true, if_false]
      rw [hf]
      exact ⟨evs, ht, hp, hall⟩
    · rw [addShards, if_neg hm]
      have hf : ((shard :: rest).filter (fun s => decide (s.Members.length ≠ 0)))
          = shard :: rest.filter (fun s => decide (s.Members.length ≠ 0)) := by
        rw [List.filter_cons]
        simp only [hm, ne_eq, not_false_eq_true, decide_True, if_true]
      rw [hf]
      have t1 : (dbRunCommand env uri
          [("addShard", .str (shard.ReplicaSetName ++ "/" ++ joinStrings "," shard.Members))]
          w).2.trace = w.trace ++ [Call.runCommand uri
          [("addShard", .str (shard.ReplicaSetName ++ "/" ++ joinStrings "," shard.Members))]] :=
        rfl
      rcases hr : dbRunCommand env uri
          [("addShard", .str (shard.ReplicaSetName ++ "/" ++ joinStrings "," shard.Members))] w
        with ⟨⟨r, d⟩, w1⟩
      rw [hr] at t1
      simp only at t1 ⊢
      have hcons : ∀ evs, commandsNamed "addShard" (Call.runCommand uri
          [("addShard", .str (shard.ReplicaSetName ++ "/" ++ joinStrings "," shard.Members))]
            :: evs)
          = [("addShard", .str (shard.ReplicaSetName ++ "/" ++ joinStrings "," shard.Members))]
            :: commandsNamed "addShard" evs := by
        intro evs
        rw [commandsNamed_cons_runCommand]
        rfl
      have hgo : ∃ evs, (addShards env uri rest w1).2.trace = w.trace ++ evs ∧
          (∃ rest2, (shard :: rest.filter (fun s => decide (s.Members.length ≠ 0))).map (fun s =>
              ([("addShard", Bson.str (s.ReplicaSetName ++ "/" ++ joinStrings "," s.Members))]
                : Doc))
            = commandsNamed "addShard" evs ++ rest2) ∧
          ((addShards env uri rest w1).1 = .ok () →
            commandsNamed "addShard" evs =
              (shard :: rest.filter (fun s => decide (s.Members.length ≠ 0))).map (fun s =>
                ([("addShard", Bson.str (s.ReplicaSetName ++ "/" ++ joinStrings "," s.Members))]
                  : Doc))) := by
        obtain ⟨evs, ht, ⟨rest2, hp⟩, hall⟩ := ih w1
        refine ⟨Call.runCommand uri
          [("addShard", .str (shard.ReplicaSetName ++ "/" ++ joinStrings "," shard.Members))]
            :: evs, ?_, ⟨rest2, ?_⟩, ?_⟩
        · rw [ht, t1]; simp
        · rw [hcons, List.map_cons, hp]; rfl
        · intro hok
          rw [hcons, List.map_cons, hall hok]
      cases r with
      | ok reply => exact hgo
      | error e =>
        simp only
        cases hx : isAlreadyExistsError e with
        | true => simpa [hx] using hgo
        | false =>
          simp only [hx, Bool.not_false, if_true]
          refine ⟨[Call.runCommand uri
            [("addShard", .str (shard.ReplicaSetName ++ "/" ++ joinStrings "," shard.Members))]],
            t1, ⟨(rest.filter (fun s => decide (s.Members.length ≠ 0))).map (fun s =>
              ([("addShard", Bson.str (s.ReplicaSetName ++ "/" ++ joinStrings "," s.Members))]
                : Doc)), ?_⟩, ?_⟩
          · rw [hcons, List.map_cons]; rfl
          · intro h; cases h

theorem enableSharding_trace (env : Env σ) (cfg : ShardConfig) (w : World σ) :
    (enableSharding env cfg w).2.trace = w.trace ++
      (if cfg.EnableDB ≠ "" then
        [Call.runCommand cfg.MongosURI [("enableSharding", .str cfg.EnableDB)]] else []) := by
  unfold enableSharding
  by_cases h : cfg.EnableDB ≠ ""
  · rw [if_pos h, if_pos h]
    have t1 : (dbRunCommand env cfg.MongosURI [("enableSharding", .str cfg.EnableDB)] w).2.trace
        = w.trace ++ [Call.runCommand cfg.MongosURI [("enableSharding", .str cfg.EnableDB)]] :=
      rfl
    rcases hr : dbRunCommand env cfg.MongosURI [("enableSharding", .str cfg.EnableDB)] w
      with ⟨⟨r, d⟩, w1⟩
    rw [hr] at t1
    cases r with
    | ok reply => exact t1
    | error e =>
      simp only
      split_ifs <;> exact t1
  · rw [if_neg h, if_neg h]
    simp

theorem shardCollection_trace (env : Env σ) (cfg : ShardConfig) (w : World σ) :
    (shardCollection env cfg w).2.trace = w.trace ++
      (if cfg.ShardCollection ≠ "" ∧ 0 < cfg.ShardKey.length then
        [Call.runCommand cfg.MongosURI
          [("shardCollection", .str cfg.ShardCollection), ("key", .doc cfg.ShardKey)]]
       else []) := by
  unfold shardCollection
  by_cases h : cfg.ShardCollection ≠ "" ∧ 0 < cfg.ShardKey.length
  · rw [if_pos h, if_pos h]
    have t1 : (dbRunCommand env cfg.MongosURI
        [("shardCollection", .str cfg.ShardCollection), ("key", .doc cfg.ShardKey)] w).2.trace
        = w.trace ++ [Call.runCommand cfg.MongosURI
          [("shardCollection", .str cfg.ShardCollection), ("key", .doc cfg.ShardKey)]] := rfl
    rcases hr : dbRunCommand env cfg.MongosURI
        [("shardCollection", .str cfg.ShardCollection), ("key", .doc cfg.ShardKey)] w
      with ⟨⟨r, d⟩, w1⟩
    rw [hr] at t1
    cases r with
    | ok reply => exact t1
    | error e => exact t1
  · rw [if_neg h, if_neg h]
    simp

/-- The run of `InitSharding`, stage by stage: the connection fails; the
registration loop does not succeed; enabling does not succeed; or all three
stages ran. Every stage that ran is followed by the deferred disconnect. -/
theorem InitSharding_run (env : Env σ) (cfg : ShardConfig) (w : World σ) :
    (∃ e, (dbConnect env cfg.MongosURI false w).1.1 = some e ∧
      (InitSharding env cfg w).1 = .err (wrapErr "failed to connect to mongos: " e) ∧
      (InitSharding env cfg w).2.trace = w.trace ++ [Call.connect cfg.MongosURI false]) ∨
    ((dbConnect env cfg.MongosURI false w).1.1 = none ∧
      ∃ adds, (addShards env cfg.MongosURI cfg.Shards (dbConnect env cfg.MongosURI false w).2).2.trace
          = w.trace ++ [Call.connect cfg.MongosURI false] ++ adds ∧
        (∃ rest, (cfg.Shards.filter (fun s => decide (s.Members.length ≠ 0))).map (fun s =>
            ([("addShard", Bson.str (s.ReplicaSetName ++ "/" ++ joinStrings "," s.Members))] : Doc))
          = commandsNamed "addShard" adds ++ rest) ∧
        ((addShards env cfg.MongosURI cfg.Shards (dbConnect env cfg.MongosURI false w).2).1
            = .ok () →
          commandsNamed "addShard" adds =
            (cfg.Shards.filter (fun s => decide (s.Members.length ≠ 0))).map (fun s =>
              ([("addShard", Bson.str (s.ReplicaSetName ++ "/" ++ joinStrings "," s.Members))]
                : Doc))) ∧
        (((addShards env cfg.MongosURI cfg.Shards (dbConnect env cfg.MongosURI false w).2).1
              ≠ .ok () ∧
            (InitSharding env cfg w).1
              = (addShards env cfg.MongosURI cfg.Shards (dbConnect env cfg.MongosURI false w).2).1 ∧
            (InitSharding env cfg w).2.trace = w.trace ++ [Call.connect cfg.MongosURI false]
              ++ adds ++ [Call.disconnect cfg.MongosURI]) ∨
         ((addShards env cfg.MongosURI cfg.Shards (dbConnect env cfg.MongosURI false w).2).1
              = .ok () ∧
          (((enableSharding env cfg (addShards env cfg.MongosURI cfg.Shards
                  (dbConnect env cfg.MongosURI false w).2).2).1 ≠ .ok () ∧
              (InitSharding env cfg w).1 = (enableSharding env cfg (addShards env cfg.MongosURI
                cfg.Shards (dbConnect env cfg.MongosURI false w).2).2).1 ∧
              (InitSharding env cfg w).2.trace = w.trace ++ [Call.connect cfg.MongosURI false]
                ++ adds ++
                (if cfg.EnableDB ≠ "" then
                  [Call.runCommand cfg.MongosURI [("enableSharding", .str cfg.EnableDB)]]
                 else [])
                ++ [Call.disconnect cfg.MongosURI]) ∨
           ((enableSharding env cfg (addShards env cfg.MongosURI cfg.Shards
                  (dbConnect env cfg.MongosURI false w).2).2).1 = .ok () ∧
              (InitSharding env cfg w).1 = (shardCollection env cfg (enableSharding env cfg
                (addShards env cfg.MongosURI cfg.Shards
                  (dbConnect env cfg.MongosURI false w).2).2).2).1 ∧
              (InitSharding env cfg w).2.trace = w.trace ++ [Call.connect cfg.MongosURI false]
                ++ adds ++
                (if cfg.EnableDB ≠ "" then
                  [Call.runCommand cfg.MongosURI [("enableSharding", .str cfg.EnableDB)]]
                 else []) ++
                (if cfg.ShardCollection ≠ "" ∧ 0 < cfg.ShardKey.length then
                  [Call.runCommand cfg.MongosURI
                    [("shardCollection", .str cfg.ShardCollection), ("key", .doc cfg.ShardKey)]]
                 else [])
                ++ [Call.disconnect cfg.MongosURI]))))) := by
  unfold InitSharding
  have t1 : (dbConnect env cfg.MongosURI false w).2.trace
      = w.trace ++ [Call.connect cfg.MongosURI false] := rfl
  rcases hc : dbConnect env cfg.MongosURI false w with ⟨⟨o, d⟩, w1⟩
  rw [hc] at t1
  simp only at t1 ⊢
  cases o with
  | some e => exact Or.inl ⟨e, rfl, rfl, t1⟩
  | none =>
    right
    refine ⟨rfl, ?_⟩
    obtain ⟨adds, ha, hp, hall⟩ := addShards_run env cfg.MongosURI cfg.Shards w1
    refine ⟨adds, by rw [ha, t1], hp, hall, ?_⟩
    simp only
    have te := enableSharding_trace env cfg (addShards env cfg.MongosURI cfg.Shards w1).2
    have ts := shardCollection_trace env cfg (enableSharding env cfg
      (addShards env cfg.MongosURI cfg.Shards w1).2).2
    rcases hadd : addShards env cfg.MongosURI cfg.Shards w1 with ⟨ra, w2⟩
    rw [hadd] at ha te ts
    simp only at ha te ts ⊢
    have hd2 : (dbDisconnect env cfg.MongosURI w2).trace
        = w.trace ++ [Call.connect cfg.MongosURI false] ++ adds
          ++ [Call.disconnect cfg.MongosURI] := by
      show w2.trace ++ [Call.disconnect cfg.MongosURI] = _
      rw [ha, t1]
    cases ra with
    | err e => exact Or.inl ⟨by simp, rfl, hd2⟩
    | panic m => exact Or.inl ⟨by simp, rfl, hd2⟩
    | hang => exact Or.inl ⟨by simp, rfl, hd2⟩
    | ok u =>
      right
      refine ⟨rfl, ?_⟩
      simp only
      rcases hen : enableSharding env cfg w2 with ⟨re, w3⟩
      rw [hen] at te ts
      simp only at te ts ⊢
      have hd3 : (dbDisconnect env cfg.MongosURI w3).trace
          = w.trace ++ [Call.connect cfg.MongosURI false] ++ adds ++
            (if cfg.EnableDB ≠ "" then
              [Call.runCommand cfg.MongosURI [("enableSharding", .str cfg.EnableDB)]]
             else [])
            ++ [Call.disconnect cfg.MongosURI] := by
        show w3.trace ++ [Call.disconnect cfg.MongosURI] = _
        rw [te, ha, t1]
      cases re with
      | err e => exact Or.inl ⟨by simp, rfl, hd3⟩
      | panic m => exact Or.inl ⟨by simp, rfl, hd3⟩
      | hang => exact Or.inl ⟨by simp, rfl, hd3⟩
      | ok u2 =>
        right
        refine ⟨rfl, rfl, ?_⟩
        show (shardCollection env cfg w3).2.trace ++ [Call.disconnect cfg.MongosURI] = _
        rw [ts, te, ha, t1]

theorem commandsNamed_enable (uri db : String) (c : Prop) [Decidable c] :
    commandsNamed "addShard"
      (if c then [Call.runCommand uri [("enableSharding", .str db)]] else []) = [] := by
  split_ifs <;> rfl

theorem commandsNamed_collection (uri coll : String) (key : Doc) (c : Prop) [Decidable c] :
    commandsNamed "addShard"
      (if c then [Call.runCommand uri [("shardCollection", .str coll), ("key", .doc key)]]
       else []) = [] := by
  split_ifs <;> rfl

/-- C17, counterexample. With two shard descriptors that both have members and an
`addShard` that fails with `boom`, `InitSharding` issues the command of the
first descriptor only and returns its error: the second descriptor gets no
`addShard` command. -/
theorem InitSharding_stops_registering :
    (twoShardConfig.Shards.map (fun s => s.Members.length)) = [2, 2] ∧
    (InitSharding (addShardFailsEnv "boom") twoShardConfig sampleWorld).1
      = Res.err (newErr "failed to add shard mongo-shard0: boom") ∧
    (commandsNamed "addShard" (callsSince sampleWorld
        (InitSharding (addShardFailsEnv "boom") twoShardConfig sampleWorld).2)).length = 1 ∧
    callsSince sampleWorld (InitSharding (addShardFailsEnv "boom") twoShardConfig sampleWorld).2
      = [Call.connect "mongodb://demo-mongos.db.svc.cluster.local:27017" false,
         Call.runCommand "mongodb://demo-mongos.db.svc.cluster.local:27017"
           [("addShard", Bson.str "mongo-shard0/h0,h1")],
         Call.disconnect "mongodb://demo-mongos.db.svc.cluster.local:27017"] :=
  ⟨by decide, by decide, by decide, rfl⟩

/-! ## The sharding step and the sharding policy (C19, C20) -/

/-- The sharding step reads the target database and the target collection of the
policy and nothing else of it. -/
theorem sharding_step_reads (env : Env σ) (mongo : MongoDBCluster) (shardID : Int)
    (w : World σ) (p q : ShardingSpec) (hd : p.Database = q.Database)
    (hc : p.Collections = q.Collections) :
    reconcileEnbaleShardingMongos env (withSharding (some p) mongo) shardID w
      = reconcileEnbaleShardingMongos env (withSharding (some q) mongo) shardID w := by
  simp only [reconcileEnbaleShardingMongos, withSharding, hd, hc]

/-- A failure of the `shardCollection` command is returned, wrapped, whatever its
text. -/
theorem shardCollection_error_returned (env : Env σ) (cfg : ShardConfig) (w : World σ)
    (e : Error) (hcoll : cfg.ShardCollection ≠ "") (hkey : 0 < cfg.ShardKey.length)
    (he : (dbRunCommand env cfg.MongosURI
      [("shardCollection", .str cfg.ShardCollection), ("key", .doc cfg.ShardKey)] w).1.1
        = .error e) :
    (shardCollection env cfg w).1
      = .err (wrapErr ("failed to shard collection " ++ cfg.ShardCollection ++ ": ") e) := by
  unfold shardCollection
  rw [if_pos ⟨hcoll, hkey⟩]
  rcases hr : dbRunCommand env cfg.MongosURI
      [("shardCollection", .str cfg.ShardCollection), ("key", .doc cfg.ShardKey)] w
    with ⟨⟨r, d⟩, w1⟩
  rw [hr] at he
  simp only at he
  subst he
  rfl

/-- C19. The sharding step never reads the declared key: whatever `spec.sharding.key`
holds, the step behaves as with an empty key. For the sample cluster with the
declared key `userId` the `shardCollection` command carries the key document
`(_id: hashed)`, and the same command is issued for the sample cluster, whose
policy declares no key. -/
theorem shardCollection_ignores_declared_key :
    (∀ (σ : Type) (env : Env σ) (mongo : MongoDBCluster) (shardID : Int) (w : World σ)
        (enabled : Bool) (database collections key : String),
      reconcileEnbaleShardingMongos env
          (withSharding (some ⟨enabled, database, collections, key⟩) mongo) shardID w
        = reconcileEnbaleShardingMongos env
          (withSharding (some ⟨enabled, database, collections, ""⟩) mongo) shardID w) ∧
    keyedCluster.Spec.Sharding.map (fun p => p.Key) = some "userId" ∧
    (reconcileEnbaleShardingMongos sampleEnv keyedCluster 0 sampleWorld).1 = Res.ok () ∧
    commandsNamed "shardCollection" (callsSince sampleWorld
        (reconcileEnbaleShardingMongos sampleEnv keyedCluster 0 sampleWorld).2)
      = [[("shardCollection", Bson.str "app.users"),
          ("key", Bson.doc [("_id", Bson.str "hashed")])]] ∧
    sampleCluster.Spec.Sharding.map (fun p => p.Key) = some "" ∧
    commandsNamed "shardCollection" (callsSince sampleWorld
        (reconcileEnbaleShardingMongos sampleEnv sampleCluster 0 sampleWorld).2)
      = [[("shardCollection", Bson.str "app.users"),
          ("key", Bson.doc [("_id", Bson.str "hashed")])]] :=
  ⟨fun _ env mongo shardID w _ _ _ _ => sharding_step_reads env mongo shardID w _ _ rfl rfl,
    by decide, by decide, rfl, by decide, rfl⟩

/-- C20. Without a sharding policy the sharding step faults before it issues any
call, for every cluster object and shard index; the loop of the pass over the
shards of the sample cluster without policy ends in that fault at shard 0, and
a pass over that cluster writes no status. With a policy the `enabled` flag is
never read: for the sample cluster with `enabled = false` the step issues
`enableSharding` and `shardCollection`. -/
theorem sharding_step_faults_without_policy :
    (∀ (σ : Type) (env : Env σ) (mongo : MongoDBCluster) (shardID : Int) (w : World σ),
      reconcileEnbaleShardingMongos env (withSharding none mongo) shardID w
        = (Res.panic "invalid memory address or nil pointer dereference", w)) ∧
    noPolicyCluster = withSharding none sampleCluster ∧
    noPolicyCluster.Spec.ReplicaSetCount = 2 ∧
    forRange noPolicyCluster.Spec.ReplicaSetCount
        (fun i => reconcileEnbaleShardingMongos sampleEnv noPolicyCluster i) noPolicyWorld
      = (Res.panic "invalid memory address or nil pointer dereference", noPolicyWorld) ∧
    (passCalls sampleEnv sampleRequest noPolicyWorld).filter Call.isStatusUpdate = [] ∧
    (∀ (σ : Type) (env : Env σ) (mongo : MongoDBCluster) (shardID : Int) (w : World σ)
        (enabled : Bool) (database collections key : String),
      reconcileEnbaleShardingMongos env
          (withSharding (some ⟨enabled, database, collections, key⟩) mongo) shardID w
        = reconcileEnbaleShardingMongos env
          (withSharding (some ⟨true, database, collections, key⟩) mongo) shardID w) ∧
    disabledPolicyCluster.Spec.Sharding.map (fun p => p.Enabled) = some false ∧
    commandsNamed "enableSharding" (callsSince sampleWorld
        (reconcileEnbaleShardingMongos sampleEnv disabledPolicyCluster 0 sampleWorld).2)
      = [[("enableSharding", Bson.str "app")]] ∧
    commandsNamed "shardCollection" (callsSince sampleWorld
        (reconcileEnbaleShardingMongos sampleEnv disabledPolicyCluster 0 sampleWorld).2)
      = [[("shardCollection", Bson.str "app.users"),
          ("key", Bson.doc [("_id", Bson.str "hashed")])]] :=
  ⟨fun _ _ _ _ _ => rfl, rfl, by decide, rfl, rfl,
    fun _ env mongo shardID w _ _ _ _ => sharding_step_reads env mongo shardID w _ _ rfl rfl,
    by decide, rfl, rfl⟩

/-! ## The reachability probe at the two call sites (C14, C15) -/

/-- The `select` of the probe issues no call; it takes a tick only when that
tick is counted before the deadline, at the later of the tick and the moment
the statement was entered. -/
theorem probeSelect_spec (env : Env σ) (now deadline tickAt : Nat) (w : World σ) :
    (probeSelect env now deadline tickAt w).2.trace = w.trace ∧
    ((probeSelect env now deadline tickAt w).1.1 = Fired.tick →
      tickAt < deadline ∧ (probeSelect env now deadline tickAt w).1.2 = max now tickAt) := by
  unfold probeSelect
  by_cases h : tickAt < deadline
  · rw [if_pos h]
    have hs := goSelect_spec env now deadline tickAt w
    refine ⟨hs.1, fun _ => ⟨h, ?_⟩⟩
    rw [hs.2.1, Nat.min_eq_right (Nat.le_of_lt h)]
  · rw [if_neg h]
    exact ⟨rfl, fun hf => by simp at hf⟩

/-- The loop of the probe ends within its rounds, in success or in the timeout
error, and the calls it issued are pings. It ends in success only after a tick
counted before the deadline. -/
theorem waitForReplicaSetHealthyLoop_run (env : Env σ) (uri : String) (deadline : Nat) :
    ∀ (rounds now tickAt : Nat) (w : World σ),
      deadline < tickAt + 5000 * rounds →
      (((waitForReplicaSetHealthyLoop env uri deadline (rounds + 1) now tickAt w).1 = .ok () ∧
          tickAt < deadline) ∨
       (waitForReplicaSetHealthyLoop env uri deadline (rounds + 1) now tickAt w).1 =
          .err (newErr "timeout waiting for MongoDB to be reachable")) ∧
      ∃ evs, (waitForReplicaSetHealthyLoop env uri deadline (rounds + 1) now tickAt w).2.trace
          = w.trace ++ evs ∧ (∀ c ∈ evs, c = Call.ping uri) ∧
          (evs ≠ [] → tickAt < deadline) := by
  intro rounds
  induction rounds with
  | zero =>
    intro now tickAt w hfuel
    have hsel := probeSelect_spec env now deadline tickAt w
    unfold waitForReplicaSetHealthyLoop
    rcases hg : probeSelect env now deadline tickAt w with ⟨⟨f, t⟩, w1⟩
    rw [hg] at hsel
    cases f with
    | done => exact ⟨Or.inr rfl, [], by simpa using hsel.1, by simp, by simp⟩
    | tick =>
      have := (hsel.2 rfl).1
      omega
  | succ n ih =>
    intro now tickAt w hfuel
    have hsel := probeSelect_spec env now deadline tickAt w
    unfold waitForReplicaSetHealthyLoop
    rcases hg : probeSelect env now deadline tickAt w with ⟨⟨f, t⟩, w1⟩
    rw [hg] at hsel
    simp only at hsel
    cases f with
    | done => exact ⟨Or.inr rfl, [], by simpa using hsel.1, by simp, by simp⟩
    | tick =>
      simp only
      have hlt := (hsel.2 rfl).1
      have t1 : (dbPing env uri w1).2.trace = w1.trace ++ [Call.ping uri] := rfl
      rcases hp : dbPing env uri w1 with ⟨⟨p, d⟩, w2⟩
      rw [hp, hsel.1] at t1
      simp only at t1
      have hn := nextTick_ge 5000 tickAt t
      have hrec : ∀ r : Ret × World σ,
          r = waitForReplicaSetHealthyLoop env uri deadline (n + 1) (min (t + d) deadline)
            (nextTick 5000 tickAt t) w2 →
          ((r.1 = .ok () ∧ tickAt < deadline) ∨
            r.1 = .err (newErr "timeout waiting for MongoDB to be reachable")) ∧
          ∃ evs, r.2.trace = w.trace ++ evs ∧ (∀ c ∈ evs, c = Call.ping uri) ∧
            (evs ≠ [] → tickAt < deadline) := by
        intro r hr
        obtain ⟨h1, evs, h2, h3, _⟩ := ih (min (t + d) deadline) (nextTick 5000 tickAt t) w2
          (by omega)
        rw [← hr] at h1 h2
        refine ⟨?_, Call.ping uri :: evs, ?_, ?_, fun _ => hlt⟩
        · rcases h1 with h1 | h1
          · exact Or.inl ⟨h1.1, hlt⟩
          · exact Or.inr h1
        · rw [h2, t1]; simp
        · intro c hc
          rcases List.mem_cons.mp hc with hc | hc
          · exact hc
          · exact h3 c hc
      cases p with
      | none =>
        simp only
        by_cases hd : t + d < deadline
        · rw [if_pos hd]
          exact ⟨Or.inl ⟨rfl, hlt⟩, [Call.ping uri], t1, by simp, fun _ => hlt⟩
        · rw [if_neg hd]
          exact hrec _ rfl
      | some e =>
        simp only
        exact hrec _ rfl

/-- The probe `waitForReplicaSetHealthy` returns success or an error (it neither
faults nor runs on for ever), and every call it issues is a connection that is
not direct, a ping or a disconnect, all to the probed address: it sends no
command. -/
theorem waitForReplicaSetHealthy_run (env : Env σ) (host : String) (timeout : Nat)
    (w : World σ) :
    ((waitForReplicaSetHealthy env host timeout w).1 = .ok () ∨
      ∃ e, (waitForReplicaSetHealthy env host timeout w).1 = .err e) ∧
    ∃ evs, (waitForReplicaSetHealthy env host timeout w).2.trace = w.trace ++ evs ∧
      ∀ c ∈ evs, c = Call.connect ("mongodb://" ++ host) false ∨
        c = Call.ping ("mongodb://" ++ host) ∨ c = Call.disconnect ("mongodb://" ++ host) := by
  unfold waitForReplicaSetHealthy
  have t1 : (dbConnect env ("mongodb://" ++ host) false w).2.trace
      = w.trace ++ [Call.connect ("mongodb://" ++ host) false] := rfl
  rcases hc : dbConnect env ("mongodb://" ++ host) false w with ⟨⟨o, c⟩, w1⟩
  rw [hc] at t1
  simp only at t1 ⊢
  cases o with
  | some e => exact ⟨Or.inr ⟨_, rfl⟩, _, t1, by simp⟩
  | none =>
    simp only
    obtain ⟨hres, evs, ht, hall, _⟩ := waitForReplicaSetHealthyLoop_run env
      ("mongodb://" ++ host) timeout (timeout / 5000) c (c + 5000) w1 (by omega)
    refine ⟨?_, [Call.connect ("mongodb://" ++ host) false] ++ evs
      ++ [Call.disconnect ("mongodb://" ++ host)], ?_, ?_⟩
    · rcases hres with h | h
      · exact Or.inl h.1
      · exact Or.inr ⟨_, h⟩
    · show (waitForReplicaSetHealthyLoop env ("mongodb://" ++ host) timeout (timeout / 5000 + 1)
        c (c + 5000) w1).2.trace ++ [Call.disconnect ("mongodb://" ++ host)] = _
      rw [ht, t1]
      simp
    · intro x hx
      simp only [List.mem_append, List.mem_singleton] at hx
      rcases hx with (hx | hx) | hx
      · exact Or.inl hx
      · exact Or.inr (Or.inl (hall x hx))
      · exact Or.inr (Or.inr hx)

/-- The probes of the shard site never decide the result: the loop over the
members always ends in success, whatever each probe returned. -/
theorem probeMembers_ok (env : Env σ) :
    ∀ (members : List String) (w : World σ), (probeMembers env members w).1 = .ok () := by
  intro members
  induction members with
  | nil => intro w; rfl
  | cons host rest ih =>
    intro w
    unfold probeMembers
    have h := (waitForReplicaSetHealthy_run env host 3000 w).1
    rcases hr : waitForReplicaSetHealthy env host 3000 w with ⟨r, w1⟩
    rw [hr] at h
    cases r with
    | ok u => exact ih w1
    | err e => exact ih w1
    | panic m => simp at h
    | hang => simp at h

theorem commandsNamed_no_command (name : String) (evs : List Call)
    (h : ∀ c ∈ evs, c.command = none) : commandsNamed name evs = [] := by
  unfold commandsNamed
  have : evs.filterMap Call.command = [] := by
    rw [List.filterMap_eq_nil_iff]
    exact h
  rw [this]
  rfl

/-- The function `reconcileConfigServerReplicaSet` never sends a command: it
never initiates the config-server set. -/
theorem configServer_bootstrap_sends_no_command (env : Env σ) (mongo : MongoDBCluster)
    (w : World σ) (name : String) :
    commandsNamed name (callsSince w (reconcileConfigServerReplicaSet env mongo w).2) = [] := by
  unfold reconcileConfigServerReplicaSet
  by_cases hc : 0 < mongo.Spec.ConfigServerCount
  · rw [if_pos hc]
    obtain ⟨_, evs, ht, hall⟩ := waitForReplicaSetHealthy_run env (configServerHost mongo 0) 5000 w
    rw [callsSince_of_trace _ _ _ ht]
    apply commandsNamed_no_command
    intro c hcm
    rcases hall c hcm with h | h | h <;> rw [h] <;> rfl
  · rw [if_neg hc]
    have : (findReachableHost env [] w) = (.err (newErr "no reachable MongoDB host found"), w) :=
      rfl
    rw [this]
    simp only
    rw [callsSince_of_trace w w [] (by simp)]
    rfl

/-- C14. The shard bootstrap is the one algorithm of the specification (probe,
select the first reachable member, initiate with all members), while the
config-server bootstrap never sends a command, so it never initiates the
config-server set. On a set that is not initiated yet, the algorithm with
the config-server parameters initiates `configReplSet` with the three members
and the config-server flag, while `reconcileConfigServerReplicaSet` returns
after the probe of member 0, a connection that is not direct and a disconnect,
with the timeout error of the probe. -/
theorem configServer_bootstrap_never_initiates :
    (∀ (σ : Type) (env : Env σ) (mongo : MongoDBCluster) (shardID : Int) (w : World σ),
      reconcileReplicaSet env mongo shardID w
        = specBootstrap env ("mongo-shard" ++ itoa shardID) false
            (collectRange mongo.Spec.ReplicaSetSize (fun i => shardHost mongo shardID i)) w) ∧
    (∀ (σ : Type) (env : Env σ) (mongo : MongoDBCluster) (w : World σ),
      commandsNamed "replSetInitiate"
        (callsSince w (reconcileConfigServerReplicaSet env mongo w).2) = []) ∧
    specConfigServerMembers sampleCluster
      = ["config-0.demo-configsvr.db.svc.cluster.local:27019",
         "config-1.demo-configsvr.db.svc.cluster.local:27019",
         "config-2.demo-configsvr.db.svc.cluster.local:27019"] ∧
    (specBootstrap electingEnv "configReplSet" true (specConfigServerMembers sampleCluster)
        electingWorld).1 = Res.ok () ∧
    commandsNamed "replSetInitiate" (callsSince electingWorld
        (specBootstrap electingEnv "configReplSet" true (specConfigServerMembers sampleCluster)
          electingWorld).2)
      = [[("replSetInitiate", Bson.doc (replSetConfig "configReplSet" true
          (specConfigServerMembers sampleCluster)))]] ∧
    (reconcileConfigServerReplicaSet electingEnv sampleCluster electingWorld).1
      = Res.err (newErr "timeout waiting for MongoDB to be reachable") ∧
    callsSince electingWorld (reconcileConfigServerReplicaSet electingEnv sampleCluster
        electingWorld).2
      = [Call.connect "mongodb://config-0.demo-configsvr.db.svc.cluster.local:27019" false,
         Call.disconnect "mongodb://config-0.demo-configsvr.db.svc.cluster.local:27019"] :=
  ⟨fun _ _ _ _ _ => rfl,
    fun _ env mongo w => configServer_bootstrap_sends_no_command env mongo w "replSetInitiate",
    by decide, by decide, rfl, by decide, rfl⟩

/-- C15. At the shard site the probes never decide the result (their loop always
ends in success). At the config-server site, for a positive config-server
count, the bootstrap is the probe of member 0 and returns what the probe
returns: with a driver that serves direct connections only, the probe fails
and `reconcileConfigServerReplicaSet` returns the probe's error, while the
shard bootstrap on the same driver, and the algorithm of the specification
with the config-server parameters, succeed. -/
theorem configServer_probe_error_is_returned :
    (∀ (σ : Type) (env : Env σ) (members : List String) (w : World σ),
      (probeMembers env members w).1 = Res.ok ()) ∧
    (∀ (σ : Type) (env : Env σ) (mongo : MongoDBCluster) (w : World σ),
      mongo.Spec.ConfigServerCount ≤ 0 ∨
      reconcileConfigServerReplicaSet env mongo w
        = waitForReplicaSetHealthy env (configServerHost mongo 0) 5000 w) ∧
    (waitForReplicaSetHealthy directOnlyEnv (configServerHost sampleCluster 0) 5000
        sampleWorld).1 = Res.err (newErr "connection failed: server selection error") ∧
    (reconcileConfigServerReplicaSet directOnlyEnv sampleCluster sampleWorld).1
      = Res.err (newErr "connection failed: server selection error") ∧
    (specBootstrap directOnlyEnv "configReplSet" true (specConfigServerMembers sampleCluster)
        sampleWorld).1 = Res.ok () ∧
    (reconcileReplicaSet directOnlyEnv sampleCluster 0 sampleWorld).1 = Res.ok () := by
  refine ⟨fun _ env members w => probeMembers_ok env members w, ?_,
    by decide, by decide, by decide, by decide⟩
  intro _ env mongo w
  by_cases hc : 0 < mongo.Spec.ConfigServerCount
  · right
    unfold reconcileConfigServerReplicaSet
    rw [if_pos hc]
  · left
    omega

/-! ## One name and one member list per shard (C21) -/

/-- The address that the replication bootstrapper formats is the address of the
specification. -/
theorem shardHost_eq_spec (mongo : MongoDBCluster) (i j : Int) :
    shardHost mongo i j = specShardAddress mongo i j := by
  simp only [shardHost, specShardAddress, String.append_assoc]

/-- The address that the sharding bootstrapper formats is the address of the
specification. -/
theorem shardingHost_eq_spec (mongo : MongoDBCluster) (i j : Int) :
    "mongo-shard" ++ itoa i ++ "-" ++ itoa j ++ "." ++ (mongo.Name ++ "-shard" ++ itoa i) ++ "."
        ++ mongo.Namespace ++ ".svc.cluster.local:" ++ itoa 27018
      = specShardAddress mongo i j := by
  have h : ".svc.cluster.local:" ++ itoa 27018 = ".svc.cluster.local:27018" := by decide
  simp only [specShardAddress, String.append_assoc, h]

theorem collectRange_shardHost (mongo : MongoDBCluster) (i : Int) :
    collectRange mongo.Spec.ReplicaSetSize (fun j => shardHost mongo i j)
      = specShardMembers mongo i := by
  unfold collectRange specShardMembers
  exact List.map_congr_left (fun j _ => shardHost_eq_spec mongo i _)

theorem collectRange_shardingHost (mongo : MongoDBCluster) (i : Int) :
    collectRange mongo.Spec.ReplicaSetSize (fun j =>
        "mongo-shard" ++ itoa i ++ "-" ++ itoa j ++ "." ++ (mongo.Name ++ "-shard" ++ itoa i)
          ++ "." ++ mongo.Namespace ++ ".svc.cluster.local:" ++ itoa 27018)
      = specShardMembers mongo i := by
  unfold collectRange specShardMembers
  exact List.map_congr_left (fun j _ => shardingHost_eq_spec mongo i _)

/-! ## Endpoints and the workloads they front (C22) -/

/-- C22. For every cluster object and shard index: the governing service name of
the shard workload is the name of the shard endpoint and that of the
config-server workload is the name of the config-server endpoint; every
selector label of the shard, config-server and router endpoint is a label of
the pod template of the corresponding workload, with the same value; and the
endpoint ports are the container ports of the workloads, 27018, 27019 and
27017. -/
theorem endpoints_front_workloads (q : String) (mongo : MongoDBCluster) (shardIndex : Int) :
    (shardStatefulSet q mongo shardIndex).ServiceName
      = (shardService mongo shardIndex).ObjectMeta.Name ∧
    (configServerStatefulSet q mongo).ServiceName = (configSvrService mongo).ObjectMeta.Name ∧
    (∀ kv ∈ (shardService mongo shardIndex).Selector,
      kv ∈ (shardStatefulSet q mongo shardIndex).Template.Labels) ∧
    (∀ kv ∈ (configSvrService mongo).Selector,
      kv ∈ (configServerStatefulSet q mongo).Template.Labels) ∧
    (∀ kv ∈ (mongosService mongo).Selector, kv ∈ (mongosDeployment mongo).Template.Labels) ∧
    (shardService mongo shardIndex).Ports.map (fun p => p.Port) = [27018] ∧
    containerPorts (shardStatefulSet q mongo shardIndex).Template = [27018] ∧
    (configSvrService mongo).Ports.map (fun p => p.Port) = [27019] ∧
    containerPorts (configServerStatefulSet q mongo).Template = [27019] ∧
    (mongosService mongo).Ports.map (fun p => p.Port) = [27017] ∧
    containerPorts (mongosDeployment mongo).Template = [27017] := by
  refine ⟨?_, rfl, ?_, ?_, ?_, rfl, rfl, rfl, rfl, rfl, rfl⟩
  · simp only [shardStatefulSet, shardService, String.append_assoc]
    rfl
  · intro kv h
    exact h
  · intro kv h
    exact h
  · intro kv h
    simp only [mongosService, List.mem_singleton] at h
    subst h
    simp [mongosDeployment]

/-! ## The router's list of config servers (C23) -/

/-- The address that the config-server bootstrap formats is the address of the
specification. -/
theorem configServerHost_eq_spec (mongo : MongoDBCluster) (i : Int) :
    configServerHost mongo i = specConfigAddress mongo i := by
  have h1 : ∀ s : String, "config" ++ ("-" ++ s) = "config-" ++ s := fun s => by
    rw [← String.append_assoc]; rfl
  have h2 : ∀ s : String, "-configsvr" ++ ("." ++ s) = "-configsvr." ++ s := fun s => by
    rw [← String.append_assoc]; rfl
  simp only [configServerHost, specConfigAddress, String.append_assoc, h1, h2]

/-! ## The probe and its first tick (C24) -/

/-- A probe whose connection fails returns that error, wrapped, after the one
call. -/
theorem probe_connection_failed (env : Env σ) (host : String) (timeout : Nat) (w : World σ)
    (e : Error) (hc : (dbConnect env ("mongodb://" ++ host) false w).1.1 = some e) :
    (waitForReplicaSetHealthy env host timeout w).1 = .err (wrapErr "connection failed: " e) ∧
    (waitForReplicaSetHealthy env host timeout w).2.trace
      = w.trace ++ [Call.connect ("mongodb://" ++ host) false] := by
  unfold waitForReplicaSetHealthy
  have t1 : (dbConnect env ("mongodb://" ++ host) false w).2.trace
      = w.trace ++ [Call.connect ("mongodb://" ++ host) false] := rfl
  rcases hcon : dbConnect env ("mongodb://" ++ host) false w with ⟨⟨o, c⟩, w1⟩
  rw [hcon] at hc t1
  simp only at hc t1
  subst hc
  exact ⟨rfl, t1⟩

/-- A probe whose connection is made, after `c` milliseconds: it returns success
or the timeout error; between connect and disconnect it issues only pings; and
it pings or succeeds only when the first tick, counted `c + 5000` ms after the
context was created, comes before the deadline. -/
theorem probe_connected (env : Env σ) (host : String) (timeout : Nat) (w : World σ)
    (hc : (dbConnect env ("mongodb://" ++ host) false w).1.1 = none) :
    (((waitForReplicaSetHealthy env host timeout w).1 = .ok () ∧
        (dbConnect env ("mongodb://" ++ host) false w).1.2 + 5000 < timeout) ∨
      (waitForReplicaSetHealthy env host timeout w).1
        = .err (newErr "timeout waiting for MongoDB to be reachable")) ∧
    ∃ evs, (waitForReplicaSetHealthy env host timeout w).2.trace
        = w.trace ++ ([Call.connect ("mongodb://" ++ host) false] ++ evs
            ++ [Call.disconnect ("mongodb://" ++ host)]) ∧
      (∀ c ∈ evs, c = Call.ping ("mongodb://" ++ host)) ∧
      (evs ≠ [] → (dbConnect env ("mongodb://" ++ host) false w).1.2 + 5000 < timeout) := by
  unfold waitForReplicaSetHealthy
  have t1 : (dbConnect env ("mongodb://" ++ host) false w).2.trace
      = w.trace ++ [Call.connect ("mongodb://" ++ host) false] := rfl
  rcases hcon : dbConnect env ("mongodb://" ++ host) false w with ⟨⟨o, c⟩, w1⟩
  rw [hcon] at hc t1
  simp only at hc t1
  subst hc
  simp only
  obtain ⟨hres, evs, ht, hall, hne⟩ := waitForReplicaSetHealthyLoop_run env
    ("mongodb://" ++ host) timeout (timeout / 5000) c (c + 5000) w1 (by omega)
  refine ⟨hres, evs, ?_, hall, hne⟩
  show (waitForReplicaSetHealthyLoop env ("mongodb://" ++ host) timeout (timeout / 5000 + 1)
    c (c + 5000) w1).2.trace ++ [Call.disconnect ("mongodb://" ++ host)] = _
  rw [ht, t1]
  simp

/-- A probe whose deadline does not come after its first tick, 5 s after the
connection was made: it returns the timeout error after connect and
disconnect, without a ping. -/
theorem probe_before_first_tick (env : Env σ) (host : String) (timeout : Nat) (w : World σ)
    (hc : (dbConnect env ("mongodb://" ++ host) false w).1.1 = none)
    (ht : timeout ≤ (dbConnect env ("mongodb://" ++ host) false w).1.2 + 5000) :
    (waitForReplicaSetHealthy env host timeout w).1
      = .err (newErr "timeout waiting for MongoDB to be reachable") ∧
    (waitForReplicaSetHealthy env host timeout w).2.trace
      = w.trace ++ [Call.connect ("mongodb://" ++ host) false,
          Call.disconnect ("mongodb://" ++ host)] := by
  obtain ⟨hres, evs, htr, _, hne⟩ := probe_connected env host timeout w hc
  have hev : evs = [] := by
    by_contra h
    have := hne h
    omega
  subst hev
  refine ⟨?_, by simpa using htr⟩
  rcases hres with h | h
  · omega
  · exact h

/-- The probes of the shard bootstrap, 3 s each, issue no ping: every call is a
connect or a disconnect. -/
theorem probeMembers_calls (env : Env σ) :
    ∀ (members : List String) (w : World σ),
      ∃ evs, (probeMembers env members w).2.trace = w.trace ++ evs ∧
        ∀ c ∈ evs, (∃ uri, c = Call.connect uri false) ∨ ∃ uri, c = Call.disconnect uri := by
  intro members
  induction members with
  | nil => intro w; exact ⟨[], by simp [probeMembers], by simp⟩
  | cons host rest ih =>
    intro w
    have hprobe : ∃ evs, (waitForReplicaSetHealthy env host 3000 w).2.trace = w.trace ++ evs ∧
        (∀ c ∈ evs, (∃ uri, c = Call.connect uri false) ∨ ∃ uri, c = Call.disconnect uri) ∧
        ∃ e, (waitForReplicaSetHealthy env host 3000 w).1 = .err e := by
      cases hc : (dbConnect env ("mongodb://" ++ host) false w).1.1 with
      | some e =>
        obtain ⟨h1, h2⟩ := probe_connection_failed env host 3000 w e hc
        refine ⟨_, h2, ?_, _, h1⟩
        intro c hcm
        simp only [List.mem_singleton] at hcm
        exact Or.inl ⟨_, hcm⟩
      | none =>
        obtain ⟨h1, h2⟩ := probe_before_first_tick env host 3000 w hc (by omega)
        refine ⟨_, h2, ?_, _, h1⟩
        intro c hcm
        simp only [List.mem_cons, List.mem_singleton, List.not_mem_nil, or_false] at hcm
        rcases hcm with h | h
        · exact Or.inl ⟨_, h⟩
        · exact Or.inr ⟨_, h⟩
    obtain ⟨evs, ht, hall, e, he⟩ := hprobe
    unfold probeMembers
    rcases hr : waitForReplicaSetHealthy env host 3000 w with ⟨r, w1⟩
    rw [hr] at ht he
    simp only at ht he
    subst he
    simp only
    obtain ⟨evs2, ht2, hall2⟩ := ih w1
    refine ⟨evs ++ evs2, by rw [ht2, ht, List.append_assoc], ?_⟩
    intro c hcm
    rcases List.mem_append.mp hcm with h | h
    · exact hall c h
    · exact hall2 c h

/-- C24, amended. The probe pings only from its first tick on, which comes 5 s
after the connection was made, and the clock of its timeout runs from before
the connection. When the connection fails the probe returns the connection
error, wrapped, after that one call. When the connection is made and the
timeout does not exceed the time the connection took plus 5 s, in particular
for every timeout up to 5 s, the probe returns the timeout error after connect
and disconnect, whether or not the member would answer. So a probe with a
timeout up to 5 s never pings and never reports health, the 3 s probes of the
shard bootstrap issue no ping, and a probe that pings or reports health has a
timeout that exceeds the 5 s of the tick by more than the time the connection
took. -/
theorem probe_pings_from_first_tick (env : Env σ) (host : String) (timeout : Nat)
    (w : World σ) (members : List String) :
    (∀ e, (dbConnect env ("mongodb://" ++ host) false w).1.1 = some e →
      (waitForReplicaSetHealthy env host timeout w).1 = .err (wrapErr "connection failed: " e) ∧
      callsSince w (waitForReplicaSetHealthy env host timeout w).2
        = [Call.connect ("mongodb://" ++ host) false]) ∧
    ((dbConnect env ("mongodb://" ++ host) false w).1.1 = none →
      timeout ≤ (dbConnect env ("mongodb://" ++ host) false w).1.2 + 5000 →
      (waitForReplicaSetHealthy env host timeout w).1
        = .err (newErr "timeout waiting for MongoDB to be reachable") ∧
      callsSince w (waitForReplicaSetHealthy env host timeout w).2
        = [Call.connect ("mongodb://" ++ host) false,
            Call.disconnect ("mongodb://" ++ host)]) ∧
    (timeout ≤ 5000 →
      (waitForReplicaSetHealthy env host timeout w).1 ≠ .ok () ∧
      ∀ c ∈ callsSince w (waitForReplicaSetHealthy env host timeout w).2,
        c ≠ Call.ping ("mongodb://" ++ host)) ∧
    ((waitForReplicaSetHealthy env host timeout w).1 = .ok () ∨
        Call.ping ("mongodb://" ++ host)
          ∈ callsSince w (waitForReplicaSetHealthy env host timeout w).2 →
      (dbConnect env ("mongodb://" ++ host) false w).1.1 = none ∧
      (dbConnect env ("mongodb://" ++ host) false w).1.2 + 5000 < timeout ∧
      5000 < timeout) ∧
    (∀ c ∈ callsSince w (probeMembers env members w).2, ∀ uri, c ≠ Call.ping uri) := by
  have hA : ∀ e, (dbConnect env ("mongodb://" ++ host) false w).1.1 = some e →
      (waitForReplicaSetHealthy env host timeout w).1 = .err (wrapErr "connection failed: " e) ∧
      callsSince w (waitForReplicaSetHealthy env host timeout w).2
        = [Call.connect ("mongodb://" ++ host) false] := by
    intro e hc
    obtain ⟨h1, h2⟩ := probe_connection_failed env host timeout w e hc
    exact ⟨h1, callsSince_of_trace _ _ _ h2⟩
  have hB : (dbConnect env ("mongodb://" ++ host) false w).1.1 = none →
      timeout ≤ (dbConnect env ("mongodb://" ++ host) false w).1.2 + 5000 →
      (waitForReplicaSetHealthy env host timeout w).1
        = .err (newErr "timeout waiting for MongoDB to be reachable") ∧
      callsSince w (waitForReplicaSetHealthy env host timeout w).2
        = [Call.connect ("mongodb://" ++ host) false,
            Call.disconnect ("mongodb://" ++ host)] := by
    intro hc ht
    obtain ⟨h1, h2⟩ := probe_before_first_tick env host timeout w hc ht
    exact ⟨h1, callsSince_of_trace _ _ _ h2⟩
  have hno : ((dbConnect env ("mongodb://" ++ host) false w).1.1 = none ∧
      (dbConnect env ("mongodb://" ++ host) false w).1.2 + 5000 < timeout) ∨
      ((waitForReplicaSetHealthy env host timeout w).1 ≠ .ok () ∧
        ∀ c ∈ callsSince w (waitForReplicaSetHealthy env host timeout w).2,
          c ≠ Call.ping ("mongodb://" ++ host)) := by
    cases hc : (dbConnect env ("mongodb://" ++ host) false w).1.1 with
    | some e =>
      right
      obtain ⟨h1, h2⟩ := hA e hc
      rw [h1, h2]
      refine ⟨by simp, ?_⟩
      intro c hcm
      simp only [List.mem_singleton] at hcm
      rw [hcm]
      simp
    | none =>
      by_cases ht : (dbConnect env ("mongodb://" ++ host) false w).1.2 + 5000 < timeout
      · exact Or.inl ⟨rfl, ht⟩
      · right
        obtain ⟨h1, h2⟩ := hB hc (by omega)
        rw [h1, h2]
        refine ⟨by simp, ?_⟩
        intro c hcm
        simp only [List.mem_cons, List.mem_singleton, List.not_mem_nil, or_false] at hcm
        rcases hcm with h | h <;> rw [h] <;> simp
  refine ⟨hA, hB, ?_, ?_, ?_⟩
  · intro ht
    rcases hno with ⟨_, h⟩ | h
    · omega
    · exact h
  · intro h
    rcases hno with h2 | ⟨hne, hping⟩
    · exact ⟨h2.1, h2.2, by omega⟩
    · rcases h with h | h
      · exact absurd h hne
      · exact absurd rfl (hping _ h)
  · obtain ⟨evs, ht, hall⟩ := probeMembers_calls env members w
    rw [callsSince_of_trace _ _ _ ht]
    intro c hc uri
    rcases hall c hc with ⟨u, h⟩ | ⟨u, h⟩ <;> rw [h] <;> simp

theorem probe_pings_from_first_tick_witness :
    ((waitForReplicaSetHealthy sampleEnv "h0" 3000 sampleWorld).1
        = Res.err (newErr "timeout waiting for MongoDB to be reachable") ∧
      callsSince sampleWorld (waitForReplicaSetHealthy sampleEnv "h0" 3000 sampleWorld).2
        = [Call.connect "mongodb://h0" false, Call.disconnect "mongodb://h0"]) ∧
    (waitForReplicaSetHealthy sampleEnv "h0" 6000 sampleWorld).1 = Res.ok () ∧
    callsSince sampleWorld (waitForReplicaSetHealthy sampleEnv "h0" 6000 sampleWorld).2
      = [Call.connect "mongodb://h0" false, Call.ping "mongodb://h0",
          Call.disconnect "mongodb://h0"] ∧
    ((dbConnect sampleEnv "mongodb://h0" false sampleWorld).1.1 = none ∧
      (dbConnect sampleEnv "mongodb://h0" false sampleWorld).1.2 + 5000 < 6000 ∧
      5000 < 6000) :=
  ⟨(probe_pings_from_first_tick sampleEnv "h0" 3000 sampleWorld []).2.1 rfl (by decide),
    by decide, rfl,
    (probe_pings_from_first_tick sampleEnv "h0" 6000 sampleWorld []).2.2.2.1
      (Or.inl (by decide))⟩

/-- C24, counterexample. A 3 s probe of a member whose connection fails returns
the connection error, after the one call, and not the timeout error. -/
theorem probe_returns_connection_error :
    (waitForReplicaSetHealthy downEnv "h0" 3000 sampleWorld).1
      = Res.err (newErr "connection failed: server selection error") ∧
    (waitForReplicaSetHealthy downEnv "h0" 3000 sampleWorld).1
      ≠ Res.err (newErr "timeout waiting for MongoDB to be reachable") ∧
    callsSince sampleWorld (waitForReplicaSetHealthy downEnv "h0" 3000 sampleWorld).2
      = [Call.connect "mongodb://h0" false] :=
  ⟨by decide, by decide, rfl⟩

/-! ## No pass gets past the config-server bootstrap (C1) -/

/-- The config-server bootstrap never succeeds: with a positive count it returns
the result of a 5 s probe, whose deadline does not come after the first tick,
and without one it has no member to select. -/
theorem reconcileConfigServerReplicaSet_err (env : Env σ) (mongo : MongoDBCluster)
    (w : World σ) : ∃ e, (reconcileConfigServerReplicaSet env mongo w).1 = .err e := by
  unfold reconcileConfigServerReplicaSet
  by_cases hc : 0 < mongo.Spec.ConfigServerCount
  · rw [if_pos hc]
    cases hcon : (dbConnect env ("mongodb://" ++ configServerHost mongo 0) false w).1.1 with
    | some e => exact ⟨_, (probe_connection_failed env _ 5000 w e hcon).1⟩
    | none => exact ⟨_, (probe_before_first_tick env _ 5000 w hcon (by omega)).1⟩
  · rw [if_neg hc]
    exact ⟨_, rfl⟩

theorem stepOrder_split (mongo : MongoDBCluster) :
    stepOrder mongo = (resourceSteps mongo ++ [StepName.configServerReplication]) ++
      ((List.range mongo.Spec.ReplicaSetCount.toNat).map StepName.shardReplication ++
        (List.range mongo.Spec.ReplicaSetCount.toNat).map StepName.shardSharding ++
        [StepName.backupJob, StepName.statusWrite]) := by
  simp [stepOrder, resourceSteps]

theorem statusWrite_not_mem_resourceSteps (mongo : MongoDBCluster) :
    StepName.statusWrite ∉ resourceSteps mongo ++ [StepName.configServerReplication] := by
  simp [resourceSteps]

theorem resourceSteps_nodup (mongo : MongoDBCluster) :
    (resourceSteps mongo ++ [StepName.configServerReplication]).Nodup := by
  have h := stepOrder_nodup mongo
  rw [stepOrder_split] at h
  exact (List.nodup_append.mp h).1

/-- A run of steps that ends with the config-server bootstrap does not succeed. -/
theorem runSteps_bootstrap_not_ok (env : Env σ) (mongo : MongoDBCluster) (l : List StepName)
    (w : World σ) :
    (runSteps env mongo (l ++ [StepName.configServerReplication]) w).1 ≠ .ok () := by
  rw [runSteps_append]
  unfold andThen
  rcases h : runSteps env mongo l w with ⟨r, w1⟩
  cases r with
  | ok v =>
    simp only
    rw [runSteps_singleton]
    obtain ⟨e, he⟩ := reconcileConfigServerReplicaSet_err env mongo w1
    show (reconcileConfigServerReplicaSet env mongo w1).1 ≠ _
    rw [he]
    simp
  | err e => simp
  | panic m => simp
  | hang => simp

/-- A pass runs the steps that manage workloads and endpoints and then the
config-server bootstrap, and no step after it. -/
theorem runSteps_stepOrder (env : Env σ) (mongo : MongoDBCluster) (w : World σ) :
    runSteps env mongo (stepOrder mongo) w
      = runSteps env mongo (resourceSteps mongo ++ [StepName.configServerReplication]) w := by
  rw [stepOrder_split, runSteps_append]
  have h := runSteps_bootstrap_not_ok env mongo (resourceSteps mongo) w
  unfold andThen
  rcases hr : runSteps env mongo (resourceSteps mongo ++ [StepName.configServerReplication]) w
    with ⟨r, w1⟩
  rw [hr] at h
  cases r with
  | ok v => exact absurd rfl h
  | err e => rfl
  | panic m => rfl
  | hang => rfl

theorem Reconcile_loaded (env : Env σ) (req : Request) (w : World σ) (mongo : MongoDBCluster)
    (hload : (env.getCluster req.Namespace req.Name w.st).1 = .ok mongo) :
    Reconcile env req w =
      runSteps env mongo (resourceSteps mongo ++ [StepName.configServerReplication])
        (apiGetCluster env req.Namespace req.Name w).2 := by
  rw [Reconcile_of_loaded env req w mongo hload, runSteps_stepOrder]

theorem Reconcile_not_loaded (env : Env σ) (req : Request) (w : World σ) (e : Error)
    (hload : (env.getCluster req.Namespace req.Name w.st).1 = .error e) :
    Reconcile env req w =
      (Res.ofErr (IgnoreNotFound e), (apiGetCluster env req.Namespace req.Name w).2) := by
  simp only [Reconcile, apiGetCluster, hload]

/-- No pass issues a status update. -/
theorem pass_no_status (env : Env σ) (req : Request) (w : World σ) :
    (passCalls env req w).filter Call.isStatusUpdate = [] := by
  unfold passCalls
  have h0 : (apiGetCluster env req.Namespace req.Name w).2.trace
      = w.trace ++ [Call.getCluster req.Namespace req.Name] := rfl
  cases hload : (env.getCluster req.Namespace req.Name w.st).1 with
  | error e =>
    rw [Reconcile_not_loaded env req w e hload]
    simp only
    rw [h0, List.drop_left' rfl]
    rfl
  | ok mongo =>
    rw [Reconcile_loaded env req w mongo hload]
    obtain ⟨evs, he, hf⟩ := filter_status_of_extends _ _
      (runSteps_noStatus env mongo _ (statusWrite_not_mem_resourceSteps mongo)
        (apiGetCluster env req.Namespace req.Name w).2)
    rw [he, h0, List.append_assoc, List.drop_left' rfl]
    simp [List.filter_append, hf, Call.isStatusUpdate]

/-- A pass returns success exactly when the cluster object is not found. -/
theorem Reconcile_ok_iff (env : Env σ) (req : Request) (w : World σ) :
    (Reconcile env req w).1 = .ok () ↔
      ∃ e, (env.getCluster req.Namespace req.Name w.st).1 = .error e ∧ IsNotFound e = true := by
  cases hload : (env.getCluster req.Namespace req.Name w.st).1 with
  | error e =>
    rw [Reconcile_not_loaded env req w e hload]
    simp only [IgnoreNotFound]
    constructor
    · intro h
      refine ⟨e, rfl, ?_⟩
      by_contra hn
      simp [hn, Res.ofErr] at h
    · rintro ⟨e1, he1, hnf⟩
      cases he1
      simp [hnf, Res.ofErr]
  | ok mongo =>
    rw [Reconcile_loaded env req w mongo hload]
    constructor
    · intro h
      exact absurd h (runSteps_bootstrap_not_ok env mongo _ _)
    · rintro ⟨e1, he1, _⟩
      cases he1

/-- C1. No pass writes a status. For every environment the config-server bootstrap
returns an error, so a pass over a loaded cluster object takes the steps that
manage workloads and endpoints and the config-server bootstrap and nothing
after it: it issues no status update, and `Reconcile` returns success exactly
when the cluster object is not found. The pass over the sample cluster, on an
empty platform and against members that accept every connection and answer
every ping and command at once, returns the timeout error of the probe and
leaves the stored status empty. The statements that assign and write the
status, taken by themselves, issue one status update with phase `Running`,
the summary `T/T` with `T` the decimal rendering of the product of shard count
and replica-set size (computed in 64 bits, so the exact product whenever that
fits), and the version of the spec, whatever the previous status was. -/
theorem reconcile_never_writes_status :
    (∀ (σ : Type) (env : Env σ) (req : Request) (w : World σ),
      (passCalls env req w).filter Call.isStatusUpdate = []) ∧
    (∀ (σ : Type) (env : Env σ) (req : Request) (w : World σ),
      (Reconcile env req w).1 = .ok () ↔
        ∃ e, (env.getCluster req.Namespace req.Name w.st).1 = .error e ∧ IsNotFound e = true) ∧
    (∀ (σ : Type) (env : Env σ) (mongo : MongoDBCluster) (w : World σ),
      ∃ e, (reconcileConfigServerReplicaSet env mongo w).1 = .err e) ∧
    (∀ (σ : Type) (env : Env σ) (mongo : MongoDBCluster) (w : World σ),
      reconcileLoaded env mongo w
        = runSteps env mongo (resourceSteps mongo ++ [StepName.configServerReplication]) w) ∧
    (Reconcile sampleEnv sampleRequest sampleWorld).1
      = Res.err (newErr "timeout waiting for MongoDB to be reachable") ∧
    (afterPass sampleEnv sampleRequest sampleWorld).st.1.clusters = [sampleCluster] ∧
    sampleCluster.Status.Phase = "" ∧
    (∀ (σ : Type) (env : Env σ) (mongo : MongoDBCluster) (w : World σ),
      callsSince w (updateStatus env mongo w).2 = [Call.statusUpdate (withRunningStatus mongo)]) ∧
    (∀ mongo : MongoDBCluster,
      (withRunningStatus mongo).Status.Phase = "Running" ∧
      (withRunningStatus mongo).Status.ReplicaSummary =
        itoa (wrap64 (mongo.Spec.ReplicaSetCount * mongo.Spec.ReplicaSetSize)) ++ "/" ++
        itoa (wrap64 (mongo.Spec.ReplicaSetCount * mongo.Spec.ReplicaSetSize)) ∧
      (mongo.Spec.ReplicaSetCount * mongo.Spec.ReplicaSetSize < -9223372036854775808 ∨
       9223372036854775808 ≤ mongo.Spec.ReplicaSetCount * mongo.Spec.ReplicaSetSize ∨
       (withRunningStatus mongo).Status.ReplicaSummary =
        itoa (mongo.Spec.ReplicaSetCount * mongo.Spec.ReplicaSetSize) ++ "/" ++
        itoa (mongo.Spec.ReplicaSetCount * mongo.Spec.ReplicaSetSize)) ∧
      (withRunningStatus mongo).Status.CurrentVersion = mongo.Spec.Version ∧
      (withRunningStatus mongo).Spec = mongo.Spec ∧
      ∀ previous : MongoDBClusterStatus,
        (withRunningStatus { mongo with Status := previous }).Status.Phase
          = (withRunningStatus mongo).Status.Phase ∧
        (withRunningStatus { mongo with Status := previous }).Status.ReplicaSummary
          = (withRunningStatus mongo).Status.ReplicaSummary ∧
        (withRunningStatus { mongo with Status := previous }).Status.CurrentVersion
          = (withRunningStatus mongo).Status.CurrentVersion) ∧
    (withRunningStatus sampleCluster).Status.ReplicaSummary = "6/6" := by
  refine ⟨fun _ env req w => pass_no_status env req w,
    fun _ env req w => Reconcile_ok_iff env req w,
    fun _ env mongo w => reconcileConfigServerReplicaSet_err env mongo w,
    fun _ env mongo w => ?_, by decide, by decide, rfl, fun _ env mongo w => ?_,
    fun mongo => ⟨rfl, rfl, ?_, rfl, rfl, fun _ => ⟨rfl, rfl, rfl⟩⟩, by decide⟩
  · rw [reconcileLoaded_eq_runSteps, runSteps_stepOrder]
  · exact callsSince_of_trace _ _ _ rfl
  · by_cases h1 : mongo.Spec.ReplicaSetCount * mongo.Spec.ReplicaSetSize < -9223372036854775808
    · exact Or.inl h1
    · by_cases h2 : 9223372036854775808 ≤ mongo.Spec.ReplicaSetCount * mongo.Spec.ReplicaSetSize
      · exact Or.inr (Or.inl h2)
      · right; right
        have := wrap64_of_inRange _ (not_lt.mp h1) (not_le.mp h2)
        simp only [withRunningStatus, this]

/-! ## Convergence from an empty platform (C3) -/

/-- The resources of the steps before the config-server bootstrap, when the
storage size parses to `q`. -/
theorem filterMap_resourceSteps (pq : String → Option String) (mongo : MongoDBCluster)
    (q : String) (hq : pq mongo.Spec.StorageSize = some q) :
    (resourceSteps mongo).filterMap (stepObject pq mongo) =
    ([Object.statefulSet (configServerStatefulSet q mongo)] ++
      (List.range mongo.Spec.ReplicaSetCount.toNat).flatMap (fun i =>
        [Object.service (shardService mongo (Int.ofNat i)),
         Object.statefulSet (shardStatefulSet q mongo (Int.ofNat i))]) ++
      [Object.deployment (mongosDeployment mongo), Object.service (configSvrService mongo),
       Object.service (mongosService mongo)]).map (withOwner memGVK mongo) := by
  have h1 : ∀ l : List Nat, (l.flatMap
      (fun i => [StepName.shardNetwork i, StepName.shardWorkload i])).filterMap
        (stepObject pq mongo) = (l.flatMap (fun i =>
        [Object.service (shardService mongo (Int.ofNat i)),
         Object.statefulSet (shardStatefulSet q mongo (Int.ofNat i))])).map
          (withOwner memGVK mongo) := by
    intro l
    induction l with
    | nil => rfl
    | cons a t ih =>
      simp only [List.flatMap_cons, List.filterMap_append, List.map_append, ih]
      simp [stepObject, hq]
  unfold resourceSteps
  simp only [List.filterMap_append, List.map_append, h1]
  simp [stepObject, hq]

/-- When the storage size parses, every step before the config-server bootstrap
manages a resource. -/
theorem stepObject_resourceSteps (pq : String → Option String) (mongo : MongoDBCluster)
    (q : String) (hq : pq mongo.Spec.StorageSize = some q) :
    ∀ s ∈ resourceSteps mongo, ∃ obj, stepObject pq mongo s = some obj := by
  intro s hs
  simp only [resourceSteps, List.mem_append, List.mem_singleton, List.mem_flatMap, List.mem_cons,
    List.mem_range, List.not_mem_nil, or_false] at hs
  rcases hs with (hs | ⟨i, _, hs | hs⟩) | hs | hs | hs <;> subst hs <;> simp [stepObject, hq]

/-- On the in-memory platform a run of steps that all manage a resource
succeeds. -/
theorem mem_runSteps_ok (drv : Driver δ) (pq : String → Option String) (mongo : MongoDBCluster) :
    ∀ (l : List StepName), StepName.statusWrite ∉ l →
      (∀ s ∈ l, ∃ obj, stepObject pq mongo s = some obj) →
      ∀ w : World (Store × δ), (runSteps (memEnv drv pq) mongo l w).1 = .ok () := by
  intro l
  induction l with
  | nil => intro _ _ w; rfl
  | cons s rest ih =>
    intro hl hall w
    have hs : s ≠ StepName.statusWrite := fun h => hl (by simp [h])
    have hrest : StepName.statusWrite ∉ rest := fun h => hl (by simp [h])
    have hstep : (runStep (memEnv drv pq) mongo s w).1 = .ok () := by
      rcases mem_runStep drv pq mongo s hs w with ⟨obj, _, hok, _⟩ | ⟨hn, _⟩
      · exact hok
      · obtain ⟨obj, ho⟩ := hall s (by simp)
        rw [ho] at hn
        cases hn
    rw [runSteps_cons_ok _ _ _ _ _ hstep]
    exact ih hrest (fun s1 hs1 => hall s1 (by simp [hs1])) _

/-- A run of steps followed by one more step, when the run succeeds. -/
theorem runSteps_snoc (env : Env σ) (mongo : MongoDBCluster) (l : List StepName) (s : StepName)
    (w : World σ) (hl : (runSteps env mongo l w).1 = .ok ()) :
    (runSteps env mongo (l ++ [s]) w).1 = (runStep env mongo s (runSteps env mongo l w).2).1 ∧
    (runSteps env mongo (l ++ [s]) w).2 = (runStep env mongo s (runSteps env mongo l w).2).2 := by
  rw [runSteps_split _ _ _ _ _ _ hl]
  rcases runStep env mongo s (runSteps env mongo l w).2 with ⟨r, w1⟩
  cases r <;> exact ⟨rfl, rfl⟩

theorem mem_resourceSteps_ok (drv : Driver δ) (pq : String → Option String)
    (mongo : MongoDBCluster) (q : String) (hq : pq mongo.Spec.StorageSize = some q)
    (w : World (Store × δ)) :
    (runSteps (memEnv drv pq) mongo (resourceSteps mongo) w).1 = .ok () :=
  mem_runSteps_ok drv pq mongo _
    (fun h => statusWrite_not_mem_resourceSteps mongo (List.mem_append_left _ h))
    (stepObject_resourceSteps pq mongo q hq) w

/-- The world a pass leaves on the in-memory platform, when the storage size
parses: the one the config-server bootstrap leaves after the steps that manage
workloads and endpoints. -/
theorem mem_afterPass (drv : Driver δ) (pq : String → Option String) (req : Request)
    (w : World (Store × δ)) (mongo : MongoDBCluster) (q : String)
    (hload : ((memEnv drv pq).getCluster req.Namespace req.Name w.st).1 = .ok mongo)
    (hq : pq mongo.Spec.StorageSize = some q) :
    afterPass (memEnv drv pq) req w =
      (reconcileConfigServerReplicaSet (memEnv drv pq) mongo
        (runSteps (memEnv drv pq) mongo (resourceSteps mongo)
          (apiGetCluster (memEnv drv pq) req.Namespace req.Name w).2).2).2 := by
  unfold afterPass
  rw [Reconcile_loaded _ req w mongo hload]
  exact (runSteps_snoc _ mongo _ _ _ (mem_resourceSteps_ok drv pq mongo q hq _)).2

theorem getCluster_congr (s1 s2 : Store) (h : s1.clusters = s2.clusters) (ns name : String) :
    s1.getCluster ns name = s2.getCluster ns name := by
  unfold Store.getCluster
  rw [h]

/-- A pass on the in-memory platform leaves the stored cluster objects as they
were and removes no key. -/
theorem mem_pass_keeps (drv : Driver δ) (pq : String → Option String) (req : Request)
    (w : World (Store × δ)) :
    (afterPass (memEnv drv pq) req w).st.1.clusters = w.st.1.clusters ∧
    ∀ key, w.st.1.has key → (afterPass (memEnv drv pq) req w).st.1.has key := by
  unfold afterPass
  cases hload : ((memEnv drv pq).getCluster req.Namespace req.Name w.st).1 with
  | error e =>
    rw [Reconcile_not_loaded _ req w e hload]
    exact ⟨rfl, fun _ h => h⟩
  | ok mongo =>
    rw [Reconcile_loaded _ req w mongo hload]
    exact mem_runSteps_mono drv pq mongo _ (statusWrite_not_mem_resourceSteps mongo) _

/-- The calls of a pass over a loaded cluster object on the in-memory platform,
when the store holds the resource of every step that manages one: no create
and no status update, and every update carries the resource of a step under
the version token the store held for it. -/
theorem mem_pass_no_create (drv : Driver δ) (pq : String → Option String) (req : Request)
    (w : World (Store × δ)) (mongo : MongoDBCluster)
    (hload : ((memEnv drv pq).getCluster req.Namespace req.Name w.st).1 = .ok mongo)
    (hall : ∀ s ∈ resourceSteps mongo, ∀ obj, stepObject pq mongo s = some obj →
      w.st.1.has obj.key) :
    createdObjects (passCalls (memEnv drv pq) req w) = [] ∧
    ∀ o ∈ updatedObjects (passCalls (memEnv drv pq) req w),
      ∃ s ∈ resourceSteps mongo, ∃ obj, stepObject pq mongo s = some obj ∧
        o = obj.setResourceVersion (w.st.1.versionOf obj) := by
  have hall2 : ∀ s ∈ resourceSteps mongo ++ [StepName.configServerReplication], ∀ obj,
      stepObject pq mongo s = some obj →
      (apiGetCluster (memEnv drv pq) req.Namespace req.Name w).2.st.1.has obj.key := by
    intro s hs obj ho
    rcases List.mem_append.mp hs with h | h
    · exact hall s h obj ho
    · simp only [List.mem_singleton] at h
      subst h
      simp [stepObject] at ho
  obtain ⟨evs, ht, hc, hu⟩ := mem_runSteps_no_create drv pq mongo _
    (statusWrite_not_mem_resourceSteps mongo)
    (stepKeys_nodup pq mongo _ (resourceSteps_nodup mongo)) _ hall2
  have hcalls : passCalls (memEnv drv pq) req w
      = Call.getCluster req.Namespace req.Name :: evs := by
    unfold passCalls
    rw [Reconcile_loaded _ req w mongo hload, ht]
    have h0 : (apiGetCluster (memEnv drv pq) req.Namespace req.Name w).2.trace
        = w.trace ++ [Call.getCluster req.Namespace req.Name] := rfl
    rw [h0, List.append_assoc, List.drop_left' rfl]
    rfl
  rw [hcalls]
  constructor
  · apply created_of_isCreate_false
    intro c hcm
    rcases List.mem_cons.mp hcm with h | h
    · subst h; rfl
    · exact (hc c h).1
  · intro o ho
    obtain ⟨c, hcm, hcu⟩ := List.mem_filterMap.mp ho
    rcases List.mem_cons.mp hcm with h | h
    · subst h
      simp [Call.updated] at hcu
    · cases c <;> simp [Call.updated] at hcu
      subst hcu
      obtain ⟨s, hs, obj, hobj, he⟩ := hu _ h rfl
      rcases List.mem_append.mp hs with hs1 | hs1
      · refine ⟨s, hs1, obj, hobj, ?_⟩
        injection he
      · simp only [List.mem_singleton] at hs1
        subst hs1
        simp [stepObject] at hobj

/-- A pass over a cluster object whose storage size does not parse ends in the
first step, without a create or an update, and leaves the store as it was. -/
theorem mem_pass_unparsed (drv : Driver δ) (pq : String → Option String) (req : Request)
    (w : World (Store × δ)) (mongo : MongoDBCluster)
    (hload : ((memEnv drv pq).getCluster req.Namespace req.Name w.st).1 = .ok mongo)
    (hq : pq mongo.Spec.StorageSize = none) :
    Reconcile (memEnv drv pq) req w =
      (.panic "cannot parse quantity", (apiGetCluster (memEnv drv pq) req.Namespace req.Name w).2)
    := by
  have hp : (memEnv drv pq).parseQuantity = pq := rfl
  have hstep : ∀ w0 : World (Store × δ),
      runStep (memEnv drv pq) mongo StepName.configServerWorkload w0
        = (.panic "cannot parse quantity", w0) := by
    intro w0
    simp [runStep, buildConfigServerStatefulSet, hp, hq]
  rw [Reconcile_loaded _ req w mongo hload]
  unfold resourceSteps
  simp only [List.singleton_append, List.cons_append]
  rw [runSteps_cons_not_ok _ _ _ _ _ (by rw [hstep]; simp), hstep]

/-- C3, amended. On the in-memory platform, a pass over a loaded cluster object
whose storage size parses, started from a store that holds none of the
workloads and endpoints, creates exactly these resources, in this order, each
owned by the cluster object, and updates none: the config-server workload; for
every index below the shard count the shard endpoint and the shard workload of
that index; the router workload; the config-server endpoint; the router
endpoint. So it creates one config-server workload and one shard workload per
index (stateful sets), one router workload (deployment), and one shard
endpoint per index, one config-server endpoint and one router endpoint
(services). The workloads carry the replica counts of the spec converted to
32 bits (the counts themselves when they fit), and shard workloads and shard
endpoints of different indices have different names. -/
theorem first_pass_creates_resources (drv : Driver δ) (pq : String → Option String)
    (req : Request) (w : World (Store × δ)) (mongo : MongoDBCluster) (q : String)
    (hload : ((memEnv drv pq).getCluster req.Namespace req.Name w.st).1 = .ok mongo)
    (hq : pq mongo.Spec.StorageSize = some q)
    (hfresh : ∀ s ∈ resourceSteps mongo, ∀ k, stepKey mongo s = some k → ¬ w.st.1.has k) :
    createdObjects (passCalls (memEnv drv pq) req w) =
      ([Object.statefulSet (configServerStatefulSet q mongo)] ++
        (List.range mongo.Spec.ReplicaSetCount.toNat).flatMap (fun i =>
          [Object.service (shardService mongo (Int.ofNat i)),
           Object.statefulSet (shardStatefulSet q mongo (Int.ofNat i))]) ++
        [Object.deployment (mongosDeployment mongo), Object.service (configSvrService mongo),
         Object.service (mongosService mongo)]).map (withOwner memGVK mongo) ∧
    updatedObjects (passCalls (memEnv drv pq) req w) = [] ∧
    countKind Kind.StatefulSet (createdObjects (passCalls (memEnv drv pq) req w))
      = 1 + mongo.Spec.ReplicaSetCount.toNat ∧
    countKind Kind.Deployment (createdObjects (passCalls (memEnv drv pq) req w)) = 1 ∧
    countKind Kind.Service (createdObjects (passCalls (memEnv drv pq) req w))
      = mongo.Spec.ReplicaSetCount.toNat + 2 ∧
    (0 ≤ mongo.Spec.ReplicaSetCount →
      (mongo.Spec.ReplicaSetCount.toNat : Int) = mongo.Spec.ReplicaSetCount) ∧
    (configServerStatefulSet q mongo).Replicas = toInt32 mongo.Spec.ConfigServerCount ∧
    (mongosDeployment mongo).Replicas = toInt32 mongo.Spec.MongosCount ∧
    (∀ i, (shardStatefulSet q mongo i).Replicas = toInt32 mongo.Spec.ReplicaSetSize) ∧
    (∀ x : Int, -2147483648 ≤ x → x < 2147483648 → toInt32 x = x) ∧
    (∀ i j : Nat, i ≠ j →
      (shardStatefulSet q mongo (Int.ofNat i)).ObjectMeta.Name ≠
        (shardStatefulSet q mongo (Int.ofNat j)).ObjectMeta.Name ∧
      (shardService mongo (Int.ofNat i)).ObjectMeta.Name ≠
        (shardService mongo (Int.ofNat j)).ObjectMeta.Name) := by
  have hni : StepName.statusWrite ∉ resourceSteps mongo :=
    fun h => statusWrite_not_mem_resourceSteps mongo (List.mem_append_left _ h)
  have hnd : (resourceSteps mongo).Nodup := (List.nodup_append.mp (resourceSteps_nodup mongo)).1
  have hpre := mem_resourceSteps_ok drv pq mongo q hq
    (apiGetCluster (memEnv drv pq) req.Namespace req.Name w).2
  have hfresh2 : ∀ s ∈ resourceSteps mongo, ∀ obj, stepObject pq mongo s = some obj →
      ¬ (apiGetCluster (memEnv drv pq) req.Namespace req.Name w).2.st.1.has obj.key := by
    intro s hs obj hobj
    exact hfresh s hs obj.key (stepKey_of_stepObject pq mongo s obj hobj)
  obtain ⟨evs, ht, hc, hu, _⟩ := mem_runSteps_creates drv pq mongo (resourceSteps mongo) hni
    (stepKeys_nodup pq mongo _ hnd) _ hfresh2 hpre
  obtain ⟨_, e2, t2, p2⟩ := reconcileConfigServerReplicaSet_rel Quiet.isPreorder
    (Quiet.framesDb drv pq) mongo
    (runSteps (memEnv drv pq) mongo (resourceSteps mongo)
      (apiGetCluster (memEnv drv pq) req.Namespace req.Name w).2).2
  have hcalls : passCalls (memEnv drv pq) req w
      = Call.getCluster req.Namespace req.Name :: (evs ++ e2) := by
    have ha := mem_afterPass drv pq req w mongo q hload hq
    unfold afterPass at ha
    unfold passCalls
    rw [ha, t2, ht]
    have h0 : (apiGetCluster (memEnv drv pq) req.Namespace req.Name w).2.trace
        = w.trace ++ [Call.getCluster req.Namespace req.Name] := rfl
    rw [h0, List.append_assoc, List.append_assoc, List.drop_left' rfl]
    rfl
  have hcreated : createdObjects (passCalls (memEnv drv pq) req w) =
      ([Object.statefulSet (configServerStatefulSet q mongo)] ++
        (List.range mongo.Spec.ReplicaSetCount.toNat).flatMap (fun i =>
          [Object.service (shardService mongo (Int.ofNat i)),
           Object.statefulSet (shardStatefulSet q mongo (Int.ofNat i))]) ++
        [Object.deployment (mongosDeployment mongo), Object.service (configSvrService mongo),
         Object.service (mongosService mongo)]).map (withOwner memGVK mongo) := by
    rw [hcalls]
    have : createdObjects (Call.getCluster req.Namespace req.Name :: (evs ++ e2))
        = createdObjects evs := by
      have h2 := created_of_isCreate_false e2 (fun c hc => (p2 c hc).1)
      have h3 : createdObjects (Call.getCluster req.Namespace req.Name :: (evs ++ e2))
          = createdObjects (evs ++ e2) := by
        simp [createdObjects, List.filterMap_cons, Call.created]
      rw [h3, createdObjects_append, h2, List.append_nil]
    rw [this, hc]
    exact filterMap_resourceSteps pq mongo q hq
  have hcount : ∀ k : Kind, countKind k (createdObjects (passCalls (memEnv drv pq) req w)) =
      (if k = Kind.StatefulSet then 1 else 0) +
      mongo.Spec.ReplicaSetCount.toNat *
        ((if k = Kind.Service then 1 else 0) + (if k = Kind.StatefulSet then 1 else 0)) +
      ((if k = Kind.Deployment then 1 else 0) + (if k = Kind.Service then 1 else 0) +
        (if k = Kind.Service then 1 else 0)) := by
    intro k
    rw [hcreated]
    unfold countKind
    rw [List.countP_map]
    have hfun : ((fun o => decide (o.kind = k)) ∘ withOwner memGVK mongo)
        = (fun o => decide (o.kind = k)) := by
      funext o
      simp [kind_withOwner]
    rw [hfun, List.countP_append, List.countP_append,
      countP_flatMap_const _ _ ((if k = Kind.Service then 1 else 0) +
        (if k = Kind.StatefulSet then 1 else 0)) (fun a => by
          cases k <;> simp [List.countP_cons, Object.kind]), List.length_range]
    cases k <;> simp [List.countP_cons, Object.kind]
  refine ⟨hcreated, ?_, ?_, ?_, ?_, ?_, rfl, rfl, fun _ => rfl, toInt32_of_inRange, ?_⟩
  · rw [hcalls]
    have h2 := updated_of_isUpdate_false e2 (fun c hc => (p2 c hc).2.1)
    have h3 : updatedObjects (Call.getCluster req.Namespace req.Name :: (evs ++ e2))
        = updatedObjects (evs ++ e2) := by
      simp [updatedObjects, List.filterMap_cons, Call.updated]
    rw [h3, updatedObjects_append, h2, hu]
    rfl
  · rw [hcount]; simp
  · rw [hcount]; simp
  · rw [hcount]; simp
  · intro h
    exact Int.toNat_of_nonneg h
  · intro i j hij
    constructor
    · intro h
      exact hij (repr_injective _ _ (str_append_left_cancel _ _ _ h))
    · intro h
      exact hij (shardName_inj _ _ _ _ h).2

theorem first_pass_creates_resources_witness :
    updatedObjects (passCalls sampleEnv sampleRequest sampleWorld) = [] ∧
    countKind Kind.StatefulSet (createdObjects (passCalls sampleEnv sampleRequest sampleWorld))
      = 3 ∧
    countKind Kind.Deployment (createdObjects (passCalls sampleEnv sampleRequest sampleWorld))
      = 1 ∧
    countKind Kind.Service (createdObjects (passCalls sampleEnv sampleRequest sampleWorld))
      = 4 ∧
    (createdObjects (passCalls sampleEnv sampleRequest sampleWorld)).map
        (fun o => (o.kind, o.meta.Name, o.replicas)) =
      [(Kind.StatefulSet, "config", some 3),
       (Kind.Service, "demo-shard0", none), (Kind.StatefulSet, "mongo-shard0", some 3),
       (Kind.Service, "demo-shard1", none), (Kind.StatefulSet, "mongo-shard1", some 3),
       (Kind.Deployment, "mongos", some 1),
       (Kind.Service, "demo-configsvr", none), (Kind.Service, "demo-mongos", none)] := by
  obtain ⟨hc, hu, h1, h2, h3, _⟩ :=
    first_pass_creates_resources healthyDriver acceptNonEmpty sampleRequest sampleWorld
      sampleCluster "1Gi" rfl rfl
      (fun _ _ _ _ h => by obtain ⟨x, hx, _⟩ := h; cases hx)
  refine ⟨hu, h1, h2, h3, ?_⟩
  show (createdObjects (passCalls (memEnv healthyDriver acceptNonEmpty) sampleRequest
    sampleWorld)).map (fun o => (o.kind, o.meta.Name, o.replicas)) = _
  rw [hc]
  decide

/-- C3, counterexample. A pass over a cluster object whose router count is
4294967297, started from an empty store, creates the router workload with 1
replica. -/
theorem first_pass_truncates_replicas :
    wideWorld.st.1.objs = [] ∧
    wideWorld.st.1.clusters = [wideCluster] ∧
    wideCluster.Spec.MongosCount = 4294967297 ∧
    ((createdObjects (passCalls sampleEnv sampleRequest wideWorld)).filter
        (fun o => decide (o.kind = Kind.Deployment))).map
        (fun o => (o.meta.Name, o.replicas)) = [("mongos", some 1)] := by
  decide

/-! ## Two passes in a row (C5) -/

/-- C5, amended. On the in-memory platform, a second pass right after a pass over
a loaded cluster object (nothing else touches the store) creates nothing;
each of its updates carries the desired resource of one of the steps that
manage workloads and endpoints, as that step builds it from the cluster
object, under the version token that the store holds for that resource; the
second pass issues the same status updates as the first; and the stored
cluster objects, status included, are the same before the first pass, between
the two and after the second. -/
theorem second_pass_creates_nothing (drv : Driver δ) (pq : String → Option String)
    (req : Request) (w : World (Store × δ)) (mongo : MongoDBCluster)
    (hload : ((memEnv drv pq).getCluster req.Namespace req.Name w.st).1 = .ok mongo) :
    createdObjects (passCalls (memEnv drv pq) req (afterPass (memEnv drv pq) req w)) = [] ∧
    (∀ o ∈ updatedObjects (passCalls (memEnv drv pq) req (afterPass (memEnv drv pq) req w)),
      ∃ s ∈ resourceSteps mongo, ∃ obj, stepObject pq mongo s = some obj ∧
        o = obj.setResourceVersion ((afterPass (memEnv drv pq) req w).st.1.versionOf obj)) ∧
    (passCalls (memEnv drv pq) req (afterPass (memEnv drv pq) req w)).filter Call.isStatusUpdate
      = (passCalls (memEnv drv pq) req w).filter Call.isStatusUpdate ∧
    (afterPass (memEnv drv pq) req w).st.1.clusters = w.st.1.clusters ∧
    (afterPass (memEnv drv pq) req (afterPass (memEnv drv pq) req w)).st.1.clusters
      = (afterPass (memEnv drv pq) req w).st.1.clusters := by
  have hkeep := mem_pass_keeps drv pq req w
  have hload2 : ((memEnv drv pq).getCluster req.Namespace req.Name
      (afterPass (memEnv drv pq) req w).st).1 = .ok mongo := by
    have h1 : ((memEnv drv pq).getCluster req.Namespace req.Name
        (afterPass (memEnv drv pq) req w).st).1
        = (afterPass (memEnv drv pq) req w).st.1.getCluster req.Namespace req.Name := rfl
    rw [h1, getCluster_congr _ _ hkeep.1]
    exact hload
  refine ⟨?_, ?_, by rw [pass_no_status, pass_no_status], hkeep.1,
    (mem_pass_keeps drv pq req _).1⟩
  all_goals
    cases hq : pq mongo.Spec.StorageSize with
    | none =>
      have hcalls : passCalls (memEnv drv pq) req (afterPass (memEnv drv pq) req w)
          = [Call.getCluster req.Namespace req.Name] := by
        unfold passCalls
        rw [mem_pass_unparsed drv pq req _ mongo hload2 hq]
        have h0 : (apiGetCluster (memEnv drv pq) req.Namespace req.Name
            (afterPass (memEnv drv pq) req w)).2.trace
            = (afterPass (memEnv drv pq) req w).trace
              ++ [Call.getCluster req.Namespace req.Name] := rfl
        simp only
        rw [h0, List.drop_left' rfl]
      rw [hcalls]
      first
        | rfl
        | (intro o ho; simp [updatedObjects, Call.updated] at ho)
    | some q =>
      have hall : ∀ s ∈ resourceSteps mongo, ∀ obj, stepObject pq mongo s = some obj →
          (afterPass (memEnv drv pq) req w).st.1.has obj.key := by
        intro s hs obj ho
        rw [mem_afterPass drv pq req w mongo q hload hq]
        have hquiet := reconcileConfigServerReplicaSet_rel Quiet.isPreorder
          (Quiet.framesDb drv pq) mongo
          (runSteps (memEnv drv pq) mongo (resourceSteps mongo)
            (apiGetCluster (memEnv drv pq) req.Namespace req.Name w).2).2
        rw [hquiet.store]
        exact mem_runSteps_holds drv pq mongo (resourceSteps mongo)
          (fun h => statusWrite_not_mem_resourceSteps mongo (List.mem_append_left _ h)) _
          (mem_resourceSteps_ok drv pq mongo q hq _) s hs obj ho
      first
        | exact (mem_pass_no_create drv pq req _ mongo hload2 hall).1
        | exact (mem_pass_no_create drv pq req _ mongo hload2 hall).2

theorem second_pass_creates_nothing_witness :
    createdObjects (passCalls sampleEnv sampleRequest
      (afterPass sampleEnv sampleRequest sampleWorld)) = [] ∧
    (afterPass sampleEnv sampleRequest (afterPass sampleEnv sampleRequest sampleWorld)).st.1.clusters
      = (afterPass sampleEnv sampleRequest sampleWorld).st.1.clusters ∧
    (createdObjects (passCalls sampleEnv sampleRequest sampleWorld)).length = 8 :=
  have h := second_pass_creates_nothing healthyDriver acceptNonEmpty sampleRequest sampleWorld
    sampleCluster rfl
  ⟨h.1, h.2.2.2.2, by decide⟩

/-- C5, counterexample. The second of two successive passes over the sample
platform issues six update calls, one for each workload and one for the
config-server and the router endpoint, while the first issued none. -/
theorem second_pass_issues_updates :
    (updatedObjects (passCalls sampleEnv sampleRequest
      (afterPass sampleEnv sampleRequest sampleWorld))).map (fun o => (o.kind, o.meta.Name))
      = [(Kind.StatefulSet, "config"), (Kind.StatefulSet, "mongo-shard0"),
         (Kind.StatefulSet, "mongo-shard1"), (Kind.Deployment, "mongos"),
         (Kind.Service, "demo-configsvr"), (Kind.Service, "demo-mongos")] ∧
    (updatedObjects (passCalls sampleEnv sampleRequest sampleWorld)).length = 0 := by
  decide

/-! ## Which names can coincide (C6) -/

theorem backupName_ne (x y : String) (i : Nat) :
    x ++ "-backup" ≠ y ++ "-configsvr" ∧ x ++ "-backup" ≠ y ++ "-mongos" ∧
    x ++ "-backup" ≠ y ++ "-shard" ++ Nat.repr i := by
  refine ⟨?_, ?_, ?_⟩
  · intro h
    have h1 := data_getLast_append x "-backup" (by decide)
    rw [h, data_getLast_append y "-configsvr" (by decide)] at h1
    exact absurd h1 (by decide)
  · intro h
    have h1 := data_getLast_append x "-backup" (by decide)
    rw [h, data_getLast_append y "-mongos" (by decide)] at h1
    exact absurd h1 (by decide)
  · intro h
    obtain ⟨c, hc, hd⟩ := last_of_repr y "-shard" i
    rw [← h, data_getLast_append x "-backup" (by decide)] at hc
    have : c = 'p' := by
      have h2 : "-backup".data.getLast? = some 'p' := by decide
      rw [h2] at hc
      exact (Option.some.inj hc).symm
    subst this
    exact absurd hd (by decide)

/-- C6, amended. Every resource name is a fixed function of the cluster name and
the shard index: the three workloads are named by constants (`config`,
`mongo-shard<i>`, `mongos`), the endpoints and the backup job are the cluster
name with a suffix. For cluster objects with different names the shard
endpoints (whatever their indices), the config-server endpoints, the router
endpoints and the backup jobs have different names; two shard endpoints have
the same name only for the same cluster name and the same index; and for any
two cluster objects, with different names or not, endpoints of different
roles never share a name, nor does the backup job share one with an
endpoint. -/
theorem resource_names (m1 m2 : MongoDBCluster) (q : String) (i j : Nat) :
    ((configServerStatefulSet q m1).ObjectMeta.Name = "config" ∧
     (shardStatefulSet q m1 (Int.ofNat i)).ObjectMeta.Name = "mongo-shard" ++ Nat.repr i ∧
     (mongosDeployment m1).ObjectMeta.Name = "mongos" ∧
     (shardService m1 (Int.ofNat i)).ObjectMeta.Name = m1.Name ++ "-shard" ++ Nat.repr i ∧
     (configSvrService m1).ObjectMeta.Name = m1.Name ++ "-configsvr" ∧
     (mongosService m1).ObjectMeta.Name = m1.Name ++ "-mongos" ∧
     (backupCronJob m1).ObjectMeta.Name = m1.Name ++ "-backup") ∧
    (m1.Name ≠ m2.Name →
      (shardService m1 (Int.ofNat i)).ObjectMeta.Name
        ≠ (shardService m2 (Int.ofNat j)).ObjectMeta.Name ∧
      (configSvrService m1).ObjectMeta.Name ≠ (configSvrService m2).ObjectMeta.Name ∧
      (mongosService m1).ObjectMeta.Name ≠ (mongosService m2).ObjectMeta.Name ∧
      (backupCronJob m1).ObjectMeta.Name ≠ (backupCronJob m2).ObjectMeta.Name) ∧
    ((shardService m1 (Int.ofNat i)).ObjectMeta.Name
        = (shardService m2 (Int.ofNat j)).ObjectMeta.Name → m1.Name = m2.Name ∧ i = j) ∧
    ((shardService m1 (Int.ofNat i)).ObjectMeta.Name ≠ (configSvrService m2).ObjectMeta.Name ∧
     (shardService m1 (Int.ofNat i)).ObjectMeta.Name ≠ (mongosService m2).ObjectMeta.Name ∧
     (configSvrService m1).ObjectMeta.Name ≠ (mongosService m2).ObjectMeta.Name ∧
     (configSvrService m1).ObjectMeta.Name ≠ (shardService m2 (Int.ofNat j)).ObjectMeta.Name ∧
     (mongosService m1).ObjectMeta.Name ≠ (shardService m2 (Int.ofNat j)).ObjectMeta.Name ∧
     (mongosService m1).ObjectMeta.Name ≠ (configSvrService m2).ObjectMeta.Name) ∧
    ((backupCronJob m1).ObjectMeta.Name ≠ (configSvrService m2).ObjectMeta.Name ∧
     (backupCronJob m1).ObjectMeta.Name ≠ (mongosService m2).ObjectMeta.Name ∧
     (backupCronJob m1).ObjectMeta.Name ≠ (shardService m2 (Int.ofNat j)).ObjectMeta.Name) := by
  refine ⟨⟨rfl, rfl, rfl, rfl, rfl, rfl, rfl⟩, fun hne => ⟨?_, ?_, ?_, ?_⟩, ?_,
    ⟨?_, ?_, ?_, ?_, ?_, ?_⟩, ?_⟩
  · exact fun h => hne (shardName_inj m1.Name m2.Name i j h).1
  · exact fun h => hne (str_append_right_cancel _ _ _ h)
  · exact fun h => hne (str_append_right_cancel _ _ _ h)
  · exact fun h => hne (str_append_right_cancel _ _ _ h)
  · exact fun h => shardName_inj m1.Name m2.Name i j h
  · exact (shardName_ne m1.Name m2.Name i).1
  · exact (shardName_ne m1.Name m2.Name i).2
  · exact configsvrName_ne_mongosName m1.Name m2.Name
  · exact fun h => (shardName_ne m2.Name m1.Name j).1 h.symm
  · exact fun h => (shardName_ne m2.Name m1.Name j).2 h.symm
  · exact fun h => configsvrName_ne_mongosName m2.Name m1.Name h.symm
  · exact backupName_ne m1.Name m2.Name j

theorem resource_names_witness :
    clusterA.Name ≠ clusterB.Name ∧
    (shardService clusterA (Int.ofNat 0)).ObjectMeta.Name
      ≠ (shardService clusterB (Int.ofNat 1)).ObjectMeta.Name ∧
    (shardService clusterA (Int.ofNat 0)).ObjectMeta.Name
      ≠ (configSvrService clusterA).ObjectMeta.Name :=
  ⟨by decide, ((resource_names clusterA clusterB "1Gi" 0 1).2.1 (by decide)).1,
    (resource_names clusterA clusterA "1Gi" 0 0).2.2.2.1.1⟩

/-! ## Admission and the counts (C9) -/

theorem Default_backup (m : MongoDBCluster) :
    (Default m).Spec.StorageSize = m.Spec.StorageSize ∧
    (Default m).Spec.Backup =
      (if (if m.Spec.Backup.Enabled ∧ m.Spec.Backup.Schedule = "" then
            { m.Spec.Backup with Schedule := "0 2 * * *" } else m.Spec.Backup).SecretRef.Name ≠ "" ∧
          (if m.Spec.Backup.Enabled ∧ m.Spec.Backup.Schedule = "" then
            { m.Spec.Backup with Schedule := "0 2 * * *" } else m.Spec.Backup).SecretRef.Namespace
            = "" then
        { (if m.Spec.Backup.Enabled ∧ m.Spec.Backup.Schedule = "" then
            { m.Spec.Backup with Schedule := "0 2 * * *" } else m.Spec.Backup) with
          SecretRef := { (if m.Spec.Backup.Enabled ∧ m.Spec.Backup.Schedule = "" then
            { m.Spec.Backup with Schedule := "0 2 * * *" } else m.Spec.Backup).SecretRef with
              Namespace := m.Namespace } }
      else (if m.Spec.Backup.Enabled ∧ m.Spec.Backup.Schedule = "" then
            { m.Spec.Backup with Schedule := "0 2 * * *" } else m.Spec.Backup)) := by
  unfold Default
  by_cases h0 : m.Spec.ReplicaSetSize = 0 <;> by_cases h1 : m.Spec.Version = "" <;>
    by_cases h2 : (m.Spec.Backup.Enabled = true ∧ m.Spec.Backup.Schedule = "") <;>
    by_cases h3 : (m.Spec.Backup.SecretRef.Name ≠ "" ∧ m.Spec.Backup.SecretRef.Namespace = "") <;>
    simp only [h0, h1, h2, h3, if_true, if_false, and_self, not_false_eq_true, ne_eq]

theorem validationErrors_congr (m m1 : MongoDBCluster) (hb : m.Spec.Backup = m1.Spec.Backup)
    (hs : m.Spec.StorageSize = m1.Spec.StorageSize) :
    validationErrors m = validationErrors m1 := by
  unfold validationErrors
  rw [hb, hs]

theorem validationErrors_Default_withCounts (a b c d : Int) (m : MongoDBCluster) :
    validationErrors (Default (withCounts a b c d m)) = validationErrors (Default m) := by
  apply validationErrors_congr
  · rw [(Default_backup _).2, (Default_backup m).2]
    rfl
  · rw [(Default_backup _).1, (Default_backup m).1]
    rfl

/-- C9, amended. Admission neither checks nor changes the sign of a count.
`Default` hands on the shard, config-server and router counts unchanged and
replaces only a replica-set size of zero, by 3. The verdict of `validateSpec`,
before or after `Default`, is the same whatever the four counts are. So an
object that admission accepts is accepted as well with any four integers as
its counts, negative ones included, and reaches the core with exactly those
counts (a size of zero as 3); and an object submitted with non-negative counts
reaches the core with non-negative counts and a positive size. -/
theorem counts_nonneg_preserved (m : MongoDBCluster) (a b c d : Int) :
    ((Default m).Spec.ReplicaSetCount = m.Spec.ReplicaSetCount ∧
      (Default m).Spec.ConfigServerCount = m.Spec.ConfigServerCount ∧
      (Default m).Spec.MongosCount = m.Spec.MongosCount ∧
      (Default m).Spec.ReplicaSetSize =
        (if m.Spec.ReplicaSetSize = 0 then 3 else m.Spec.ReplicaSetSize)) ∧
    validateSpec (withCounts a b c d m) = validateSpec m ∧
    validateSpec (Default (withCounts a b c d m)) = validateSpec (Default m) ∧
    (validateSpec (Default m) = none →
      validateSpec (Default (withCounts a b c d m)) = none ∧
      (Default (withCounts a b c d m)).Spec.ReplicaSetCount = a ∧
      (Default (withCounts a b c d m)).Spec.ReplicaSetSize = (if b = 0 then 3 else b) ∧
      (Default (withCounts a b c d m)).Spec.ConfigServerCount = c ∧
      (Default (withCounts a b c d m)).Spec.MongosCount = d) ∧
    (0 ≤ m.Spec.ReplicaSetCount → 0 ≤ m.Spec.ReplicaSetSize →
      0 ≤ m.Spec.ConfigServerCount → 0 ≤ m.Spec.MongosCount →
      0 ≤ (Default m).Spec.ReplicaSetCount ∧ 0 < (Default m).Spec.ReplicaSetSize ∧
      0 ≤ (Default m).Spec.ConfigServerCount ∧ 0 ≤ (Default m).Spec.MongosCount) := by
  have hv : validateSpec (Default (withCounts a b c d m)) = validateSpec (Default m) := by
    unfold validateSpec
    rw [validationErrors_Default_withCounts]
  obtain ⟨h1, h2, h3, h4⟩ := Default_counts m
  obtain ⟨k1, k2, k3, k4⟩ := Default_counts (withCounts a b c d m)
  refine ⟨⟨h1, h2, h3, h4⟩, rfl, hv, fun hok => ⟨hv.trans hok, k1, k4, k2, k3⟩, ?_⟩
  intro p1 p2 p3 p4
  refine ⟨h1 ▸ p1, ?_, h2 ▸ p3, h3 ▸ p4⟩
  rw [h4]
  split_ifs with h
  · norm_num
  · omega

theorem counts_nonneg_preserved_witness :
    validateSpec (Default sampleCluster) = none ∧
    (validateSpec (Default (withCounts (-1) (-2) (-3) (-4) sampleCluster)) = none ∧
      (Default (withCounts (-1) (-2) (-3) (-4) sampleCluster)).Spec.ReplicaSetCount = -1 ∧
      (Default (withCounts (-1) (-2) (-3) (-4) sampleCluster)).Spec.ReplicaSetSize
        = (if (-2 : Int) = 0 then 3 else -2) ∧
      (Default (withCounts (-1) (-2) (-3) (-4) sampleCluster)).Spec.ConfigServerCount = -3 ∧
      (Default (withCounts (-1) (-2) (-3) (-4) sampleCluster)).Spec.MongosCount = -4) ∧
    (0 ≤ (Default sampleCluster).Spec.ReplicaSetCount ∧
      0 < (Default sampleCluster).Spec.ReplicaSetSize ∧
      0 ≤ (Default sampleCluster).Spec.ConfigServerCount ∧
      0 ≤ (Default sampleCluster).Spec.MongosCount) :=
  have h := counts_nonneg_preserved sampleCluster (-1) (-2) (-3) (-4)
  ⟨by decide, h.2.2.2.1 (by decide),
    h.2.2.2.2 (by decide) (by decide) (by decide) (by decide)⟩

/-! ## Shard registration, command by command (C17) -/

theorem takeWhile_find_of_none {α : Type} (p : α → Bool) (l : List α)
    (h : ∀ x ∈ l, p x = false) :
    l.takeWhile (fun x => !p x) ++ (l.find? p).toList = l := by
  induction l with
  | nil => rfl
  | cons a t ih =>
    have ha : p a = false := h a (by simp)
    simp only [List.takeWhile_cons, List.find?_cons, ha, Bool.not_false, if_true]
    rw [List.cons_append, ih (fun x hx => h x (by simp [hx]))]

/-- The run of the registration loop when the outcome of each `addShard` is fixed
per shard descriptor: the commands it issues are those of the descriptors with
members, in order, up to and including the first one whose command fails with
an error that is not tolerated; it succeeds exactly when there is none, and
otherwise returns the error of that descriptor. -/
theorem addShards_exact (env : Env σ) (uri : String) (fatal : Shard → Bool) :
    ∀ (shards : List Shard) (w : World σ),
      (∀ s ∈ shards, ∀ st, addShardFatal env uri s st = fatal s) →
      ∃ evs, (addShards env uri shards w).2.trace = w.trace ++ evs ∧
        commandsNamed "addShard" evs =
          (((shards.filter (fun s => decide (s.Members.length ≠ 0))).takeWhile
              (fun s => !fatal s)) ++
            ((shards.filter (fun s => decide (s.Members.length ≠ 0))).find? fatal).toList).map
            addShardCommand ∧
        ((addShards env uri shards w).1 = .ok () ↔
          ∀ s ∈ shards.filter (fun s => decide (s.Members.length ≠ 0)), fatal s = false) ∧
        (∀ s, (shards.filter (fun s => decide (s.Members.length ≠ 0))).find? fatal = some s →
          ∃ e, (addShards env uri shards w).1
            = .err (wrapErr ("failed to add shard " ++ s.ReplicaSetName ++ ": ") e)) := by
  intro shards
  induction shards with
  | nil =>
    intro w _
    exact ⟨[], by simp [addShards], rfl, by simp [addShards], by simp⟩
  | cons shard rest ih =>
    intro w hf
    have hfr : ∀ s ∈ rest, ∀ st, addShardFatal env uri s st = fatal s :=
      fun s hs st => hf s (by simp [hs]) st
    by_cases hm : shard.Members.length = 0
    · rw [addShards, if_pos hm]
      have hfl : ((shard :: rest).filter (fun s => decide (s.Members.length ≠ 0)))
          = rest.filter (fun s => decide (s.Members.length ≠ 0)) := by
        rw [List.filter_cons]
        simp only [hm, ne_eq, not_true_eq_false, decide_False, Bool.false_eq_true, if_false]
      rw [hfl]
      exact ih w hfr
    · rw [addShards, if_neg hm]
      have hfl : ((shard :: rest).filter (fun s => decide (s.Members.length ≠ 0)))
          = shard :: rest.filter (fun s => decide (s.Members.length ≠ 0)) := by
        rw [List.filter_cons]
        simp only [hm, ne_eq, not_false_eq_true, decide_True, if_true]
      rw [hfl]
      have hfs := hf shard (by simp) w.st
      unfold addShardFatal at hfs
      have t1 : (dbRunCommand env uri (addShardCommand shard) w).2.trace
          = w.trace ++ [Call.runCommand uri (addShardCommand shard)] := rfl
      have r1 : (dbRunCommand env uri (addShardCommand shard) w).1.1
          = (env.runCommand uri (addShardCommand shard) w.st).1.1 := rfl
      have hce : ([("addShard",
          Bson.str (shard.ReplicaSetName ++ "/" ++ joinStrings "," shard.Members))] : Doc)
          = addShardCommand shard := rfl
      rw [hce]
      rcases hr : dbRunCommand env uri (addShardCommand shard) w with ⟨⟨r, d⟩, w1⟩
      rw [hr] at t1 r1
      simp only at t1 r1 ⊢
      rw [← r1] at hfs
      have hcons : ∀ evs, commandsNamed "addShard"
          (Call.runCommand uri (addShardCommand shard) :: evs)
          = addShardCommand shard :: commandsNamed "addShard" evs := by
        intro evs
        rw [commandsNamed_cons_runCommand]
        rfl
      have hgo : fatal shard = false →
          ∃ evs, (addShards env uri rest w1).2.trace = w.trace ++ evs ∧
            commandsNamed "addShard" evs =
              (((shard :: rest.filter (fun s => decide (s.Members.length ≠ 0))).takeWhile
                  (fun s => !fatal s)) ++
                ((shard :: rest.filter (fun s => decide (s.Members.length ≠ 0))).find?
                  fatal).toList).map addShardCommand ∧
            ((addShards env uri rest w1).1 = .ok () ↔
              ∀ s ∈ shard :: rest.filter (fun s => decide (s.Members.length ≠ 0)),
                fatal s = false) ∧
            (∀ s, (shard :: rest.filter (fun s => decide (s.Members.length ≠ 0))).find? fatal
                = some s →
              ∃ e, (addShards env uri rest w1).1
                = .err (wrapErr ("failed to add shard " ++ s.ReplicaSetName ++ ": ") e)) := by
        intro hfalse
        obtain ⟨evs, ht, hcmd, hok, herr⟩ := ih w1 hfr
        refine ⟨Call.runCommand uri (addShardCommand shard) :: evs, ?_, ?_, ?_, ?_⟩
        · rw [ht, t1]; simp
        · rw [hcons, hcmd]
          simp only [List.takeWhile_cons, List.find?_cons, hfalse, Bool.not_false, if_true,
            List.cons_append, List.map_cons]
        · rw [hok]
          constructor
          · intro h s hs
            rcases List.mem_cons.mp hs with h1 | h1
            · rw [h1]; exact hfalse
            · exact h s h1
          · intro h s hs
            exact h s (List.mem_cons_of_mem _ hs)
        · intro s hs
          simp only [List.find?_cons, hfalse] at hs
          exact herr s hs
      cases r with
      | ok reply =>
        simp only at hfs ⊢
        exact hgo hfs.symm
      | error e =>
        simp only at hfs ⊢
        cases hx : isAlreadyExistsError e with
        | true =>
          rw [hx] at hfs
          simp only [Bool.not_true, Bool.false_eq_true, if_false]
          exact hgo hfs.symm
        | false =>
          rw [hx] at hfs
          have hfatal : fatal shard = true := hfs.symm
          simp only [Bool.not_false, if_true]
          refine ⟨[Call.runCommand uri (addShardCommand shard)], t1, ?_, ?_, ?_⟩
          · rw [hcons]
            simp only [List.takeWhile_cons, List.find?_cons, hfatal, Bool.not_true,
              Bool.false_eq_true, if_false, List.nil_append, Option.toList, List.map_cons,
              List.map_nil]
            rfl
          · constructor
            · intro h; cases h
            · intro h
              have := h shard (by simp)
              rw [hfatal] at this
              cases this
          · intro s hs
            simp only [List.find?_cons, hfatal, Option.some.injEq] at hs
            subst hs
            exact ⟨e, rfl⟩

/-- After the connection to the router was made, the `addShard` commands of
`InitSharding` are those of its registration loop, and its result is that of
the loop when the loop does not succeed. -/
theorem InitSharding_addShard_calls (env : Env σ) (cfg : ShardConfig) (w : World σ)
    (hc : (dbConnect env cfg.MongosURI false w).1.1 = none) :
    commandsNamed "addShard" (callsSince w (InitSharding env cfg w).2)
      = commandsNamed "addShard" (callsSince (dbConnect env cfg.MongosURI false w).2
          (addShards env cfg.MongosURI cfg.Shards (dbConnect env cfg.MongosURI false w).2).2) ∧
    ((InitSharding env cfg w).1 = .ok () →
      (addShards env cfg.MongosURI cfg.Shards (dbConnect env cfg.MongosURI false w).2).1
        = .ok ()) ∧
    ((addShards env cfg.MongosURI cfg.Shards (dbConnect env cfg.MongosURI false w).2).1
        ≠ .ok () →
      (InitSharding env cfg w).1
        = (addShards env cfg.MongosURI cfg.Shards (dbConnect env cfg.MongosURI false w).2).1) := by
  have t0 : (dbConnect env cfg.MongosURI false w).2.trace
      = w.trace ++ [Call.connect cfg.MongosURI false] := rfl
  rcases InitSharding_run env cfg w with ⟨e, hc2, _, _⟩ |
    ⟨_, adds, hadds, _, _, ⟨hno, hres, ht⟩ | ⟨hok, ⟨hno, hres, ht⟩ | ⟨hok2, hres, ht⟩⟩⟩
  · rw [hc] at hc2; cases hc2
  · have ha : callsSince (dbConnect env cfg.MongosURI false w).2
        (addShards env cfg.MongosURI cfg.Shards (dbConnect env cfg.MongosURI false w).2).2
        = adds := callsSince_of_trace _ _ _ (by rw [hadds, t0])
    rw [ha]
    refine ⟨?_, fun h => absurd (hres ▸ h) hno, fun _ => hres⟩
    rw [List.append_assoc, List.append_assoc] at ht
    rw [callsSince_of_trace _ _ _ ht, commandsNamed_append, commandsNamed_append]
    simp [commandsNamed, Call.command]
  · have ha : callsSince (dbConnect env cfg.MongosURI false w).2
        (addShards env cfg.MongosURI cfg.Shards (dbConnect env cfg.MongosURI false w).2).2
        = adds := callsSince_of_trace _ _ _ (by rw [hadds, t0])
    rw [ha]
    refine ⟨?_, fun _ => hok, fun h => absurd hok h⟩
    rw [List.append_assoc, List.append_assoc, List.append_assoc] at ht
    rw [callsSince_of_trace _ _ _ ht, commandsNamed_append, commandsNamed_append,
      commandsNamed_append, commandsNamed_enable]
    simp [commandsNamed, Call.command]
  · have ha : callsSince (dbConnect env cfg.MongosURI false w).2
        (addShards env cfg.MongosURI cfg.Shards (dbConnect env cfg.MongosURI false w).2).2
        = adds := callsSince_of_trace _ _ _ (by rw [hadds, t0])
    rw [ha]
    refine ⟨?_, fun _ => hok, fun h => absurd hok h⟩
    rw [List.append_assoc, List.append_assoc, List.append_assoc, List.append_assoc] at ht
    rw [callsSince_of_trace _ _ _ ht, commandsNamed_append, commandsNamed_append,
      commandsNamed_append, commandsNamed_append, commandsNamed_enable,
      commandsNamed_collection]
    simp [commandsNamed, Call.command]

/-- C17, amended. Let the outcome of each `addShard` be fixed per shard descriptor
(`fatal`: it fails with an error that is not tolerated). When the connection to
the router is made, the `addShard` commands that `InitSharding` issues are
exactly these, in descriptor order: the commands of the descriptors with a
non-empty member list, each with the value `replicaSetName/members joined by
commas`, up to and including the first one that fails with an error that is
not tolerated, and then `InitSharding` returns that descriptor's error; a
descriptor without members gets no command. All of them are issued when none
fails so, in particular whenever `InitSharding` succeeds; none is issued when
the connection to the router fails. -/
theorem InitSharding_addShard_commands (env : Env σ) (cfg : ShardConfig) (w : World σ)
    (fatal : Shard → Bool)
    (hf : ∀ s ∈ cfg.Shards, ∀ st, addShardFatal env cfg.MongosURI s st = fatal s) :
    ((dbConnect env cfg.MongosURI false w).1.1 = none →
      commandsNamed "addShard" (callsSince w (InitSharding env cfg w).2) =
        (((cfg.Shards.filter (fun s => decide (s.Members.length ≠ 0))).takeWhile
            (fun s => !fatal s)) ++
          ((cfg.Shards.filter (fun s => decide (s.Members.length ≠ 0))).find? fatal).toList).map
          addShardCommand) ∧
    ((dbConnect env cfg.MongosURI false w).1.1 = none →
      ∀ s, (cfg.Shards.filter (fun s => decide (s.Members.length ≠ 0))).find? fatal = some s →
        ∃ e, (InitSharding env cfg w).1
          = .err (wrapErr ("failed to add shard " ++ s.ReplicaSetName ++ ": ") e)) ∧
    ((dbConnect env cfg.MongosURI false w).1.1 = none →
      (∀ s ∈ cfg.Shards.filter (fun s => decide (s.Members.length ≠ 0)), fatal s = false) →
      commandsNamed "addShard" (callsSince w (InitSharding env cfg w).2) =
        (cfg.Shards.filter (fun s => decide (s.Members.length ≠ 0))).map addShardCommand) ∧
    ((InitSharding env cfg w).1 = .ok () →
      (∀ s ∈ cfg.Shards.filter (fun s => decide (s.Members.length ≠ 0)), fatal s = false) ∧
      commandsNamed "addShard" (callsSince w (InitSharding env cfg w).2) =
        (cfg.Shards.filter (fun s => decide (s.Members.length ≠ 0))).map addShardCommand) ∧
    ((∃ e, (dbConnect env cfg.MongosURI false w).1.1 = some e) →
      commandsNamed "addShard" (callsSince w (InitSharding env cfg w).2) = []) ∧
    (∀ s : Shard, addShardCommand s =
      [("addShard", Bson.str (s.ReplicaSetName ++ "/" ++ ",".intercalate s.Members))]) := by
  obtain ⟨evs, ht, hcmd, hok, herr⟩ := addShards_exact env cfg.MongosURI fatal cfg.Shards
    (dbConnect env cfg.MongosURI false w).2 hf
  have hev : callsSince (dbConnect env cfg.MongosURI false w).2
      (addShards env cfg.MongosURI cfg.Shards (dbConnect env cfg.MongosURI false w).2).2 = evs :=
    callsSince_of_trace _ _ _ ht
  have hA : (dbConnect env cfg.MongosURI false w).1.1 = none →
      commandsNamed "addShard" (callsSince w (InitSharding env cfg w).2) =
        (((cfg.Shards.filter (fun s => decide (s.Members.length ≠ 0))).takeWhile
            (fun s => !fatal s)) ++
          ((cfg.Shards.filter (fun s => decide (s.Members.length ≠ 0))).find? fatal).toList).map
          addShardCommand := by
    intro hc
    rw [(InitSharding_addShard_calls env cfg w hc).1, hev, hcmd]
  have hC : (dbConnect env cfg.MongosURI false w).1.1 = none →
      (∀ s ∈ cfg.Shards.filter (fun s => decide (s.Members.length ≠ 0)), fatal s = false) →
      commandsNamed "addShard" (callsSince w (InitSharding env cfg w).2) =
        (cfg.Shards.filter (fun s => decide (s.Members.length ≠ 0))).map addShardCommand := by
    intro hc hall
    rw [hA hc, takeWhile_find_of_none fatal _ hall]
  refine ⟨hA, ?_, hC, ?_, ?_, ?_⟩
  · intro hc s hs
    obtain ⟨e, he⟩ := herr s hs
    refine ⟨e, ?_⟩
    rw [(InitSharding_addShard_calls env cfg w hc).2.2 (by rw [he]; simp), he]
  · intro hres
    rcases InitSharding_run env cfg w with ⟨e, _, herr2, _⟩ | ⟨hc, _⟩
    · rw [herr2] at hres; cases hres
    · have hall := hok.mp ((InitSharding_addShard_calls env cfg w hc).2.1 hres)
      exact ⟨hall, hC hc hall⟩
  · rintro ⟨e, he⟩
    rcases InitSharding_run env cfg w with ⟨e2, _, _, ht2⟩ | ⟨hc, _⟩
    · rw [callsSince_of_trace _ _ _ ht2]
      rfl
    · rw [hc] at he; cases he
  · intro s
    unfold addShardCommand
    rw [joinStrings_eq_intercalate]

theorem InitSharding_addShard_commands_witness :
    (InitSharding (oneShardFailsEnv "mongo-shard2/h2,h3") fourShardConfig sampleWorld).1
      = Res.err (newErr "failed to add shard mongo-shard2: boom") ∧
    commandsNamed "addShard" (callsSince sampleWorld
        (InitSharding (oneShardFailsEnv "mongo-shard2/h2,h3") fourShardConfig sampleWorld).2) =
      [[("addShard", Bson.str "mongo-shard0/h0,h1")],
       [("addShard", Bson.str "mongo-shard2/h2,h3")]] ∧
    fourShardConfig.Shards.map (fun s => (s.ReplicaSetName, s.Members.length))
      = [("mongo-shard0", 2), ("mongo-shard1", 0), ("mongo-shard2", 2), ("mongo-shard3", 1)] := by
  have h := (InitSharding_addShard_commands (oneShardFailsEnv "mongo-shard2/h2,h3")
    fourShardConfig sampleWorld (fun s => decide (s.ReplicaSetName = "mongo-shard2"))
    (by
      intro s hs st
      simp only [fourShardConfig, List.mem_cons, List.mem_singleton, List.not_mem_nil,
        or_false] at hs
      rcases hs with h | h | h | h <;> subst h <;> rfl)).1 rfl
  exact ⟨by decide, h, by decide⟩

/-! ## The two shard bootstrappers side by side (C21) -/

theorem shardingMembers_eq_spec (mongo : MongoDBCluster) (i : Int) :
    shardingMembers mongo i = specShardMembers mongo i :=
  collectRange_shardingHost mongo i

theorem replicationMembers_eq_spec (mongo : MongoDBCluster) (i : Int) :
    replicationMembers mongo i = specShardMembers mongo i :=
  collectRange_shardHost mongo i

/-- C21. For every cluster object with a replica-set size that is not negative and
every shard index, the replication bootstrapper and the sharding bootstrapper
compute the same set name `mongo-shard<i>` and the same ordered member list;
the list has replica-set-size addresses, the j-th being
`mongo-shard<i>-<j>.<cluster name>-shard<i>.<namespace>.svc.cluster.local:27018`;
the replication bootstrapper runs the bootstrap with that name and list, and
the sharding bootstrapper, which computes both before it reads the sharding
policy, hands one shard with that name and list to `InitSharding`; and the
name is the name of shard workload i and its `--replSet` argument. -/
theorem shard_bootstrappers_agree (env : Env σ) (mongo : MongoDBCluster) (shardID : Int)
    (w : World σ) (q : String) (hsize : 0 ≤ mongo.Spec.ReplicaSetSize) :
    replicationSetName shardID = "mongo-shard" ++ itoa shardID ∧
    shardingSetName shardID = replicationSetName shardID ∧
    shardingMembers mongo shardID = replicationMembers mongo shardID ∧
    ((replicationMembers mongo shardID).length : Int) = mongo.Spec.ReplicaSetSize ∧
    (∀ j : Nat, (j : Int) < mongo.Spec.ReplicaSetSize →
      (replicationMembers mongo shardID)[j]? =
        some ("mongo-shard" ++ itoa shardID ++ "-" ++ itoa (Int.ofNat j) ++ "." ++ mongo.Name
          ++ "-shard" ++ itoa shardID ++ "." ++ mongo.Namespace ++ ".svc.cluster.local:27018")) ∧
    (replicationSetName shardID = specShardSetName shardID ∧
      replicationMembers mongo shardID = specShardMembers mongo shardID) ∧
    reconcileReplicaSet env mongo shardID w
      = specBootstrap env (replicationSetName shardID) false
          (replicationMembers mongo shardID) w ∧
    (mongo.Spec.Sharding = none →
      reconcileEnbaleShardingMongos env mongo shardID w
        = (Res.panic "invalid memory address or nil pointer dereference", w)) ∧
    (∀ p : ShardingSpec, mongo.Spec.Sharding = some p →
      reconcileEnbaleShardingMongos env mongo shardID w
        = InitSharding env
            ⟨"mongodb://" ++ mongo.Name ++ "-" ++ "mongos" ++ "." ++ mongo.Namespace
                ++ ".svc.cluster.local:27017",
              [⟨shardingSetName shardID, shardingMembers mongo shardID⟩],
              p.Database, p.Collections, [("_id", Bson.str "hashed")]⟩ w) ∧
    (shardStatefulSet q mongo shardID).ObjectMeta.Name = replicationSetName shardID ∧
    containerArgs (shardStatefulSet q mongo shardID).Template
      = [["mongod", "--replSet", replicationSetName shardID, "--shardsvr", "--bind_ip_all"]] := by
  have hr := replicationMembers_eq_spec mongo shardID
  have hs := shardingMembers_eq_spec mongo shardID
  refine ⟨rfl, rfl, hs.trans hr.symm, ?_, ?_, ⟨rfl, hr⟩, rfl, ?_, ?_, rfl, rfl⟩
  · rw [hr]
    simp only [specShardMembers, List.length_map, List.length_range]
    exact Int.toNat_of_nonneg hsize
  · intro j hj
    have hj2 : j < mongo.Spec.ReplicaSetSize.toNat := by omega
    rw [hr]
    simp [specShardMembers, List.getElem?_range, hj2, specShardAddress]
  · intro hn
    simp only [reconcileEnbaleShardingMongos, hn]
  · intro p hp
    simp only [reconcileEnbaleShardingMongos, hp, shardingSetName, shardingMembers]

theorem shard_bootstrappers_agree_witness :
    0 ≤ sampleCluster.Spec.ReplicaSetSize ∧
    ((replicationMembers sampleCluster 1).length : Int) = sampleCluster.Spec.ReplicaSetSize ∧
    (replicationMembers sampleCluster 1)[2]?
      = some "mongo-shard1-2.demo-shard1.db.svc.cluster.local:27018" ∧
    shardingMembers sampleCluster 1
      = ["mongo-shard1-0.demo-shard1.db.svc.cluster.local:27018",
         "mongo-shard1-1.demo-shard1.db.svc.cluster.local:27018",
         "mongo-shard1-2.demo-shard1.db.svc.cluster.local:27018"] ∧
    shardingMembers sampleCluster 1 = replicationMembers sampleCluster 1 ∧
    shardingMembers noPolicyCluster 1 = replicationMembers noPolicyCluster 1 :=
  have h := shard_bootstrappers_agree sampleEnv sampleCluster 1 sampleWorld "1Gi" (by decide)
  have h2 := shard_bootstrappers_agree sampleEnv noPolicyCluster 1 sampleWorld "1Gi" (by decide)
  ⟨by decide, h.2.2.2.1, h.2.2.2.2.1 2 (by decide), by decide, h.2.2.1, h2.2.2.1⟩

/-! ## The config-server set name at its three places (C23) -/

/-- The selection of a reachable member sends no command. -/
theorem findReachableHost_no_command (env : Env σ) :
    ∀ (members : List String) (w : World σ),
      ∃ evs, (findReachableHost env members w).2.trace = w.trace ++ evs ∧
        ∀ c ∈ evs, c.command = none := by
  intro members
  induction members with
  | nil => intro w; exact ⟨[], by simp [findReachableHost], by simp⟩
  | cons host rest ih =>
    intro w
    unfold findReachableHost
    have t1 : (dbConnect env ("mongodb://" ++ host) true w).2.trace
        = w.trace ++ [Call.connect ("mongodb://" ++ host) true] := rfl
    rcases hc : dbConnect env ("mongodb://" ++ host) true w with ⟨⟨o, c⟩, w1⟩
    rw [hc] at t1
    simp only at t1
    cases o with
    | some e =>
      simp only
      obtain ⟨evs, ht, hall⟩ := ih w1
      refine ⟨Call.connect ("mongodb://" ++ host) true :: evs, by rw [ht, t1]; simp, ?_⟩
      intro x hx
      rcases List.mem_cons.mp hx with h | h
      · rw [h]; rfl
      · exact hall x h
    | none =>
      simp only
      have t2 : (dbPing env ("mongodb://" ++ host) w1).2.trace
          = w1.trace ++ [Call.ping ("mongodb://" ++ host)] := rfl
      rcases hp : dbPing env ("mongodb://" ++ host) w1 with ⟨⟨o2, d⟩, w2⟩
      rw [hp] at t2
      simp only at t2
      have t3 : (dbDisconnect env ("mongodb://" ++ host) w2).trace
          = w2.trace ++ [Call.disconnect ("mongodb://" ++ host)] := rfl
      cases o2 with
      | none =>
        simp only
        refine ⟨[Call.connect ("mongodb://" ++ host) true, Call.ping ("mongodb://" ++ host),
          Call.disconnect ("mongodb://" ++ host)], by rw [t3, t2, t1]; simp, ?_⟩
        intro x hx
        simp only [List.mem_cons, List.mem_singleton, List.not_mem_nil, or_false] at hx
        rcases hx with h | h | h <;> rw [h] <;> rfl
      | some e =>
        simp only
        obtain ⟨evs, ht, hall⟩ := ih (dbDisconnect env ("mongodb://" ++ host) w2)
        refine ⟨[Call.connect ("mongodb://" ++ host) true, Call.ping ("mongodb://" ++ host),
          Call.disconnect ("mongodb://" ++ host)] ++ evs, by rw [ht, t3, t2, t1]; simp, ?_⟩
        intro x hx
        rcases List.mem_append.mp hx with h | h
        · simp only [List.mem_cons, List.mem_singleton, List.not_mem_nil, or_false] at h
          rcases h with h | h | h <;> rw [h] <;> rfl
        · exact hall x h

/-- Every `replSetInitiate` that the statements after the loop of the
config-server bootstrap send carries the configuration document with the set
name `configReplSet`, the config-server flag and the collected members. -/
theorem configServerInitiate_commands (env : Env σ) (members : List String) (w : World σ) :
    ∀ d ∈ commandsNamed "replSetInitiate" (callsSince w (configServerInitiate env members w).2),
      d = [("replSetInitiate", .doc (replSetConfig "configReplSet" true members))] := by
  obtain ⟨evs1, ht1, hall1⟩ := findReachableHost_no_command env members w
  unfold configServerInitiate
  rcases hf : findReachableHost env members w with ⟨r, w1⟩
  rw [hf] at ht1
  simp only at ht1
  have hnone : commandsNamed "replSetInitiate" evs1 = [] :=
    commandsNamed_no_command _ _ hall1
  cases r with
  | ok host =>
    simp only
    obtain ⟨evs2, ht2, _⟩ := InitReplicaSet_rel (Extends.preorder (fun _ => True))
      (Extends.dbFrame env (fun _ => True) (fun _ _ => trivial)) "configReplSet" host true
      members w1
    have h2 : callsSince w1 (InitReplicaSet env "configReplSet" host true members w1).2 = evs2 :=
      callsSince_of_trace _ _ _ ht2
    have h3 : callsSince w (InitReplicaSet env "configReplSet" host true members w1).2
        = evs1 ++ evs2 :=
      callsSince_of_trace _ _ _ (by rw [ht2, ht1, List.append_assoc])
    rw [h3, commandsNamed_append, hnone, List.nil_append, ← h2]
    intro d hd
    rcases InitReplicaSet_initiate_commands env "configReplSet" host true members w1 with
      ⟨h, _⟩ | ⟨h, _⟩
    · rw [h] at hd; cases hd
    · rw [h] at hd
      simpa using hd
  | err e =>
    simp only
    rw [callsSince_of_trace _ _ _ ht1, hnone]
    intro d hd; cases hd
  | panic m =>
    simp only
    rw [callsSince_of_trace _ _ _ ht1, hnone]
    intro d hd; cases hd
  | hang =>
    simp only
    rw [callsSince_of_trace _ _ _ ht1, hnone]
    intro d hd; cases hd

/-- C23. For every cluster object with a config-server count that is not negative,
the router workload's `--configdb` argument is `configReplSet/` followed by
the comma-joined list of exactly config-server-count addresses, in index
order, the i-th being the address that the config-server bootstrap formats
for index i, `config-<i>.<cluster name>-configsvr.<namespace>.svc.cluster.local:27019`;
and the set name in it is the `--replSet` argument of the config-server
workload and the set name that the config-server bootstrap passes to
`InitReplicaSet`, so that every `replSetInitiate` its statements send names
that set. -/
theorem router_configdb (env : Env σ) (q : String) (mongo : MongoDBCluster)
    (members : List String) (w : World σ) (hcount : 0 ≤ mongo.Spec.ConfigServerCount) :
    containerArgs (mongosDeployment mongo).Template =
      [["mongos",
        "--configdb=" ++ ("configReplSet/" ++ ",".intercalate
          ((List.range mongo.Spec.ConfigServerCount.toNat).map
            (fun i => configServerHost mongo (Int.ofNat i)))),
        "--bind_ip_all"]] ∧
    (((List.range mongo.Spec.ConfigServerCount.toNat).map
      (fun i => configServerHost mongo (Int.ofNat i))).length : Int)
        = mongo.Spec.ConfigServerCount ∧
    (∀ i : Nat, (i : Int) < mongo.Spec.ConfigServerCount →
      ((List.range mongo.Spec.ConfigServerCount.toNat).map
        (fun i => configServerHost mongo (Int.ofNat i)))[i]?
        = some ("config-" ++ itoa (Int.ofNat i) ++ "." ++ mongo.Name ++ "-configsvr."
            ++ mongo.Namespace ++ ".svc.cluster.local:27019")) ∧
    (∀ i : Int, configServerHost mongo i =
      "config-" ++ itoa i ++ "." ++ mongo.Name ++ "-configsvr." ++ mongo.Namespace
        ++ ".svc.cluster.local:27019") ∧
    containerArgs (configServerStatefulSet q mongo).Template
      = [["mongod", "--configsvr", "--replSet", "configReplSet", "--bind_ip_all"]] ∧
    reconcileConfigServerReplicaSet env mongo w
      = (if 0 < mongo.Spec.ConfigServerCount then
          waitForReplicaSetHealthy env (configServerHost mongo 0) 5000 w
        else configServerInitiate env [] w) ∧
    (∀ host, (findReachableHost env members w).1 = .ok host →
      configServerInitiate env members w
        = InitReplicaSet env "configReplSet" host true members
            (findReachableHost env members w).2) ∧
    (∀ d ∈ commandsNamed "replSetInitiate"
        (callsSince w (configServerInitiate env members w).2),
      d = [("replSetInitiate", .doc (replSetConfig "configReplSet" true members))]) ∧
    Bson.index "_id" (replSetConfig "configReplSet" true members) = .str "configReplSet" := by
  refine ⟨?_, ?_, ?_, fun i => configServerHost_eq_spec mongo i, rfl, ?_, ?_,
    configServerInitiate_commands env members w, rfl⟩
  · have h : collectRange mongo.Spec.ConfigServerCount (fun i =>
        "config-" ++ itoa i ++ "." ++ mongo.Name ++ "-configsvr." ++ mongo.Namespace
          ++ ".svc.cluster.local:27019")
        = (List.range mongo.Spec.ConfigServerCount.toNat).map
          (fun i => configServerHost mongo (Int.ofNat i)) := by
      unfold collectRange
      exact List.map_congr_left (fun i _ => (configServerHost_eq_spec mongo _).symm)
    simp only [containerArgs, mongosDeployment, joinHosts, h, List.map_cons, List.map_nil,
      joinStrings_eq_intercalate]
  · simp only [List.length_map, List.length_range]
    exact Int.toNat_of_nonneg hcount
  · intro i hi
    have hi2 : i < mongo.Spec.ConfigServerCount.toNat := by omega
    simp [List.getElem?_range, hi2, configServerHost_eq_spec, specConfigAddress]
  · unfold reconcileConfigServerReplicaSet configServerInitiate
    rfl
  · intro host hh
    unfold configServerInitiate
    rcases hf : findReachableHost env members w with ⟨r, w1⟩
    rw [hf] at hh
    simp only at hh
    subst hh
    rfl

theorem router_configdb_witness :
    0 ≤ sampleCluster.Spec.ConfigServerCount ∧
    containerArgs (mongosDeployment sampleCluster).Template =
      [["mongos",
        "--configdb=configReplSet/config-0.demo-configsvr.db.svc.cluster.local:27019," ++
          "config-1.demo-configsvr.db.svc.cluster.local:27019," ++
          "config-2.demo-configsvr.db.svc.cluster.local:27019",
        "--bind_ip_all"]] ∧
    (((List.range sampleCluster.Spec.ConfigServerCount.toNat).map
      (fun i => configServerHost sampleCluster (Int.ofNat i))).length : Int)
        = sampleCluster.Spec.ConfigServerCount ∧
    commandsNamed "replSetInitiate" (callsSince electingWorld
        (configServerInitiate electingEnv (specConfigServerMembers sampleCluster)
          electingWorld).2)
      = [[("replSetInitiate", Bson.doc (replSetConfig "configReplSet" true
          (specConfigServerMembers sampleCluster)))]] ∧
    (∀ d ∈ commandsNamed "replSetInitiate" (callsSince electingWorld
        (configServerInitiate electingEnv (specConfigServerMembers sampleCluster)
          electingWorld).2),
      d = [("replSetInitiate", Bson.doc (replSetConfig "configReplSet" true
          (specConfigServerMembers sampleCluster)))]) := by
  have h := router_configdb electingEnv "1Gi" sampleCluster
    (specConfigServerMembers sampleCluster) electingWorld (by decide)
  exact ⟨by decide, h.1, h.2.1, rfl, h.2.2.2.2.2.2.2.1⟩

end MongoOperator
